import Mathlib

/-!
# SystemVerilog code generation of kratos (`src/codegen.cc`)

A shallow embedding of the code generator: the IR nodes that `codegen.cc`
reads become Lean structures, the members of `Stream` and
`SystemVerilogCodeGen` become one record that every function receives and
returns, and a thrown exception becomes `Except.error`.

Pointers are compared in the source (`stmt->parent() == generator_`,
`var->generator != generator_`), so every node carries the natural number
`addr` that stands for its address.  A write to a node's `verilog_ln` is
recorded in the write log `CodeGen.verilog_ln`.
-/

namespace Kratos

/-! ## IR nodes (expr.hh and the declarations codegen.cc relies on) -/

/-- `enum VarType` of expr.hh. -/
inductive VarType where
  | Base
  | Expression
  | Slice
  | ConstValue
  | PortIO
  | Parameter
  | BaseCasted
  deriving DecidableEq

/-- `AssignmentType` as used by `Stream::operator<<(AssignStmt*)`. -/
inductive AssignmentType where
  | Blocking
  | NonBlocking
  | Undefined
  deriving DecidableEq

/-- `BlockEdgeType` as used by `stmt_code(SequentialStmtBlock*)`. -/
inductive BlockEdgeType where
  | Posedge
  | Negedge
  deriving DecidableEq

/-- `PortDirection` as used by `get_port_str`. -/
inductive PortDirection where
  | In
  | Out
  | InOut
  deriving DecidableEq

/-- `struct Var` of expr.hh: the members codegen.cc reads.  `addr` is the
address of the node, `generator` the address held in `Var::generator`,
`width` the `uint32_t` member, and `str` the text returned by the virtual
`to_string()`, whose overriding definitions are outside the translated
sources. -/
structure Var where
  addr : Nat
  name : String
  width : Nat
  is_signed : Bool
  type_ : VarType
  generator : Nat
  str : String

/-- `VarType type() const { return type_; }` -/
def Var.type (v : Var) : VarType := v.type_

/-- `std::string to_string() const` -/
def Var.to_string (v : Var) : String := v.str

/-- A `Port` is a `Var` with a direction; `is_packed` and `struct_name` are
what `get_port_str` reads of a `PortPacked`. -/
structure Port extends Var where
  port_direction : PortDirection
  is_packed : Bool
  struct_name : String

/-- `struct Param`: `value_str()` is `Const::to_string()`, defined outside the
translated sources, so a parameter carries its rendered value. -/
structure Param where
  value_str : String

/-- `AssignStmt`: `left()`, `right()`, `assign_type()`, and the address
returned by `parent()`. -/
structure AssignStmt where
  addr : Nat
  left : Var
  right : Var
  assign_type : AssignmentType
  parent : Nat

/-- What `stmt_code(ModuleInstantiationStmt*)` reads of `stmt->target()`: the
name, the instance name and the parameter map in iteration order. -/
structure Target where
  name : String
  instance_name : String
  params : List (String × Param)

/-- The statement tree that `dispatch_node` walks.  `Other` is a statement
whose `type()` is none of the five that `dispatch_node` handles, `NonStmt` a
node whose `ast_node_kind()` is not `StmtKind` (`kind` is the text of
`ast_type_to_string`).  A Switch case is labelled by a `Const` or, for the
default case, by a null pointer (`none`).  `port_debug` maps the address of an
internal port to the address of the statement it came from. -/
inductive Stmt where
  | Assign (stmt : AssignStmt)
  | Sequential (addr : Nat) (conditions : List (BlockEdgeType × Var)) (children : List Stmt)
  | Combinational (addr : Nat) (children : List Stmt)
  | If (addr : Nat) (predicate : Var) (then_body : List Stmt) (else_body : List Stmt)
  | ModuleInstantiation (addr : Nat) (target : Target) (port_mapping : List (Var × Var))
      (port_debug : List (Nat × Nat))
  | Switch (addr : Nat) (target : Var) (body : List (Option Var × List Stmt))
  | Other (addr : Nat)
  | NonStmt (kind : String)

/-- A Generator as the code generator sees it.  `ports` holds the declared
ports in the iteration order of the port-name set, `params` and `vars` the
parameter and variable maps in iteration order, `stmts` the statements in
`get_stmt` index order. -/
structure Generator where
  addr : Nat
  name : String
  external : Bool
  debug : Bool
  ports : List Port
  params : List (String × Param)
  vars : List Var
  stmts : List Stmt

/-- `generator->get_port_names()` -/
def Generator.get_port_names (g : Generator) : List String :=
  g.ports.map (fun p => p.name)

/-- `generator->get_port(port_name)`; `none` is the null pointer. -/
def Generator.get_port (g : Generator) (port_name : String) : Option Port :=
  g.ports.find? (fun p => decide (p.name = port_name))

/-- `generator->get_vars()` -/
def Generator.get_vars (g : Generator) : List String :=
  g.vars.map (fun v => v.name)

/-- `generator->get_var(var_name)`; `none` is the null pointer. -/
def Generator.get_var (g : Generator) (var_name : String) : Option Var :=
  g.vars.find? (fun v => decide (v.name = var_name))

/-! ## Stream and code generator state -/

/-- What a failed run ends in: a thrown `std::runtime_error` with its message,
or the dereference of a null pointer. -/
inductive CodegenError where
  | runtime_error (what : String)
  | null_dereference

/-- The members of `Stream` (`stream_`: the characters written so far,
`line_no_`) and of `SystemVerilogCodeGen` (`indent_`, `skip_indent_`),
together with the log of writes to `verilog_ln` fields as pairs
(address of the node, line number stored). -/
structure CodeGen where
  stream_ : String
  line_no_ : Nat
  indent_ : Nat
  skip_indent_ : Bool
  verilog_ln : List (Nat × Nat)

/-- Modelled from the spec: `indent_size` is declared in codegen.hh, which is
not among the translated sources; "Indentation uses a fixed step (two
spaces)". -/
def indent_size : Nat := 2

/-- Modelled from the spec: `join` of util.hh is not among the translated
sources; the elements separated by `sep` ("comma-separated", "separated by"). -/
def join : List String → String → String
  | [], _ => ""
  | [x], _ => x
  | x :: y :: rest, sep => x ++ sep ++ join (y :: rest) sep

/-- `stream << text` for a string or a character sequence. -/
def Stream.write (s : CodeGen) (text : String) : CodeGen :=
  { s with stream_ := s.stream_ ++ text }

/-- Modelled from the spec: `stream << endl()`.  `Stream::endl()` is declared
in codegen.hh, not among the translated sources; it yields the newline
character (`std::string(1, stream_.endl())`) and advances the line number that
debug mode stamps onto the nodes. -/
def Stream.endl (s : CodeGen) : CodeGen :=
  { s with stream_ := s.stream_ ++ "\n", line_no_ := s.line_no_ + 1 }

/-- The assignment `node->verilog_ln = line_no_`. -/
def set_verilog_ln (s : CodeGen) (addr : Nat) : CodeGen :=
  { s with verilog_ln := s.verilog_ln ++ [(addr, s.line_no_)] }

/-- `if (generator_->debug) { node->verilog_ln = line_no_; }` -/
def debug_verilog_ln (g : Generator) (s : CodeGen) (addr : Nat) : CodeGen :=
  if g.debug then set_verilog_ln s addr else s

/-- A string of `n` spaces. -/
def spaces (n : Nat) : String := String.mk (List.replicate n ' ')

/-- `SystemVerilogCodeGen::indent()`: the text returned and the state left.
`num_indent` is a `uint32_t`. -/
def indent (s : CodeGen) : String × CodeGen :=
  if s.skip_indent_ then ("", { s with skip_indent_ := false })
  else (spaces ((s.indent_ * indent_size) % 2 ^ 32), s)

/-- `indent_++`.  `indent_` is declared in codegen.hh, which is not among the
translated sources; the only value read from it is `indent_ * indent_size`
reduced to `uint32_t` in `indent()`, and every `indent_--` follows an
`indent_++`, so the counter is kept as a natural number. -/
def indent_inc (s : CodeGen) : CodeGen := { s with indent_ := s.indent_ + 1 }

/-- `indent_--` -/
def indent_dec (s : CodeGen) : CodeGen := { s with indent_ := s.indent_ - 1 }

/-- `SystemVerilogCodeGen::get_var_width_str`; `var->width - 1` is a
subtraction of `uint32_t`. -/
def get_var_width_str (var : Var) : String :=
  if var.width > 1 then "[" ++ Nat.repr ((2 ^ 32 + var.width - 1) % 2 ^ 32) ++ ":0]" else ""

/-- `SystemVerilogCodeGen::get_port_str`.  `port_dir_to_str` is defined
outside the translated sources and is a parameter. -/
def get_port_str (port_dir_to_str : PortDirection → String) (port : Port) : String :=
  let strs : List String := [port_dir_to_str port.port_direction]
  let strs := if !port.is_packed then strs ++ ["logic"] else strs ++ [port.struct_name]
  let strs := if port.is_signed then strs ++ ["signed"] else strs
  let strs := if !port.is_packed then strs ++ [get_var_width_str port.toVar] else strs
  let strs := strs ++ [port.name]
  join strs " "

/-- `Stream::operator<<(AssignStmt*)` -/
def Stream.assign (g : Generator) (s : CodeGen) (stmt : AssignStmt) :
    Except CodegenError CodeGen :=
  let left := stmt.left.to_string
  let right := stmt.right.to_string
  let s := debug_verilog_ln g s stmt.addr
  if stmt.parent = g.addr then
    if stmt.assign_type ≠ AssignmentType.Blocking then
      .error (.runtime_error
        ("Top level assignment for " ++ left ++ " <- " ++ right ++ " has to be blocking"))
    else
      .ok (Stream.endl (Stream.write s ("assign " ++ left ++ " = " ++ right ++ ";")))
  else
    if stmt.assign_type = AssignmentType.Blocking then
      let r := indent s
      .ok (Stream.endl (Stream.write r.2 (r.1 ++ left ++ " = " ++ right ++ ";")))
    else if stmt.assign_type = AssignmentType.NonBlocking then
      let r := indent s
      .ok (Stream.endl (Stream.write r.2 (r.1 ++ left ++ " <= " ++ right ++ ";")))
    else
      .error (.runtime_error ("Undefined assignment for " ++ left ++ " <- " ++ right))

/-- `Stream::operator<<(const std::pair<Port*, std::string>&)` -/
def Stream.port (port_dir_to_str : PortDirection → String) (g : Generator) (s : CodeGen)
    (port : Port × String) : CodeGen :=
  let s := debug_verilog_ln g s port.1.addr
  let r := indent s
  Stream.endl (Stream.write (Stream.write (Stream.write r.2 r.1)
    (get_port_str port_dir_to_str port.1)) port.2)

/-- `Stream::operator<<(const std::shared_ptr<Var>&)` -/
def Stream.var (g : Generator) (s : CodeGen) (var : Var) : CodeGen :=
  let s := debug_verilog_ln g s var.addr
  Stream.endl (Stream.write s
    ("logic " ++ (if var.is_signed then "signed" else "") ++ " " ++ get_var_width_str var
      ++ " " ++ var.name ++ ";"))

/-- `a ≤ b` for `std::string`: the negation of `operator<` swapped, the
lexicographic order of the characters. -/
def string_le (a b : String) : Prop := a.data ≤ b.data

instance : DecidableRel string_le :=
  fun a b => inferInstanceAs (Decidable (a.data ≤ b.data))

instance : IsTotal String string_le := ⟨fun a b => le_total a.data b.data⟩

instance : IsTrans String string_le :=
  ⟨fun a b c (h1 : a.data ≤ b.data) (h2 : b.data ≤ c.data) => le_trans h1 h2⟩

instance : IsAntisymm String string_le :=
  ⟨fun a b (h1 : a.data ≤ b.data) (h2 : b.data ≤ a.data) => String.ext (le_antisymm h1 h2)⟩

/-- `std::sort(port_names.begin(), port_names.end())`: the ascending
arrangement of the names. -/
def sort (port_names : List String) : List String :=
  List.insertionSort string_le port_names

/-- The loop of `generate_ports`: `i` is the index, `size` is
`port_names.size()`. -/
def generate_ports_loop (port_dir_to_str : PortDirection → String) (g : Generator)
    (size : Nat) : Nat → List String → CodeGen → Except CodegenError CodeGen
  | _, [], s => .ok s
  | i, port_name :: rest, s =>
    match g.get_port port_name with
    | none => .error .null_dereference
    | some port =>
      generate_ports_loop port_dir_to_str g size (i + 1) rest
        (Stream.port port_dir_to_str g s (port, if i = size - 1 then "" else ","))

/-- `SystemVerilogCodeGen::generate_ports` -/
def generate_ports (port_dir_to_str : PortDirection → String) (g : Generator) (s : CodeGen) :
    Except CodegenError CodeGen :=
  let s := indent_inc s
  let port_names := sort g.get_port_names
  match generate_ports_loop port_dir_to_str g port_names.length 0 port_names s with
  | .error e => .error e
  | .ok s => .ok (indent_dec s)

/-- The loop of `generate_variables`. -/
def generate_variables_loop (g : Generator) : List String → CodeGen → Except CodegenError CodeGen
  | [], s => .ok s
  | var_name :: rest, s =>
    match g.get_var var_name with
    | none => .error .null_dereference
    | some var =>
      if var.type = VarType.Base then generate_variables_loop g rest (Stream.var g s var)
      else generate_variables_loop g rest s

/-- `SystemVerilogCodeGen::generate_variables` -/
def generate_variables (g : Generator) (s : CodeGen) : Except CodegenError CodeGen :=
  generate_variables_loop g g.get_vars s

/-- The loop of `generate_parameters`. -/
def generate_parameters_loop : List (String × Param) → CodeGen → CodeGen
  | [], s => s
  | (name, param) :: rest, s =>
    generate_parameters_loop rest
      (Stream.endl (Stream.write s ("parameter " ++ name ++ " = " ++ param.value_str ++ ";")))

/-- `SystemVerilogCodeGen::generate_parameters` -/
def generate_parameters (g : Generator) (s : CodeGen) : CodeGen :=
  generate_parameters_loop g.params s

/-- `SystemVerilogCodeGen::stmt_code(AssignStmt*)` -/
def stmt_code_assign (g : Generator) (s : CodeGen) (stmt : AssignStmt) :
    Except CodegenError CodeGen :=
  if (stmt.left.type = VarType.PortIO ∧ stmt.left.generator ≠ g.addr) ∨
      (stmt.right.type = VarType.PortIO ∧ stmt.right.generator ≠ g.addr) then
    .ok s
  else Stream.assign g s stmt

/-- The sensitivity list of `stmt_code(SequentialStmtBlock*)`. -/
def sensitive_list (conditions : List (BlockEdgeType × Var)) : List String :=
  conditions.map (fun c =>
    (if c.1 = BlockEdgeType.Posedge then "posedge" else "negedge") ++ " " ++ c.2.to_string)

/-- The parameter loop of `stmt_code(ModuleInstantiationStmt*)`; `count` is a
`uint32_t`, `size` is `params.size()`. -/
def module_params_loop (size : Nat) : Nat → List (String × Param) → CodeGen → CodeGen
  | _, [], s => s
  | count, (name, param) :: rest, s =>
    let r := indent s
    let count := (count + 1) % 2 ^ 32
    if count = size then
      module_params_loop size count rest
        (Stream.write (Stream.write r.2 r.1) ("." ++ name ++ "(" ++ param.value_str ++ ")" ++ ")"))
    else
      module_params_loop size count rest
        (Stream.endl
          (Stream.write (Stream.write r.2 r.1) ("." ++ name ++ "(" ++ param.value_str ++ ")" ++ ",")))

/-- The port-mapping loop of `stmt_code(ModuleInstantiationStmt*)`; `count` is
a `uint32_t`, `size` is `stmt->port_mapping().size()`, a `size_t`. -/
def module_ports_loop (g : Generator) (port_debug : List (Nat × Nat)) (size : Nat) :
    Nat → List (Var × Var) → CodeGen → CodeGen
  | _, [], s => s
  | count, (internal, external) :: rest, s =>
    let s :=
      match g.debug, port_debug.lookup internal.addr with
      | true, some node => set_verilog_ln s node
      | _, _ => s
    let end_ := if count < (2 ^ 64 + size - 1) % 2 ^ 64 then ")," else ")"
    let r := indent s
    module_ports_loop g port_debug size ((count + 1) % 2 ^ 32) rest
      (Stream.endl (Stream.write (Stream.write r.2 r.1)
        ("." ++ internal.to_string ++ "(" ++ external.to_string ++ end_)))

/-- `SystemVerilogCodeGen::stmt_code(ModuleInstantiationStmt*)` -/
def stmt_code_module (g : Generator) (s : CodeGen) (addr : Nat) (target : Target)
    (port_mapping : List (Var × Var)) (port_debug : List (Nat × Nat)) : CodeGen :=
  let s := set_verilog_ln s addr
  let r := indent s
  let s := Stream.write (Stream.write r.2 r.1) target.name
  let s :=
    if !target.params.isEmpty then
      let s := indent_inc (Stream.endl (Stream.write s " #("))
      indent_dec (module_params_loop target.params.length 0 target.params s)
    else s
  let s := Stream.endl (Stream.write (Stream.write (Stream.write s " ") target.instance_name) " (")
  let s := indent_inc s
  let s := module_ports_loop g port_debug port_mapping.length 0 port_mapping s
  indent_dec (Stream.endl (Stream.endl (Stream.write s ");")))

/-- `stream_ << indent() << text << stream_.endl()` -/
def write_line (s : CodeGen) (text : String) : CodeGen :=
  let r := indent s
  Stream.endl (Stream.write (Stream.write r.2 r.1) text)

/-- `stmt->type() == StatementType::If` -/
def Stmt.is_if : Stmt → Bool
  | .If _ _ _ _ => true
  | _ => false

mutual

/-- `SystemVerilogCodeGen::dispatch_node` together with the `stmt_code`
overloads it calls. -/
def dispatch_node (g : Generator) : CodeGen → Stmt → Except CodegenError CodeGen
  | _, .NonStmt kind =>
    .error (.runtime_error ("Cannot codegen non-statement node. Got " ++ kind))
  | s, .Assign stmt => stmt_code_assign g s stmt
  | s, .Sequential addr conditions children => do
    let s := debug_verilog_ln g s addr
    let sensitive_list_str := join (sensitive_list conditions) ", "
    let s := Stream.endl (Stream.write (Stream.write (Stream.write (Stream.endl s) "always @(")
      sensitive_list_str) ") begin")
    let s := indent_inc s
    let s ← dispatch_nodes g s children
    let s := indent_dec s
    pure (write_line s "end")
  | s, .Combinational addr children => do
    let s := debug_verilog_ln g s addr
    let s := Stream.endl (Stream.write s "always_comb begin")
    let s := indent_inc s
    let s ← dispatch_nodes g s children
    let s := indent_dec s
    pure (write_line s "end")
  | s, .If addr predicate then_body else_body => do
    let s := debug_verilog_ln g s addr
    let s := write_line s ("if (" ++ predicate.to_string ++ ") begin")
    let s := indent_inc s
    let s ← dispatch_nodes g s then_body
    let s := indent_dec s
    let s := write_line s "end"
    match else_body with
    | [] => pure s
    | if_stmt :: rest =>
      if rest.isEmpty && if_stmt.is_if then
        let r := indent s
        let s := Stream.write (Stream.write r.2 r.1) "else "
        let s := { s with skip_indent_ := true }
        dispatch_node g s if_stmt
      else
        let s := write_line s "else begin"
        let s := indent_inc s
        let s ← dispatch_nodes g s (if_stmt :: rest)
        let s := indent_dec s
        pure (write_line s "end")
  | s, .ModuleInstantiation addr target port_mapping port_debug =>
    pure (stmt_code_module g s addr target port_mapping port_debug)
  | s, .Switch _ target body => do
    let r := indent s
    let s := Stream.endl (Stream.write (Stream.write (Stream.write (Stream.write r.2 r.1) "case (")
      target.to_string) ")")
    let s := indent_inc s
    let s ← switch_cases g s body
    let s := indent_dec s
    pure (write_line s "endcase")
  | _, .Other _ => .error (.runtime_error "Not implemented")

/-- The loops `for (...) dispatch_node(child)` over a list of statements. -/
def dispatch_nodes (g : Generator) : CodeGen → List Stmt → Except CodegenError CodeGen
  | s, [] => pure s
  | s, stmt :: rest => do
    let s ← dispatch_node g s stmt
    dispatch_nodes g s rest

/-- The loop over `stmt->body()` of `stmt_code(SwitchStmt*)`. -/
def switch_cases (g : Generator) :
    CodeGen → List (Option Var × List Stmt) → Except CodegenError CodeGen
  | s, [] => pure s
  | s, (first, second) :: rest => do
    let r := indent s
    let s := Stream.write (Stream.write (Stream.write r.2 r.1)
      (match first with
       | some value => value.to_string
       | none => "default")) ": "
    if second.isEmpty then
      match first with
      | some value =>
        .error (.runtime_error ("Switch statement condition " ++ value.to_string ++ " is empty!"))
      | none => .error .null_dereference
    else
      let s := Stream.endl (Stream.write s "begin")
      let s := indent_inc s
      let s ← dispatch_nodes g s second
      let s := indent_dec s
      let s := write_line s "end"
      switch_cases g s rest

end

/-- The state of a freshly constructed code generator: `line_no_(1)` in the
constructor of `Stream`.  Modelled from the spec: `indent_` and
`skip_indent_` get their initial values in codegen.hh, which is not among the
translated sources; level 0 and no pending skip. -/
def CodeGen.init : CodeGen :=
  { stream_ := "", line_no_ := 1, indent_ := 0, skip_indent_ := false, verilog_ln := [] }

/-- The constructor `SystemVerilogCodeGen::SystemVerilogCodeGen(Generator*)`;
the text produced is `stream_` of the result. -/
def SystemVerilogCodeGen (port_dir_to_str : PortDirection → String) (g : Generator) :
    Except CodegenError CodeGen :=
  let s := CodeGen.init
  if g.external then .ok s
  else
    let s := Stream.endl (Stream.write s ("module " ++ g.name ++ " ("))
    match generate_ports port_dir_to_str g s with
    | .error e => .error e
    | .ok s =>
      let s := Stream.endl (Stream.endl (Stream.write s ");"))
      let s := generate_parameters g s
      match generate_variables g s with
      | .error e => .error e
      | .ok s =>
        match dispatch_nodes g s g.stmts with
        | .error e => .error e
        | .ok s => .ok (Stream.endl (Stream.write s ("endmodule   // " ++ g.name)))

/-- The text `indent()` returns in a state of level `d` and skip flag `k`. -/
def indent_text (d : Nat) (k : Bool) : String :=
  if k then "" else spaces ((d * indent_size) % 2 ^ 32)

/-! ## Texts used to state the properties of the emitted module -/

/-- The concatenation of a list of texts. -/
def concat : List String → String
  | [] => ""
  | x :: xs => x ++ concat xs

/-- A state of level `d` in which nothing has been written and no skip is
pending. -/
def CodeGen.at_level (d : Nat) : CodeGen :=
  { stream_ := "", line_no_ := 1, indent_ := d, skip_indent_ := false, verilog_ln := [] }

/-- The text `dispatch_node` writes for `stmt` at indentation level `d` with
no pending skip: the stream of a run that starts with an empty stream. -/
def emit (g : Generator) (d : Nat) (stmt : Stmt) : Except CodegenError String :=
  match dispatch_node g (CodeGen.at_level d) stmt with
  | .ok s => .ok s.stream_
  | .error e => .error e

/-- Each statement of `stmts` writes the text at the same position of `texts`
when dispatched at level `d`. -/
def Emits (g : Generator) (d : Nat) (stmts : List Stmt) (texts : List String) : Prop :=
  List.Forall₂ (fun stmt text => emit g d stmt = .ok text) stmts texts

/-- The ports of `g` in the order in which `generate_ports` visits them. -/
def sorted_ports (g : Generator) : List Port :=
  (sort g.get_port_names).filterMap g.get_port

/-- The line of the port at index `i` of `size`, written at level `d`: the
port text, a comma unless the port is the last one, and the newline. -/
def port_line (port_dir_to_str : PortDirection → String) (d size i : Nat) (port : Port) : String :=
  indent_text d false ++ get_port_str port_dir_to_str port ++ (if i = size - 1 then "" else ",")
    ++ "\n"

/-- The lines of the ports `ports`, the first of which has index `i`. -/
def port_lines_from (port_dir_to_str : PortDirection → String) (d size : Nat) :
    Nat → List Port → List String
  | _, [] => []
  | i, port :: rest =>
    port_line port_dir_to_str d size i port :: port_lines_from port_dir_to_str d size (i + 1) rest

/-- The port lines of `g`, written at level `d`. -/
def port_lines (port_dir_to_str : PortDirection → String) (d : Nat) (g : Generator) :
    List String :=
  port_lines_from port_dir_to_str d (sorted_ports g).length 0 (sorted_ports g)

/-- The parameter lines of `g`. -/
def param_lines (params : List (String × Param)) : List String :=
  params.map (fun np => "parameter " ++ np.1 ++ " = " ++ np.2.value_str ++ ";" ++ "\n")

/-- The declaration line of a variable. -/
def var_line (var : Var) : String :=
  "logic " ++ (if var.is_signed then "signed" else "") ++ " " ++ get_var_width_str var
    ++ " " ++ var.name ++ ";" ++ "\n"

/-- The variables that `generate_variables` visits, in order. -/
def visited_vars (g : Generator) : List Var :=
  g.get_vars.filterMap g.get_var

/-- The declaration lines of `g`: one for each visited variable of type `Base`. -/
def var_lines (g : Generator) : List String :=
  ((visited_vars g).filter (fun v => decide (v.type = VarType.Base))).map var_line

/-- The text of the module of `g` when its statements write `texts`: the
header line, the port lines, the line `);` and an empty line, the parameter
lines, the declarations, the statements and the `endmodule` line. -/
def module_text (port_dir_to_str : PortDirection → String) (g : Generator)
    (texts : List String) : String :=
  "module " ++ g.name ++ " (" ++ "\n" ++ concat (port_lines port_dir_to_str 1 g) ++ ");" ++ "\n"
    ++ "\n" ++ concat (param_lines g.params) ++ concat (var_lines g) ++ concat texts
    ++ "endmodule   // " ++ g.name ++ "\n"

/-- The text of a Sequential block written at level `d` whose children write
`texts`: an empty line, the header with the sensitivity list, the children
and the closing `end`. -/
def sequential_text (conditions : List (BlockEdgeType × Var)) (d : Nat)
    (texts : List String) : String :=
  "\n" ++ "always @(" ++
    join (conditions.map (fun c =>
      (if c.1 = BlockEdgeType.Posedge then "posedge" else "negedge") ++ " " ++ c.2.to_string))
      ", "
    ++ ") begin" ++ "\n" ++ concat texts ++ spaces (2 * d) ++ "end" ++ "\n"

/-- The part of `stmt_code(IfStmt*)` that follows the `end` of the then-body:
the code for the else-body, run in the state `s` left by that `end`. -/
def else_code (g : Generator) (s : CodeGen) : List Stmt → Except CodegenError CodeGen
  | [] => pure s
  | if_stmt :: rest =>
    if rest.isEmpty && if_stmt.is_if then
      let r := indent s
      let s := Stream.write (Stream.write r.2 r.1) "else "
      let s := { s with skip_indent_ := true }
      dispatch_node g s if_stmt
    else do
      let s := write_line s "else begin"
      let s := indent_inc s
      let s ← dispatch_nodes g s (if_stmt :: rest)
      let s := indent_dec s
      pure (write_line s "end")

/-- The text of an If from its keyword on, at level `d`, when the then-body
writes `texts`: `if (<predicate>) begin`, the then-body and the `end` line. -/
def if_text (predicate : Var) (d : Nat) (texts : List String) : String :=
  "if (" ++ predicate.to_string ++ ") begin" ++ "\n" ++ concat texts ++ spaces (2 * d) ++ "end"
    ++ "\n"

/-- The label of a Switch case: the value, or `default` for a null pointer. -/
def case_label : Option Var → String
  | some value => value.to_string
  | none => "default"

/-- The text of a Switch case written at level `d` whose body writes `texts`:
`<label>: begin`, the body and the `end` line. -/
def case_text (d : Nat) (first : Option Var) (texts : List String) : String :=
  spaces (2 * d) ++ case_label first ++ ": " ++ "begin" ++ "\n" ++ concat texts
    ++ spaces (2 * d) ++ "end" ++ "\n"

/-- Each case of `body` writes the text at the same position of `case_texts`:
its line `<label>: begin` and its `end` at level `d`, its statements at level
`d + 1`. -/
def CaseEmits (g : Generator) (d : Nat) (body : List (Option Var × List Stmt))
    (case_texts : List String) : Prop :=
  List.Forall₂ (fun c text => ∃ texts, Emits g (d + 1) c.2 texts ∧ text = case_text d c.1 texts)
    body case_texts

/-- The text of a Switch written at level `d` whose cases write `case_texts`. -/
def switch_text (target : Var) (d : Nat) (case_texts : List String) : String :=
  spaces (2 * d) ++ "case (" ++ target.to_string ++ ")" ++ "\n" ++ concat case_texts
    ++ spaces (2 * d) ++ "endcase" ++ "\n"

/-- The entry of parameter number `i` (counted from 1) of `m`, written at level
`d`: `.NAME(VALUE)`, then `)` for the last parameter and `,` and a newline for
the others. -/
def param_entry (d m i : Nat) (np : String × Param) : String :=
  spaces (2 * d) ++ "." ++ np.1 ++ "(" ++ np.2.value_str ++ ")"
    ++ (if i = m then ")" else "," ++ "\n")

/-- The entries of the parameters `params`, the first of which has number
`i + 1`. -/
def param_entries_from (d m : Nat) : Nat → List (String × Param) → List String
  | _, [] => []
  | i, np :: rest => param_entry d m (i + 1) np :: param_entries_from d m (i + 1) rest

/-- The line of port connection number `k` (counted from 0) of `n`, written at
level `d`: `.<internal>(<external>`, then `),` unless it is the last one, `)`
for the last one, and a newline. -/
def connection_line (d n k : Nat) (c : Var × Var) : String :=
  spaces (2 * d) ++ "." ++ c.1.to_string ++ "(" ++ c.2.to_string
    ++ (if k + 1 < n then ")," else ")") ++ "\n"

/-- The lines of the port connections `mapping`, the first of which has number
`k`. -/
def connection_lines_from (d n : Nat) : Nat → List (Var × Var) → List String
  | _, [] => []
  | k, c :: rest => connection_line d n k c :: connection_lines_from d n (k + 1) rest

/-- The parameter block of a module instantiation written at level `d`:
nothing when the target has no parameter, else ` #(`, a newline and the
entries at level `d + 1`. -/
def param_block (d : Nat) (params : List (String × Param)) : String :=
  if params.isEmpty then ""
  else " #(" ++ "\n" ++ concat (param_entries_from (d + 1) params.length 0 params)

/-- The text of a module instantiation written at level `d`. -/
def instantiation_text (target : Target) (port_mapping : List (Var × Var)) (d : Nat) : String :=
  spaces (2 * d) ++ target.name ++ param_block d target.params ++ " " ++ target.instance_name
    ++ " (" ++ "\n" ++ concat (connection_lines_from (d + 1) port_mapping.length 0 port_mapping)
    ++ ");" ++ "\n" ++ "\n"

mutual

/-- No module instantiation occurs in the statement. -/
def Stmt.no_instantiation : Stmt → Bool
  | .Assign _ => true
  | .Sequential _ _ children => no_instantiation_list children
  | .Combinational _ children => no_instantiation_list children
  | .If _ _ then_body else_body =>
    no_instantiation_list then_body && no_instantiation_list else_body
  | .ModuleInstantiation _ _ _ _ => false
  | .Switch _ _ body => no_instantiation_cases body
  | .Other _ => true
  | .NonStmt _ => true

/-- No module instantiation occurs in the statements. -/
def no_instantiation_list : List Stmt → Bool
  | [] => true
  | stmt :: rest => stmt.no_instantiation && no_instantiation_list rest

/-- No module instantiation occurs in the cases. -/
def no_instantiation_cases : List (Option Var × List Stmt) → Bool
  | [] => true
  | (_, second) :: rest => no_instantiation_list second && no_instantiation_cases rest

end

/-! ## Construction of assignments -/

/-- The error kinds of the specification that the construction of an
assignment raises. -/
inductive AssignError where
  | WidthMismatch
  | SignednessMismatch
  | MixedAssignment
  deriving DecidableEq

/-- Modelled from the spec: the signedness rule of an AssignStmt, whose check
is part of the constructor of `AssignStmt` (stmt.cc, not among the translated
sources): the two sides are compatible when their signedness is equal, or the
right side is an implicitly widened constant. -/
def compatible_signedness (left right : Var) : Bool :=
  left.is_signed == right.is_signed || right.type == VarType.ConstValue

/-- The AssignStmt `st` has `x` as its left and `y` as its right side. -/
def same_pair (st : AssignStmt) (x y : Var) : Bool :=
  st.left.addr == x.addr && st.right.addr == y.addr

/-- Two assignment types are mixed when both are explicit (Blocking or
NonBlocking) and they differ. -/
def mixed (t1 t2 : AssignmentType) : Bool :=
  t1 != AssignmentType.Undefined && t2 != AssignmentType.Undefined && t1 != t2

/-- Modelled from the spec: `Var::assign(var, type)`, declared in expr.hh; its
definition and the constructor of `AssignStmt` are not among the translated
sources.  `stmts` holds the AssignStmts that exist, `addr` is the address a
new AssignStmt gets.  Construction rejects a width mismatch and incompatible
signedness; as in the assignment test (tests/test_stmt.cc), an explicit type
is rejected when the same pair already has an AssignStmt of the other explicit
type; an identical (left, right, type) triple resolves to the existing
AssignStmt; otherwise a new AssignStmt, without a parent yet, is created.  The
result is the outcome of the call and the AssignStmts that exist after it. -/
def Var.assign (stmts : List AssignStmt) (addr : Nat) (x y : Var) (type : AssignmentType) :
    Except AssignError AssignStmt × List AssignStmt :=
  if x.width ≠ y.width then (.error .WidthMismatch, stmts)
  else if !compatible_signedness x y then (.error .SignednessMismatch, stmts)
  else if stmts.any (fun st => same_pair st x y && mixed st.assign_type type) then
    (.error .MixedAssignment, stmts)
  else
    match stmts.find? (fun st => same_pair st x y && st.assign_type == type) with
    | some st => (.ok st, stmts)
    | none =>
      let st : AssignStmt :=
        { addr := addr, left := x, right := y, assign_type := type, parent := 0 }
      (.ok st, stmts ++ [st])

/-- Modelled from the spec: `Var::sinks()` returns the member `sinks_`, which
`Var::assign` (not among the translated sources) maintains: the AssignStmts
for which the Var is the left-hand side. -/
def Var.sinks (stmts : List AssignStmt) (x : Var) : List AssignStmt :=
  stmts.filter (fun st => st.left.addr == x.addr)

/-- Modelled from the spec: `Var::sources()` returns the member `sources_`,
which `Var::assign` (not among the translated sources) maintains: the
AssignStmts for which the Var is the right-hand side. -/
def Var.sources (stmts : List AssignStmt) (y : Var) : List AssignStmt :=
  stmts.filter (fun st => st.right.addr == y.addr)

/-! ## Construction of expressions -/

/-- `enum ExprOp` of expr.hh. -/
inductive ExprOp where
  | UInvert
  | UMinus
  | UPlus
  | Add
  | Minus
  | Divide
  | Multiply
  | Mod
  | LogicalShiftRight
  | SignedShiftRight
  | ShiftLeft
  | Or
  | And
  | Xor
  | LessThan
  | GreaterThan
  | LessEqThan
  | GreaterEqThan
  | Eq
  | Neq
  deriving DecidableEq

/-- `struct Expr` of expr.hh: a Var with the operator and the operands;
`right` is the null pointer (`none`) for a unary operator. -/
structure Expr extends Var where
  op : ExprOp
  left : Var
  right : Option Var

/-- Modelled from the spec: `is_relational_op`, declared in expr.hh and
defined outside the translated sources: the relational operators are Lt, Gt,
Le, Ge, Eq and Neq. -/
def is_relational_op : ExprOp → Bool
  | .LessThan | .GreaterThan | .LessEqThan | .GreaterEqThan | .Eq | .Neq => true
  | _ => false

/-- Modelled from the spec: the SystemVerilog spelling of an operator; the
table is defined outside the translated sources. -/
def ExprOpStr : ExprOp → String
  | .UInvert => "~"
  | .UMinus => "-"
  | .UPlus => "+"
  | .Add => "+"
  | .Minus => "-"
  | .Divide => "/"
  | .Multiply => "*"
  | .Mod => "%"
  | .LogicalShiftRight => ">>"
  | .SignedShiftRight => ">>>"
  | .ShiftLeft => "<<"
  | .Or => "|"
  | .And => "&"
  | .Xor => "^"
  | .LessThan => "<"
  | .GreaterThan => ">"
  | .LessEqThan => "<="
  | .GreaterEqThan => ">="
  | .Eq => "=="
  | .Neq => "!="

/-- Modelled from the spec: the canonical text of an Expr (`Expr::to_string`,
defined outside the translated sources): `(left op right)`, and `(op left)`
for a unary operator as in the expression test (tests/test_expr.cc). -/
def expr_name (op : ExprOp) (left : Var) : Option Var → String
  | some right => "(" ++ left.to_string ++ " " ++ ExprOpStr op ++ " " ++ right.to_string ++ ")"
  | none => "(" ++ ExprOpStr op ++ " " ++ left.to_string ++ ")"

/-- Modelled from the spec: the width of `left op right`: 1 for a relational
operator, the width of the left operand for a shift and for a unary operator,
the larger of the two widths otherwise. -/
def expr_width (op : ExprOp) (left : Var) : Option Var → Nat
  | some right =>
    if is_relational_op op then 1
    else if op = .ShiftLeft ∨ op = .LogicalShiftRight ∨ op = .SignedShiftRight then left.width
    else max left.width right.width
  | none => left.width

/-- Modelled from the spec: the construction of `left op right` (the operators
of `Var`, declared in expr.hh and defined outside the translated sources) in a
Generator whose Exprs are `exprs`; `addr` is the address a new Expr gets.  The
canonical text is the identity under which Exprs are interned: a repeated
construction yields the Expr that exists, otherwise a new Expr is created and
kept by the Generator.  The result is the Expr and the Exprs that exist after
the call. -/
def Var.expr (exprs : List Expr) (addr : Nat) (op : ExprOp) (left : Var) (right : Option Var) :
    Expr × List Expr :=
  let name := expr_name op left right
  match exprs.find? (fun e => e.name == name) with
  | some e => (e, exprs)
  | none =>
    let e : Expr :=
      { addr := addr, name := name, width := expr_width op left right,
        is_signed := left.is_signed || op == ExprOp.SignedShiftRight,
        type_ := VarType.Expression, generator := left.generator, str := name,
        op := op, left := left, right := right }
    (e, exprs ++ [e])

/-! ## Lines of the emitted text -/

/-- The lines of a sequence of characters: the pieces that a newline character
ends and, when it is not empty, what follows the last newline. -/
def lines_of_chars : List Char → List (List Char)
  | [] => []
  | c :: cs =>
    if c = '\n' then [] :: lines_of_chars cs
    else
      match lines_of_chars cs with
      | [] => [[c]]
      | l :: ls => (c :: l) :: ls

/-- The lines of a text. -/
def lines (text : String) : List String :=
  (lines_of_chars text.data).map String.mk

/-- The text made of the lines `ls`, each followed by a newline. -/
def unlines : List String → String
  | [] => ""
  | l :: ls => l ++ "\n" ++ unlines ls

/-- The text contains no newline character. -/
def single_line (t : String) : Bool := !t.data.contains '\n'

/-- The line ends in `begin`. -/
def ends_in_begin (l : String) : Bool := "begin".data.isSuffixOf l.data

/-- What is left of a line after its leading spaces. -/
def strip (l : String) : List Char := l.data.dropWhile (fun c => c == ' ')

/-- The line consists of leading spaces followed by `end`. -/
def is_end_line (l : String) : Bool := strip l == "end".data

/-- The line consists of leading spaces followed by `endcase`. -/
def is_endcase_line (l : String) : Bool := strip l == "endcase".data

/-- The line is the head of a case statement: leading spaces, `case (`, a text
and `)`. -/
def is_case_line (l : String) : Bool :=
  "case (".data.isPrefixOf (strip l) && l.data.getLast? == some ')'

mutual

/-- No text that the code generator writes for the statement contains a
newline character. -/
def Stmt.single_line : Stmt → Bool
  | .Assign stmt => single_line stmt.left.to_string && single_line stmt.right.to_string
  | .Sequential _ conditions children =>
    conditions.all (fun c => single_line c.2.to_string) && single_line_list children
  | .Combinational _ children => single_line_list children
  | .If _ predicate then_body else_body =>
    single_line predicate.to_string && single_line_list then_body && single_line_list else_body
  | .ModuleInstantiation _ target port_mapping _ =>
    single_line target.name && single_line target.instance_name &&
      target.params.all (fun np => single_line np.1 && single_line np.2.value_str) &&
      port_mapping.all (fun c => single_line c.1.to_string && single_line c.2.to_string)
  | .Switch _ target body => single_line target.to_string && single_line_cases body
  | .Other _ => true
  | .NonStmt _ => true

/-- No text of the statements contains a newline character. -/
def single_line_list : List Stmt → Bool
  | [] => true
  | stmt :: rest => stmt.single_line && single_line_list rest

/-- No text of the cases contains a newline character. -/
def single_line_cases : List (Option Var × List Stmt) → Bool
  | [] => true
  | (first, second) :: rest =>
    single_line (case_label first) && single_line_list second && single_line_cases rest

end

/-- The last character of a text. -/
def last_char (l : String) : Option Char := l.data.getLast?

/-- A line that is none of the four kinds that are counted. -/
def Neutral (l : String) : Prop :=
  ends_in_begin l = false ∧ is_end_line l = false ∧ is_case_line l = false ∧
    is_endcase_line l = false

/-- A line that ends in `begin` and is of no other kind. -/
def IsBegin (l : String) : Prop :=
  ends_in_begin l = true ∧ is_end_line l = false ∧ is_case_line l = false ∧
    is_endcase_line l = false

/-- A line of leading spaces and `end`. -/
def IsEnd (l : String) : Prop :=
  ends_in_begin l = false ∧ is_end_line l = true ∧ is_case_line l = false ∧
    is_endcase_line l = false

/-- The head line of a case statement. -/
def IsCase (l : String) : Prop :=
  ends_in_begin l = false ∧ is_end_line l = false ∧ is_case_line l = true ∧
    is_endcase_line l = false

/-- A line of leading spaces and `endcase`. -/
def IsEndcase (l : String) : Prop :=
  ends_in_begin l = false ∧ is_end_line l = false ∧ is_case_line l = false ∧
    is_endcase_line l = true

/-- As many lines ending in `begin` as `end` lines, and as many heads of case
statements as `endcase` lines. -/
def Balanced (ls : List String) : Prop :=
  ls.countP ends_in_begin = ls.countP is_end_line ∧
    ls.countP is_case_line = ls.countP is_endcase_line

/-- The lines that follow a line ending in `begin` up to the end of its
statement: one `end` line more than lines ending in `begin`. -/
def Pending (ls : List String) : Prop :=
  ls.countP is_end_line = ls.countP ends_in_begin + 1 ∧
    ls.countP is_case_line = ls.countP is_endcase_line

/-- Between the states `s` and `s1` the lines `ls`, none of which contains a
newline character, were written. -/
def Written (s s1 : CodeGen) (ls : List String) : Prop :=
  s1.stream_ = s.stream_ ++ unlines ls ∧ ∀ l ∈ ls, single_line l = true

/-! ## Concrete designs on which the code is evaluated -/

namespace Example

/-- The direction keywords of SystemVerilog. -/
def port_dir_to_str : PortDirection → String
  | .In => "input"
  | .Out => "output"
  | .InOut => "inout"

/-- An unsigned variable of generator 1 whose text is its name. -/
def var (addr : Nat) (name : String) (width : Nat) (type_ : VarType) : Var :=
  { addr := addr, name := name, width := width, is_signed := false, type_ := type_,
    generator := 1, str := name }

/-- An unsigned port of generator 1 that is not packed. -/
def port (addr : Nat) (name : String) (width : Nat) (dir : PortDirection) : Port :=
  { toVar := var addr name width VarType.PortIO, port_direction := dir, is_packed := false,
    struct_name := "" }

/-- The 1-bit input `clk`. -/
def clk : Port := port 11 "clk" 1 PortDirection.In

/-- The 4-bit input `d`. -/
def d : Port := port 12 "d" 4 PortDirection.In

/-- The 4-bit output `q`. -/
def q : Port := port 10 "q" 4 PortDirection.Out

/-- The 4-bit variable `c`. -/
def c : Var := var 13 "c" 4 VarType.Base

/-- An input port `in` of another generator (address 2). -/
def child_in : Var :=
  { addr := 40, name := "in", width := 4, is_signed := false, type_ := VarType.PortIO,
    generator := 2, str := "child.in" }

/-- The assignment `q <= d` inside the block at address 20. -/
def q_d : AssignStmt :=
  { addr := 21, left := q.toVar, right := d.toVar, assign_type := AssignmentType.NonBlocking,
    parent := 20 }

/-- The sequential block `always @(posedge clk)` with body `q <= d`. -/
def seq : Stmt :=
  .Sequential 20 [(BlockEdgeType.Posedge, clk.toVar)] [.Assign q_d]

/-- A sequential block with two conditions and an empty body. -/
def seq2 : Stmt :=
  .Sequential 22 [(BlockEdgeType.Posedge, clk.toVar), (BlockEdgeType.Negedge, d.toVar)] []

/-- The top-level assignment `q = c` of generator 1. -/
def q_c : AssignStmt :=
  { addr := 23, left := q.toVar, right := c, assign_type := AssignmentType.Blocking,
    parent := 1 }

/-- A top-level non-blocking assignment of generator 1 that drives the input
of a child generator. -/
def child_drive : AssignStmt :=
  { addr := 24, left := child_in, right := c, assign_type := AssignmentType.NonBlocking,
    parent := 1 }

/-- A top-level non-blocking assignment `q <= c` of generator 1. -/
def q_c_nonblocking : AssignStmt :=
  { addr := 25, left := q.toVar, right := c, assign_type := AssignmentType.NonBlocking,
    parent := 1 }

/-- A generator with the ports `q`, `clk`, `d` declared in this order, one
parameter, the variable `c` and two statements. -/
def gen : Generator :=
  { addr := 1, name := "test", external := false, debug := false,
    ports := [q, clk, d], params := [("P", ⟨"4"⟩)], vars := [c, q.toVar],
    stmts := [.Assign q_c, seq] }

/-- The generator `gen` with its ports declared in another order. -/
def gen_reordered : Generator := { gen with ports := [d, q, clk] }

/-- The generator `gen` marked external. -/
def gen_external : Generator := { gen with external := true }

/-- A generator without ports. -/
def gen_no_ports : Generator := { gen with ports := [] }

/-- The 1-bit variable `a`. -/
def a : Var := var 14 "a" 1 VarType.Base

/-- The 1-bit variable `b`. -/
def b : Var := var 15 "b" 1 VarType.Base

/-- The assignment `q = c` inside a block. -/
def q_c_block : AssignStmt :=
  { addr := 26, left := q.toVar, right := c, assign_type := AssignmentType.Blocking,
    parent := 30 }

/-- The assignment `q = d` inside a block. -/
def q_d_block : AssignStmt :=
  { addr := 27, left := q.toVar, right := d.toVar, assign_type := AssignmentType.Blocking,
    parent := 30 }

/-- The statement `if (a) q = c; else if (b) q = d;`. -/
def if_chain : Stmt :=
  .If 30 a [.Assign q_c_block] [.If 31 b [.Assign q_d_block] []]

/-- The statement `if (a) q = c;` without an else-body. -/
def if_plain : Stmt :=
  .If 32 a [.Assign q_c_block] []

/-- The constant `1'h0`. -/
def zero : Var :=
  { addr := 16, name := "1'h0", width := 1, is_signed := false, type_ := VarType.ConstValue,
    generator := 1, str := "1'h0" }

/-- The statement `case (a) 1'h0: q = c; default: q = d;`. -/
def switch : Stmt :=
  .Switch 33 a [(some zero, [.Assign q_c_block]), (none, [.Assign q_d_block])]

/-- A Switch whose default case has an empty body. -/
def switch_empty_default : Stmt :=
  .Switch 34 a [(none, [])]

/-- A Switch whose case `1'h0` has an empty body. -/
def switch_empty_case : Stmt :=
  .Switch 35 a [(some zero, [])]

/-- A child generator with two parameters. -/
def child : Target :=
  { name := "child", instance_name := "inst0", params := [("W", ⟨"1"⟩), ("V", ⟨"2"⟩)] }

/-- A child generator without parameters. -/
def child_plain : Target :=
  { name := "child", instance_name := "inst0", params := [] }

/-- The connections `.in(c)` and `.out(q)`. -/
def connections : List (Var × Var) :=
  [(child_in, c), ({ child_in with addr := 41, name := "out", str := "out" }, q.toVar)]

/-- The instantiation of `child` with two connections. -/
def inst : Stmt := .ModuleInstantiation 36 child connections []

/-- The instantiation of `child_plain` with two connections. -/
def inst_plain : Stmt := .ModuleInstantiation 37 child_plain connections []

/-- The generator `gen` in debug mode. -/
def gen_debug : Generator := { gen with debug := true }

/-- The unsigned 2-bit variable `a` of the assignment test. -/
def var1 : Var := var 50 "a" 2 VarType.Base

/-- The signed 2-bit variable `b` of the assignment test. -/
def var2 : Var := { var 51 "b" 2 VarType.Base with is_signed := true }

/-- The unsigned 4-bit variable `c` of the assignment test. -/
def var3 : Var := var 52 "c" 4 VarType.Base

/-- A signed 2-bit constant. -/
def signed_const : Var :=
  { addr := 54, name := "-2'h1", width := 2, is_signed := true, type_ := VarType.ConstValue,
    generator := 1, str := "-2'h1" }

/-- An unsigned 1-bit variable `n`. -/
def n : Var := var 55 "n" 1 VarType.Base

/-- A signed 8-bit variable `m`. -/
def m : Var := { var 56 "m" 8 VarType.Base with is_signed := true }

/-- A generator whose variable map holds a variable of every kind, in the
order of their names. -/
def gen_kinds : Generator :=
  { gen with
    vars := [var 57 "(a + b)" 2 VarType.Expression, signed_const, var 58 "P" 4 VarType.Parameter,
      var 59 "c[1:0]" 2 VarType.Slice, m, n, q.toVar, var 60 "s" 8 VarType.BaseCasted] }

/-- The unsigned 4-bit variable `d` of the assignment test. -/
def var4 : Var := var 53 "d" 4 VarType.Base

/-- The 1-bit input `in` of the expression test. -/
def p_in : Port := port 61 "in" 1 PortDirection.In

/-- The 1-bit output `out` of the expression test. -/
def p_out : Port := port 62 "out" 1 PortDirection.Out

end Example

/-! ## Basic facts about the stream operations -/

section basics

theorem bind_eq_ok {ε α β : Type} (x : Except ε α) (f : α → Except ε β) (b : β) :
    (x >>= f) = .ok b ↔ ∃ a, x = .ok a ∧ f a = .ok b := by
  cases x <;> simp [bind, Except.bind]

theorem pure_eq_ok {ε α : Type} (a b : α) :
    (pure a : Except ε α) = .ok b ↔ a = b := by
  simp [pure, Except.pure]

@[simp] theorem write_stream (s : CodeGen) (x : String) :
    (Stream.write s x).stream_ = s.stream_ ++ x := rfl
@[simp] theorem write_indent (s : CodeGen) (x : String) :
    (Stream.write s x).indent_ = s.indent_ := rfl
@[simp] theorem write_skip (s : CodeGen) (x : String) :
    (Stream.write s x).skip_indent_ = s.skip_indent_ := rfl
@[simp] theorem endl_stream (s : CodeGen) : (Stream.endl s).stream_ = s.stream_ ++ "\n" := rfl
@[simp] theorem endl_indent (s : CodeGen) : (Stream.endl s).indent_ = s.indent_ := rfl
@[simp] theorem endl_skip (s : CodeGen) : (Stream.endl s).skip_indent_ = s.skip_indent_ := rfl
@[simp] theorem set_ln_stream (s : CodeGen) (a : Nat) :
    (set_verilog_ln s a).stream_ = s.stream_ := rfl
@[simp] theorem set_ln_indent (s : CodeGen) (a : Nat) :
    (set_verilog_ln s a).indent_ = s.indent_ := rfl
@[simp] theorem set_ln_skip (s : CodeGen) (a : Nat) :
    (set_verilog_ln s a).skip_indent_ = s.skip_indent_ := rfl
@[simp] theorem debug_ln_stream (g : Generator) (s : CodeGen) (a : Nat) :
    (debug_verilog_ln g s a).stream_ = s.stream_ := by
  unfold debug_verilog_ln; split <;> rfl
@[simp] theorem debug_ln_indent (g : Generator) (s : CodeGen) (a : Nat) :
    (debug_verilog_ln g s a).indent_ = s.indent_ := by
  unfold debug_verilog_ln; split <;> rfl
@[simp] theorem debug_ln_skip (g : Generator) (s : CodeGen) (a : Nat) :
    (debug_verilog_ln g s a).skip_indent_ = s.skip_indent_ := by
  unfold debug_verilog_ln; split <;> rfl
@[simp] theorem inc_stream (s : CodeGen) : (indent_inc s).stream_ = s.stream_ := rfl
@[simp] theorem inc_indent (s : CodeGen) : (indent_inc s).indent_ = s.indent_ + 1 := rfl
@[simp] theorem inc_skip (s : CodeGen) : (indent_inc s).skip_indent_ = s.skip_indent_ := rfl
@[simp] theorem dec_stream (s : CodeGen) : (indent_dec s).stream_ = s.stream_ := rfl
@[simp] theorem dec_indent (s : CodeGen) : (indent_dec s).indent_ = s.indent_ - 1 := rfl
@[simp] theorem dec_skip (s : CodeGen) : (indent_dec s).skip_indent_ = s.skip_indent_ := rfl

@[simp] theorem indent_fst (s : CodeGen) :
    (indent s).1 = indent_text s.indent_ s.skip_indent_ := by
  unfold indent indent_text; split <;> rfl
@[simp] theorem indent_snd_stream (s : CodeGen) : (indent s).2.stream_ = s.stream_ := by
  unfold indent; split <;> rfl
@[simp] theorem indent_snd_indent (s : CodeGen) : (indent s).2.indent_ = s.indent_ := by
  unfold indent; split <;> rfl
@[simp] theorem indent_snd_skip (s : CodeGen) : (indent s).2.skip_indent_ = false := by
  unfold indent; split <;> simp_all

@[simp] theorem write_line_stream (s : CodeGen) (x : String) :
    (write_line s x).stream_ =
      s.stream_ ++ indent_text s.indent_ s.skip_indent_ ++ x ++ "\n" := by
  simp [write_line]
@[simp] theorem write_line_indent (s : CodeGen) (x : String) :
    (write_line s x).indent_ = s.indent_ := by
  simp [write_line]
@[simp] theorem write_line_skip (s : CodeGen) (x : String) :
    (write_line s x).skip_indent_ = false := by
  simp [write_line]

theorem indent_text_false (d : Nat) (h : 2 * d < 2 ^ 32) :
    indent_text d false = spaces (2 * d) := by
  have : d * indent_size % 2 ^ 32 = 2 * d := by
    rw [indent_size, Nat.mul_comm, Nat.mod_eq_of_lt h]
  show (if false = true then "" else spaces (d * indent_size % 2 ^ 32)) = spaces (2 * d)
  rw [this]; rfl

end basics

/-! ## The loops of a module instantiation -/

theorem module_params_loop_indent (size : Nat) :
    ∀ (params : List (String × Param)) (count : Nat) (s : CodeGen),
      (module_params_loop size count params s).indent_ = s.indent_
  | [], _, _ => rfl
  | (name, param) :: rest, count, s => by
    unfold module_params_loop
    dsimp only
    split <;> rw [module_params_loop_indent size rest] <;> simp

theorem module_params_loop_skip (size : Nat) :
    ∀ (params : List (String × Param)) (count : Nat) (s : CodeGen),
      s.skip_indent_ = false → (module_params_loop size count params s).skip_indent_ = false
  | [], _, _, h => h
  | (name, param) :: rest, count, s, _ => by
    unfold module_params_loop
    dsimp only
    split <;> apply module_params_loop_skip size rest <;> simp

theorem module_ports_loop_indent (g : Generator) (port_debug : List (Nat × Nat)) (size : Nat) :
    ∀ (mapping : List (Var × Var)) (count : Nat) (s : CodeGen),
      (module_ports_loop g port_debug size count mapping s).indent_ = s.indent_
  | [], _, _ => rfl
  | (internal, external) :: rest, count, s => by
    unfold module_ports_loop
    dsimp only
    rw [module_ports_loop_indent g port_debug size rest]
    simp only [endl_indent, write_indent, indent_snd_indent]
    split <;> rfl

theorem module_ports_loop_skip (g : Generator) (port_debug : List (Nat × Nat)) (size : Nat) :
    ∀ (mapping : List (Var × Var)) (count : Nat) (s : CodeGen),
      s.skip_indent_ = false →
      (module_ports_loop g port_debug size count mapping s).skip_indent_ = false
  | [], _, _, h => h
  | (internal, external) :: rest, count, s, _ => by
    unfold module_ports_loop
    dsimp only
    apply module_ports_loop_skip g port_debug size rest
    simp

theorem stmt_code_module_indent (g : Generator) (s : CodeGen) (addr : Nat) (target : Target)
    (port_mapping : List (Var × Var)) (port_debug : List (Nat × Nat)) :
    (stmt_code_module g s addr target port_mapping port_debug).indent_ = s.indent_ := by
  unfold stmt_code_module
  dsimp only
  split <;> simp [module_ports_loop_indent, module_params_loop_indent]

theorem stmt_code_module_skip (g : Generator) (s : CodeGen) (addr : Nat) (target : Target)
    (port_mapping : List (Var × Var)) (port_debug : List (Nat × Nat)) :
    (stmt_code_module g s addr target port_mapping port_debug).skip_indent_ = false := by
  unfold stmt_code_module
  dsimp only
  split
  · simp
    apply module_ports_loop_skip
    simp
    apply module_params_loop_skip
    simp
  · simp
    apply module_ports_loop_skip
    simp

/-! ## Balance of the indentation state -/

theorem stmt_code_assign_balanced (g : Generator) (s s' : CodeGen) (stmt : AssignStmt)
    (h : stmt_code_assign g s stmt = .ok s') :
    s'.indent_ = s.indent_ ∧ (s.skip_indent_ = false → s'.skip_indent_ = false) := by
  unfold stmt_code_assign at h
  split at h
  · cases h; simp
  · unfold Stream.assign at h
    dsimp only at h
    split at h
    · split at h
      · cases h
      · cases h; simp
    · split at h
      · cases h; simp
      · split at h
        · cases h; simp
        · cases h

mutual

theorem dispatch_node_balanced (g : Generator) :
    ∀ (stmt : Stmt) (s s' : CodeGen), dispatch_node g s stmt = .ok s' →
      s'.indent_ = s.indent_ ∧
        ((s.skip_indent_ = false ∨ stmt.is_if = true) → s'.skip_indent_ = false)
  | .NonStmt kind, s, s', h => by simp [dispatch_node] at h
  | .Other _, s, s', h => by simp [dispatch_node] at h
  | .Assign stmt, s, s', h => by
    rw [dispatch_node] at h
    have := stmt_code_assign_balanced g s s' stmt h
    simpa [Stmt.is_if] using this
  | .ModuleInstantiation addr target port_mapping port_debug, s, s', h => by
    rw [dispatch_node, pure_eq_ok] at h
    subst h
    exact ⟨stmt_code_module_indent .., fun _ => stmt_code_module_skip ..⟩
  | .Sequential addr conditions children, s, s', h => by
    rw [dispatch_node, bind_eq_ok] at h
    obtain ⟨s1, h1, h2⟩ := h
    rw [pure_eq_ok] at h2
    subst h2
    have ih := dispatch_nodes_balanced g children _ _ h1
    simp at ih
    simp [ih.1]
  | .Combinational addr children, s, s', h => by
    rw [dispatch_node, bind_eq_ok] at h
    obtain ⟨s1, h1, h2⟩ := h
    rw [pure_eq_ok] at h2
    subst h2
    have ih := dispatch_nodes_balanced g children _ _ h1
    simp at ih
    simp [ih.1]
  | .Switch _ target body, s, s', h => by
    rw [dispatch_node, bind_eq_ok] at h
    obtain ⟨s1, h1, h2⟩ := h
    rw [pure_eq_ok] at h2
    subst h2
    have ih := switch_cases_balanced g body _ _ h1
    simp at ih
    simp [ih.1]
  | .If addr predicate then_body else_body, s, s', h => by
    rw [dispatch_node, bind_eq_ok] at h
    obtain ⟨s1, h1, h2⟩ := h
    have ih := dispatch_nodes_balanced g then_body _ _ h1
    simp at ih
    match else_body, h2 with
    | [], h2 =>
      simp only [pure_eq_ok] at h2
      subst h2
      simp [ih.1]
    | if_stmt :: rest, h2 =>
      simp only at h2
      split at h2
      · have ih2 := dispatch_node_balanced g if_stmt _ _ h2
        simp_all
      · rw [bind_eq_ok] at h2
        obtain ⟨s2, h3, h4⟩ := h2
        rw [pure_eq_ok] at h4
        subst h4
        have ih2 := dispatch_nodes_balanced g (if_stmt :: rest) _ _ h3
        simp at ih2
        simp [ih2.1, ih.1]

theorem dispatch_nodes_balanced (g : Generator) :
    ∀ (stmts : List Stmt) (s s' : CodeGen), dispatch_nodes g s stmts = .ok s' →
      s'.indent_ = s.indent_ ∧ (s.skip_indent_ = false → s'.skip_indent_ = false)
  | [], s, s', h => by
    rw [dispatch_nodes, pure_eq_ok] at h
    subst h
    simp
  | stmt :: rest, s, s', h => by
    rw [dispatch_nodes, bind_eq_ok] at h
    obtain ⟨s1, h1, h2⟩ := h
    have ih1 := dispatch_node_balanced g stmt _ _ h1
    have ih2 := dispatch_nodes_balanced g rest _ _ h2
    exact ⟨ih2.1.trans ih1.1, fun hk => ih2.2 (ih1.2 (Or.inl hk))⟩

theorem switch_cases_balanced (g : Generator) :
    ∀ (body : List (Option Var × List Stmt)) (s s' : CodeGen),
      switch_cases g s body = .ok s' →
      s'.indent_ = s.indent_ ∧ (s.skip_indent_ = false → s'.skip_indent_ = false)
  | [], s, s', h => by
    rw [switch_cases, pure_eq_ok] at h
    subst h
    simp
  | (first, second) :: rest, s, s', h => by
    have key : ∃ s1 s2, dispatch_nodes g s1 second = .ok s2 ∧ s1.indent_ = s.indent_ + 1 ∧
        s1.skip_indent_ = false ∧
        switch_cases g (write_line (indent_dec s2) "end") rest = .ok s' := by
      cases first <;>
      · rw [switch_cases] at h
        split at h
        · cases h
        · simp only [bind_eq_ok] at h
          obtain ⟨s2, h1, h2⟩ := h
          exact ⟨_, s2, h1, by simp, by simp, h2⟩
    obtain ⟨s1, s2, h1, hi, hk, h2⟩ := key
    have ih1 := dispatch_nodes_balanced g second _ _ h1
    have ih2 := switch_cases_balanced g rest _ _ h2
    simp at ih2
    rw [ih2.1, ih1.1, hi]
    simp
    exact fun _ => ih2.2

end

/-! ## Two runs from states of the same level and flag write the same text -/

/-- The states `s` and `t` have the same indentation level and skip flag. -/
def Sim (s t : CodeGen) : Prop :=
  t.indent_ = s.indent_ ∧ t.skip_indent_ = s.skip_indent_

/-- From `s` to `s1` and from `t` to `t1` the same text was appended, and
`s1` and `t1` have the same level and flag. -/
def Step (s s1 t t1 : CodeGen) : Prop :=
  Sim s1 t1 ∧ ∃ text, s1.stream_ = s.stream_ ++ text ∧ t1.stream_ = t.stream_ ++ text

theorem Sim.same (s : CodeGen) : Sim s s := ⟨Eq.refl _, Eq.refl _⟩

theorem Step.refl {s t : CodeGen} (h : Sim s t) : Step s s t t :=
  ⟨h, "", by simp, by simp⟩

theorem Step.trans {s s1 s2 t t1 t2 : CodeGen} (h1 : Step s s1 t t1) (h2 : Step s1 s2 t1 t2) :
    Step s s2 t t2 := by
  obtain ⟨_, a, ha1, ha2⟩ := h1
  obtain ⟨hs, b, hb1, hb2⟩ := h2
  exact ⟨hs, a ++ b, by rw [hb1, ha1, String.append_assoc], by rw [hb2, ha2, String.append_assoc]⟩

theorem Step.then {s s1 s2 t t1 t2 : CodeGen} (h1 : Step s s1 t t1) (hs : Sim s2 t2)
    (text : String) (h2 : s2.stream_ = s1.stream_ ++ text) (h3 : t2.stream_ = t1.stream_ ++ text) :
    Step s s2 t t2 :=
  h1.trans ⟨hs, text, h2, h3⟩

theorem Step.write {s s1 t t1 : CodeGen} (h : Step s s1 t t1) (x : String) :
    Step s (Stream.write s1 x) t (Stream.write t1 x) :=
  h.then ⟨h.1.1, h.1.2⟩ x rfl rfl

theorem Step.endl {s s1 t t1 : CodeGen} (h : Step s s1 t t1) :
    Step s (Stream.endl s1) t (Stream.endl t1) :=
  h.then ⟨h.1.1, h.1.2⟩ "\n" rfl rfl

theorem Step.inc {s s1 t t1 : CodeGen} (h : Step s s1 t t1) :
    Step s (indent_inc s1) t (indent_inc t1) :=
  h.then ⟨by simp [h.1.1], h.1.2⟩ "" (by simp) (by simp)

theorem Step.dec {s s1 t t1 : CodeGen} (h : Step s s1 t t1) :
    Step s (indent_dec s1) t (indent_dec t1) :=
  h.then ⟨by simp [h.1.1], h.1.2⟩ "" (by simp) (by simp)

theorem Step.set_ln {s s1 t t1 : CodeGen} (h : Step s s1 t t1) (a b : Nat) :
    Step s (set_verilog_ln s1 a) t (set_verilog_ln t1 b) :=
  h.then ⟨h.1.1, h.1.2⟩ "" (by simp) (by simp)

theorem Step.set_ln_left {s s1 t t1 : CodeGen} (h : Step s s1 t t1) (a : Nat) :
    Step s (set_verilog_ln s1 a) t t1 :=
  h.then ⟨h.1.1, h.1.2⟩ "" (by simp) (by simp)

theorem Step.debug {s s1 t t1 : CodeGen} (h : Step s s1 t t1) (g : Generator) (a : Nat) :
    Step s (debug_verilog_ln g s1 a) t (debug_verilog_ln g t1 a) :=
  h.then ⟨by simp [h.1.1], by simp [h.1.2]⟩ "" (by simp) (by simp)

theorem Step.indent_write {s s1 t t1 : CodeGen} (h : Step s s1 t t1) :
    Step s (Stream.write (indent s1).2 (indent s1).1) t (Stream.write (indent t1).2 (indent t1).1) :=
  h.then ⟨by simp [h.1.1], by simp⟩ (indent_text s1.indent_ s1.skip_indent_) (by simp)
    (by simp [h.1.1, h.1.2])

theorem Step.write_line {s s1 t t1 : CodeGen} (h : Step s s1 t t1) (x : String) :
    Step s (write_line s1 x) t (write_line t1 x) :=
  (h.indent_write.write x).endl

theorem Step.skip {s s1 t t1 : CodeGen} (h : Step s s1 t t1) :
    Step s { s1 with skip_indent_ := true } t { t1 with skip_indent_ := true } :=
  h.then ⟨h.1.1, rfl⟩ "" (by simp) (by simp)

theorem module_params_loop_step (size : Nat) :
    ∀ (params : List (String × Param)) (count : Nat) (s s1 t t1 : CodeGen),
      Step s s1 t t1 →
      Step s (module_params_loop size count params s1) t
        (module_params_loop size count params t1)
  | [], _, _, _, _, _, h => h
  | (name, param) :: rest, count, s, s1, t, t1, h => by
    unfold module_params_loop
    dsimp only
    split
    · exact module_params_loop_step size rest _ _ _ _ _ (h.indent_write.write _)
    · exact module_params_loop_step size rest _ _ _ _ _ (h.indent_write.write _).endl

theorem module_ports_loop_step (g : Generator) (port_debug : List (Nat × Nat)) (size : Nat) :
    ∀ (mapping : List (Var × Var)) (count : Nat) (s s1 t t1 : CodeGen),
      Step s s1 t t1 →
      Step s (module_ports_loop g port_debug size count mapping s1) t
        (module_ports_loop g port_debug size count mapping t1)
  | [], _, _, _, _, _, h => h
  | (internal, external) :: rest, count, s, s1, t, t1, h => by
    unfold module_ports_loop
    dsimp only
    apply module_ports_loop_step g port_debug size rest
    apply Step.endl
    apply Step.write
    apply Step.indent_write
    split
    · exact h.set_ln _ _
    · exact h

theorem stmt_code_module_step (g : Generator) (addr : Nat) (target : Target)
    (port_mapping : List (Var × Var)) (port_debug : List (Nat × Nat)) (s s1 t t1 : CodeGen)
    (h : Step s s1 t t1) :
    Step s (stmt_code_module g s1 addr target port_mapping port_debug) t
      (stmt_code_module g t1 addr target port_mapping port_debug) := by
  unfold stmt_code_module
  dsimp only
  apply Step.dec
  apply Step.endl
  apply Step.endl
  apply Step.write
  apply module_ports_loop_step
  apply Step.inc
  apply Step.endl
  apply Step.write
  apply Step.write
  apply Step.write
  split
  · apply Step.dec
    apply module_params_loop_step
    exact ((((h.set_ln _ _).indent_write.write _).write _).endl).inc
  · exact ((h.set_ln _ _).indent_write.write _)

theorem stmt_code_assign_frame (g : Generator) (stmt : AssignStmt) (s s' : CodeGen)
    (h : stmt_code_assign g s stmt = .ok s') (s0 t0 t : CodeGen) (pre : Step s0 s t0 t) :
    ∃ t', stmt_code_assign g t stmt = .ok t' ∧ Step s0 s' t0 t' := by
  unfold stmt_code_assign at h ⊢
  by_cases hc : (stmt.left.type = VarType.PortIO ∧ stmt.left.generator ≠ g.addr) ∨
      (stmt.right.type = VarType.PortIO ∧ stmt.right.generator ≠ g.addr)
  · rw [if_pos hc] at h ⊢
    cases h
    exact ⟨t, rfl, pre⟩
  · rw [if_neg hc] at h ⊢
    unfold Stream.assign at h ⊢
    dsimp only at h ⊢
    by_cases hp : stmt.parent = g.addr
    · rw [if_pos hp] at h ⊢
      by_cases hb : stmt.assign_type ≠ AssignmentType.Blocking
      · rw [if_pos hb] at h
        cases h
      · rw [if_neg hb] at h ⊢
        cases h
        exact ⟨_, rfl, ((pre.debug g _).write _).endl⟩
    · rw [if_neg hp] at h ⊢
      by_cases hb : stmt.assign_type = AssignmentType.Blocking
      · rw [if_pos hb] at h ⊢
        cases h
        refine ⟨_, rfl, ?_⟩
        have := ((pre.debug g stmt.addr).indent_write.write
          (stmt.left.to_string ++ " = " ++ stmt.right.to_string ++ ";")).endl
        refine ⟨this.1, ?_⟩
        obtain ⟨w, hw1, hw2⟩ := this.2
        exact ⟨w, by simpa [String.append_assoc] using hw1,
          by simpa [String.append_assoc] using hw2⟩
      · rw [if_neg hb] at h ⊢
        by_cases hn : stmt.assign_type = AssignmentType.NonBlocking
        · rw [if_pos hn] at h ⊢
          cases h
          refine ⟨_, rfl, ?_⟩
          have := ((pre.debug g stmt.addr).indent_write.write
            (stmt.left.to_string ++ " <= " ++ stmt.right.to_string ++ ";")).endl
          refine ⟨this.1, ?_⟩
          obtain ⟨w, hw1, hw2⟩ := this.2
          exact ⟨w, by simpa [String.append_assoc] using hw1,
            by simpa [String.append_assoc] using hw2⟩
        · rw [if_neg hn] at h
          cases h

mutual

theorem dispatch_node_frame (g : Generator) :
    ∀ (stmt : Stmt) (s s' : CodeGen), dispatch_node g s stmt = .ok s' →
      ∀ (s0 t0 t : CodeGen), Step s0 s t0 t →
        ∃ t', dispatch_node g t stmt = .ok t' ∧ Step s0 s' t0 t'
  | .NonStmt kind, s, s', h => by simp [dispatch_node] at h
  | .Other _, s, s', h => by simp [dispatch_node] at h
  | .Assign stmt, s, s', h => by
    intro s0 t0 t pre
    rw [dispatch_node] at h ⊢
    exact stmt_code_assign_frame g stmt s s' h s0 t0 t pre
  | .ModuleInstantiation addr target port_mapping port_debug, s, s', h => by
    intro s0 t0 t pre
    rw [dispatch_node, pure_eq_ok] at h
    subst h
    exact ⟨_, by rw [dispatch_node]; rfl, stmt_code_module_step g addr target _ _ _ _ _ _ pre⟩
  | .Sequential addr conditions children, s, s', h => by
    intro s0 t0 t pre
    rw [dispatch_node, bind_eq_ok] at h
    obtain ⟨s1, h1, h2⟩ := h
    rw [pure_eq_ok] at h2
    subst h2
    obtain ⟨t1, ht1, st1⟩ := dispatch_nodes_frame g children _ _ h1 s0 t0 _
      (((((pre.debug g addr).endl.write "always @(").write
        (join (sensitive_list conditions) ", ")).write ") begin").endl.inc)
    refine ⟨_, ?_, (st1.dec.write_line "end")⟩
    rw [dispatch_node, bind_eq_ok]
    exact ⟨t1, ht1, rfl⟩
  | .Combinational addr children, s, s', h => by
    intro s0 t0 t pre
    rw [dispatch_node, bind_eq_ok] at h
    obtain ⟨s1, h1, h2⟩ := h
    rw [pure_eq_ok] at h2
    subst h2
    obtain ⟨t1, ht1, st1⟩ := dispatch_nodes_frame g children _ _ h1 s0 t0 _
      (((pre.debug g addr).write "always_comb begin").endl.inc)
    refine ⟨_, ?_, (st1.dec.write_line "end")⟩
    rw [dispatch_node, bind_eq_ok]
    exact ⟨t1, ht1, rfl⟩
  | .Switch _ target body, s, s', h => by
    intro s0 t0 t pre
    rw [dispatch_node, bind_eq_ok] at h
    obtain ⟨s1, h1, h2⟩ := h
    rw [pure_eq_ok] at h2
    subst h2
    obtain ⟨t1, ht1, st1⟩ := switch_cases_frame g body _ _ h1 s0 t0 _
      ((((pre.indent_write.write "case (").write target.to_string).write ")").endl.inc)
    refine ⟨_, ?_, (st1.dec.write_line "endcase")⟩
    rw [dispatch_node, bind_eq_ok]
    exact ⟨t1, ht1, rfl⟩
  | .If addr predicate then_body else_body, s, s', h => by
    intro s0 t0 t pre
    rw [dispatch_node, bind_eq_ok] at h
    obtain ⟨s1, h1, h2⟩ := h
    obtain ⟨t1, ht1, st1⟩ := dispatch_nodes_frame g then_body _ _ h1 s0 t0 _
      (((pre.debug g addr).write_line ("if (" ++ predicate.to_string ++ ") begin")).inc)
    have st2 := st1.dec.write_line "end"
    rw [dispatch_node]
    simp only [bind_eq_ok]
    match else_body, h2 with
    | [], h2 =>
      simp only [pure_eq_ok] at h2
      subst h2
      exact ⟨_, ⟨t1, ht1, rfl⟩, st2⟩
    | if_stmt :: rest, h2 =>
      simp only at h2
      by_cases hc : (rest.isEmpty && if_stmt.is_if) = true
      · rw [if_pos hc] at h2
        obtain ⟨t2, ht2, st3⟩ := dispatch_node_frame g if_stmt _ _ h2 s0 t0 _
          ((st2.indent_write.write "else ").skip)
        refine ⟨t2, ⟨t1, ht1, ?_⟩, st3⟩
        simp only
        rw [if_pos hc]
        exact ht2
      · rw [if_neg hc] at h2
        rw [bind_eq_ok] at h2
        obtain ⟨s2, h3, h4⟩ := h2
        rw [pure_eq_ok] at h4
        subst h4
        obtain ⟨t2, ht2, st3⟩ := dispatch_nodes_frame g (if_stmt :: rest) _ _ h3 s0 t0 _
          ((st2.write_line "else begin").inc)
        refine ⟨_, ⟨t1, ht1, ?_⟩, st3.dec.write_line "end"⟩
        simp only
        rw [if_neg hc, bind_eq_ok]
        exact ⟨t2, ht2, rfl⟩

theorem dispatch_nodes_frame (g : Generator) :
    ∀ (stmts : List Stmt) (s s' : CodeGen), dispatch_nodes g s stmts = .ok s' →
      ∀ (s0 t0 t : CodeGen), Step s0 s t0 t →
        ∃ t', dispatch_nodes g t stmts = .ok t' ∧ Step s0 s' t0 t'
  | [], s, s', h => by
    intro s0 t0 t pre
    rw [dispatch_nodes, pure_eq_ok] at h
    subst h
    exact ⟨t, by rw [dispatch_nodes]; rfl, pre⟩
  | stmt :: rest, s, s', h => by
    intro s0 t0 t pre
    rw [dispatch_nodes, bind_eq_ok] at h
    obtain ⟨s1, h1, h2⟩ := h
    obtain ⟨t1, ht1, st1⟩ := dispatch_node_frame g stmt _ _ h1 s0 t0 t pre
    obtain ⟨t2, ht2, st2⟩ := dispatch_nodes_frame g rest _ _ h2 s0 t0 t1 st1
    exact ⟨t2, by rw [dispatch_nodes, bind_eq_ok]; exact ⟨t1, ht1, ht2⟩, st2⟩

theorem switch_cases_frame (g : Generator) :
    ∀ (body : List (Option Var × List Stmt)) (s s' : CodeGen),
      switch_cases g s body = .ok s' →
      ∀ (s0 t0 t : CodeGen), Step s0 s t0 t →
        ∃ t', switch_cases g t body = .ok t' ∧ Step s0 s' t0 t'
  | [], s, s', h => by
    intro s0 t0 t pre
    rw [switch_cases, pure_eq_ok] at h
    subst h
    exact ⟨t, by rw [switch_cases]; rfl, pre⟩
  | (some value, second) :: rest, s, s', h => by
    intro s0 t0 t pre
    rw [switch_cases] at h ⊢
    by_cases hc : second.isEmpty = true
    · rw [if_pos hc] at h
      cases h
    · rw [if_neg hc] at h ⊢
      simp only [bind_eq_ok] at h ⊢
      obtain ⟨s2, h1, h2⟩ := h
      obtain ⟨t1, ht1, st1⟩ := dispatch_nodes_frame g second _ _ h1 s0 t0 _
        (((((pre.indent_write.write value.to_string).write ": ").write "begin").endl).inc)
      obtain ⟨t2, ht2, st2⟩ := switch_cases_frame g rest _ _ h2 s0 t0 _
        (st1.dec.write_line "end")
      exact ⟨t2, ⟨t1, ht1, ht2⟩, st2⟩
  | (none, second) :: rest, s, s', h => by
    intro s0 t0 t pre
    rw [switch_cases] at h ⊢
    by_cases hc : second.isEmpty = true
    · rw [if_pos hc] at h
      cases h
    · rw [if_neg hc] at h ⊢
      simp only [bind_eq_ok] at h ⊢
      obtain ⟨s2, h1, h2⟩ := h
      obtain ⟨t1, ht1, st1⟩ := dispatch_nodes_frame g second _ _ h1 s0 t0 _
        (((((pre.indent_write.write "default").write ": ").write "begin").endl).inc)
      obtain ⟨t2, ht2, st2⟩ := switch_cases_frame g rest _ _ h2 s0 t0 _
        (st1.dec.write_line "end")
      exact ⟨t2, ⟨t1, ht1, ht2⟩, st2⟩

end

/-! ## The text of a statement and of a list of statements -/

theorem emit_of_run (g : Generator) (stmt : Stmt) (s s' : CodeGen)
    (hk : s.skip_indent_ = false) (h : dispatch_node g s stmt = .ok s') :
    ∃ text, emit g s.indent_ stmt = .ok text ∧ s'.stream_ = s.stream_ ++ text ∧
      s'.indent_ = s.indent_ ∧ s'.skip_indent_ = false := by
  have hsim : Sim s (CodeGen.at_level s.indent_) := ⟨rfl, by rw [hk]; rfl⟩
  obtain ⟨t', ht, _, text, h1, h2⟩ :=
    dispatch_node_frame g stmt s s' h s _ _ (Step.refl hsim)
  have hb := dispatch_node_balanced g stmt s s' h
  have h3 : t'.stream_ = text := by simpa [CodeGen.at_level] using h2
  refine ⟨text, ?_, h1, hb.1, hb.2 (Or.inl hk)⟩
  unfold emit
  rw [ht, ← h3]

theorem run_of_emit (g : Generator) (stmt : Stmt) (d : Nat) (text : String)
    (h : emit g d stmt = .ok text) (s : CodeGen) (hd : s.indent_ = d)
    (hk : s.skip_indent_ = false) :
    ∃ s', dispatch_node g s stmt = .ok s' ∧ s'.stream_ = s.stream_ ++ text ∧
      s'.indent_ = d ∧ s'.skip_indent_ = false := by
  unfold emit at h
  split at h
  · rename_i t' ht
    cases h
    have hsim : Sim (CodeGen.at_level d) s := ⟨hd, by rw [hk]; rfl⟩
    obtain ⟨s', hs, _, text, h1, h2⟩ :=
      dispatch_node_frame g stmt _ t' ht _ _ _ (Step.refl hsim)
    have hb := dispatch_node_balanced g stmt s s' hs
    have h3 : t'.stream_ = text := by simpa [CodeGen.at_level] using h1
    refine ⟨s', hs, ?_, hb.1.trans hd, hb.2 (Or.inl hk)⟩
    rw [h2, h3]
  · cases h

theorem emits_of_run (g : Generator) :
    ∀ (stmts : List Stmt) (s s' : CodeGen), s.skip_indent_ = false →
      dispatch_nodes g s stmts = .ok s' →
      ∃ texts, Emits g s.indent_ stmts texts ∧ s'.stream_ = s.stream_ ++ concat texts ∧
        s'.indent_ = s.indent_ ∧ s'.skip_indent_ = false
  | [], s, s', hk, h => by
    rw [dispatch_nodes, pure_eq_ok] at h
    subst h
    exact ⟨[], List.Forall₂.nil, by simp [concat], rfl, hk⟩
  | stmt :: rest, s, s', hk, h => by
    rw [dispatch_nodes, bind_eq_ok] at h
    obtain ⟨s1, h1, h2⟩ := h
    obtain ⟨text, he, hs, hi, hk1⟩ := emit_of_run g stmt s s1 hk h1
    obtain ⟨texts, hes, hss, his, hks⟩ := emits_of_run g rest s1 s' hk1 h2
    rw [hi] at hes
    exact ⟨text :: texts, List.Forall₂.cons he hes,
      by rw [hss, hs, concat, String.append_assoc], his.trans hi, hks⟩

theorem run_of_emits (g : Generator) (d : Nat) :
    ∀ (stmts : List Stmt) (texts : List String), Emits g d stmts texts →
      ∀ (s : CodeGen), s.indent_ = d → s.skip_indent_ = false →
      ∃ s', dispatch_nodes g s stmts = .ok s' ∧ s'.stream_ = s.stream_ ++ concat texts ∧
        s'.indent_ = d ∧ s'.skip_indent_ = false
  | [], _, .nil, s, hd, hk => ⟨s, by rw [dispatch_nodes]; rfl, by simp [concat], hd, hk⟩
  | stmt :: rest, text :: texts, .cons he hes, s, hd, hk => by
    obtain ⟨s1, h1, hs, hi, hk1⟩ := run_of_emit g stmt d text he s hd hk
    obtain ⟨s', h2, hss, his, hks⟩ := run_of_emits g d rest texts hes s1 hi hk1
    exact ⟨s', by rw [dispatch_nodes, bind_eq_ok]; exact ⟨s1, h1, h2⟩,
      by rw [hss, hs, concat, String.append_assoc], his, hks⟩

theorem emits_length (g : Generator) (d : Nat) (stmts : List Stmt) (texts : List String)
    (h : Emits g d stmts texts) : texts.length = stmts.length :=
  (List.Forall₂.length_eq h).symm

/-! ## Ports, parameters and variables -/

theorem sort_perm (names : List String) : (sort names).Perm names :=
  List.perm_insertionSort string_le names

theorem sort_sorted (names : List String) : List.Sorted string_le (sort names) :=
  List.sorted_insertionSort string_le names

theorem sort_eq_of_perm {l1 l2 : List String} (h : l1.Perm l2) : sort l1 = sort l2 :=
  List.eq_of_perm_of_sorted ((sort_perm l1).trans (h.trans (sort_perm l2).symm))
    (sort_sorted l1) (sort_sorted l2)

theorem get_port_of_mem (g : Generator) (n : String) (h : n ∈ g.get_port_names) :
    ∃ p, g.get_port n = some p ∧ p.name = n := by
  unfold Generator.get_port
  cases hf : g.ports.find? (fun p => decide (p.name = n)) with
  | none =>
    rw [List.find?_eq_none] at hf
    unfold Generator.get_port_names at h
    rw [List.mem_map] at h
    obtain ⟨p, hp, hn⟩ := h
    exact absurd (by simpa using hn) (hf p hp)
  | some p =>
    exact ⟨p, rfl, by simpa using List.find?_some hf⟩

theorem filterMap_get_port_names (g : Generator) :
    ∀ (names : List String), (∀ n ∈ names, n ∈ g.get_port_names) →
      (names.filterMap g.get_port).map (fun p => p.name) = names
  | [], _ => rfl
  | n :: rest, h => by
    obtain ⟨p, hp, hn⟩ := get_port_of_mem g n (h n (List.mem_cons_self _ _))
    rw [List.filterMap_cons_some hp, List.map_cons, hn,
      filterMap_get_port_names g rest (fun m hm => h m (List.mem_cons_of_mem _ hm))]

theorem sort_mem (g : Generator) : ∀ n ∈ sort g.get_port_names, n ∈ g.get_port_names :=
  fun _ hn => (sort_perm _).subset hn

theorem sorted_ports_names (g : Generator) :
    (sorted_ports g).map (fun p => p.name) = sort g.get_port_names :=
  filterMap_get_port_names g _ (sort_mem g)

theorem sorted_ports_length (g : Generator) : (sorted_ports g).length = g.ports.length := by
  have h := congrArg List.length (sorted_ports_names g)
  rw [List.length_map, (sort_perm _).length_eq] at h
  rw [h, Generator.get_port_names, List.length_map]

theorem get_port_self (g : Generator) (hn : g.get_port_names.Nodup) (p : Port)
    (hp : p ∈ g.ports) : g.get_port p.name = some p := by
  obtain ⟨q, hq, hqn⟩ := get_port_of_mem g p.name (List.mem_map_of_mem _ hp)
  have hqm : q ∈ g.ports := List.mem_of_find?_eq_some hq
  rw [hq, List.inj_on_of_nodup_map hn hqm hp hqn]

theorem sorted_ports_perm (g : Generator) (hn : g.get_port_names.Nodup) :
    (sorted_ports g).Perm g.ports := by
  have h1 : (sorted_ports g).Perm (g.get_port_names.filterMap g.get_port) :=
    (sort_perm _).filterMap _
  have h2 : g.get_port_names.filterMap g.get_port = g.ports := by
    unfold Generator.get_port_names
    rw [List.filterMap_map]
    have : ∀ (l : List Port), (∀ p ∈ l, p ∈ g.ports) →
        l.filterMap (g.get_port ∘ fun p => p.name) = l := by
      intro l
      induction l with
      | nil => intro _; rfl
      | cons p rest ih =>
        intro hl
        have hs : (g.get_port ∘ fun p => p.name) p = some p :=
          get_port_self g hn p (hl p (List.mem_cons_self _ _))
        rw [List.filterMap_cons_some hs, ih (fun q hq => hl q (List.mem_cons_of_mem _ hq))]
    exact this g.ports (fun _ h => h)
  rw [h2] at h1
  exact h1

theorem get_port_perm (g1 g2 : Generator) (hp : g1.ports.Perm g2.ports)
    (hn : g1.get_port_names.Nodup) (n : String) : g1.get_port n = g2.get_port n := by
  have hn2 : g2.get_port_names.Nodup := (hp.map _).nodup_iff.mp hn
  by_cases hm : n ∈ g1.get_port_names
  · obtain ⟨p, hp1, hpn⟩ := get_port_of_mem g1 n hm
    have hpm : p ∈ g2.ports := hp.subset (List.mem_of_find?_eq_some hp1)
    rw [hp1, ← hpn, get_port_self g2 hn2 p hpm]
  · have hm2 : n ∉ g2.get_port_names := fun h => hm ((hp.map _).symm.subset h)
    have none_of : ∀ (g : Generator), n ∉ g.get_port_names → g.get_port n = none := by
      intro g hg
      unfold Generator.get_port
      rw [List.find?_eq_none]
      intro p hp hpn
      exact hg (List.mem_map.mpr ⟨p, hp, by simpa using hpn⟩)
    rw [none_of g1 hm, none_of g2 hm2]

theorem sorted_ports_eq_of_perm (g1 g2 : Generator) (hp : g1.ports.Perm g2.ports)
    (hn : g1.get_port_names.Nodup) : sorted_ports g1 = sorted_ports g2 := by
  unfold sorted_ports
  have h1 : sort g1.get_port_names = sort g2.get_port_names := sort_eq_of_perm (hp.map _)
  rw [h1]
  exact List.filterMap_congr (fun n _ => get_port_perm g1 g2 hp hn n)

theorem stream_port_stream (port_dir_to_str : PortDirection → String) (g : Generator)
    (s : CodeGen) (port : Port) (e : String) :
    (Stream.port port_dir_to_str g s (port, e)).stream_ =
      s.stream_ ++ (indent_text s.indent_ s.skip_indent_ ++ get_port_str port_dir_to_str port
        ++ e ++ "\n") := by
  simp [Stream.port, String.append_assoc]

theorem stream_port_indent (port_dir_to_str : PortDirection → String) (g : Generator)
    (s : CodeGen) (port : Port × String) :
    (Stream.port port_dir_to_str g s port).indent_ = s.indent_ := by
  simp [Stream.port]

theorem stream_port_skip (port_dir_to_str : PortDirection → String) (g : Generator)
    (s : CodeGen) (port : Port × String) :
    (Stream.port port_dir_to_str g s port).skip_indent_ = false := by
  simp [Stream.port]

theorem generate_ports_loop_spec (port_dir_to_str : PortDirection → String) (g : Generator)
    (size : Nat) :
    ∀ (names : List String) (i : Nat) (s : CodeGen), (∀ n ∈ names, n ∈ g.get_port_names) →
      s.skip_indent_ = false →
      ∃ s', generate_ports_loop port_dir_to_str g size i names s = .ok s' ∧
        s'.stream_ = s.stream_ ++
          concat (port_lines_from port_dir_to_str s.indent_ size i (names.filterMap g.get_port)) ∧
        s'.indent_ = s.indent_ ∧ s'.skip_indent_ = false
  | [], _, s, _, hk => ⟨s, rfl, by simp [port_lines_from, concat], rfl, hk⟩
  | n :: rest, i, s, h, hk => by
    obtain ⟨p, hp, _⟩ := get_port_of_mem g n (h n (List.mem_cons_self _ _))
    obtain ⟨s', hs, hst, hi, hk'⟩ := generate_ports_loop_spec port_dir_to_str g size rest (i + 1)
      (Stream.port port_dir_to_str g s (p, if i = size - 1 then "" else ","))
      (fun m hm => h m (List.mem_cons_of_mem _ hm)) (stream_port_skip ..)
    refine ⟨s', ?_, ?_, ?_, hk'⟩
    · rw [generate_ports_loop, hp]
      exact hs
    · rw [hst, stream_port_stream, stream_port_indent, List.filterMap_cons_some hp,
        port_lines_from, concat, port_line, hk, String.append_assoc]
    · rw [hi, stream_port_indent]

theorem generate_ports_spec (port_dir_to_str : PortDirection → String) (g : Generator)
    (s : CodeGen) (hk : s.skip_indent_ = false) :
    ∃ s', generate_ports port_dir_to_str g s = .ok s' ∧
      s'.stream_ = s.stream_ ++ concat (port_lines port_dir_to_str (s.indent_ + 1) g) ∧
      s'.indent_ = s.indent_ ∧ s'.skip_indent_ = false := by
  obtain ⟨s', hs, hst, hi, hk'⟩ := generate_ports_loop_spec port_dir_to_str g
    (sort g.get_port_names).length (sort g.get_port_names) 0 (indent_inc s) (sort_mem g) hk
  refine ⟨indent_dec s', ?_, ?_, ?_, hk'⟩
  · unfold generate_ports
    simp only [hs]
  · have hl : (sort g.get_port_names).length = (sorted_ports g).length := by
      rw [← sorted_ports_names, List.length_map]
    rw [dec_stream, hst, hl]
    rfl
  · rw [dec_indent, hi, inc_indent]
    rfl

theorem generate_parameters_loop_spec :
    ∀ (params : List (String × Param)) (s : CodeGen),
      (generate_parameters_loop params s).stream_ = s.stream_ ++ concat (param_lines params) ∧
      (generate_parameters_loop params s).indent_ = s.indent_ ∧
      (generate_parameters_loop params s).skip_indent_ = s.skip_indent_
  | [], s => by simp [generate_parameters_loop, param_lines, concat]
  | (name, param) :: rest, s => by
    obtain ⟨h1, h2, h3⟩ := generate_parameters_loop_spec rest
      (Stream.endl (Stream.write s ("parameter " ++ name ++ " = " ++ param.value_str ++ ";")))
    rw [generate_parameters_loop]
    refine ⟨?_, h2, h3⟩
    rw [h1]
    simp [param_lines, concat, String.append_assoc]

theorem get_var_of_mem (g : Generator) (n : String) (h : n ∈ g.get_vars) :
    ∃ v, g.get_var n = some v := by
  unfold Generator.get_var
  cases hf : g.vars.find? (fun v => decide (v.name = n)) with
  | none =>
    rw [List.find?_eq_none] at hf
    unfold Generator.get_vars at h
    rw [List.mem_map] at h
    obtain ⟨v, hv, hn⟩ := h
    exact absurd (by simpa using hn) (hf v hv)
  | some v => exact ⟨v, rfl⟩

theorem stream_var_stream (g : Generator) (s : CodeGen) (var : Var) :
    (Stream.var g s var).stream_ = s.stream_ ++ var_line var := by
  simp [Stream.var, var_line, String.append_assoc]

theorem generate_variables_loop_spec (g : Generator) :
    ∀ (names : List String) (s : CodeGen), (∀ n ∈ names, n ∈ g.get_vars) →
      ∃ s', generate_variables_loop g names s = .ok s' ∧
        s'.stream_ = s.stream_ ++ concat (((names.filterMap g.get_var).filter
          (fun v => decide (v.type = VarType.Base))).map var_line) ∧
        s'.indent_ = s.indent_ ∧ s'.skip_indent_ = s.skip_indent_
  | [], s, _ => ⟨s, rfl, by simp [concat], rfl, rfl⟩
  | n :: rest, s, h => by
    obtain ⟨v, hv⟩ := get_var_of_mem g n (h n (List.mem_cons_self _ _))
    have hrest := fun m hm => h m (List.mem_cons_of_mem n hm)
    rw [generate_variables_loop, hv, List.filterMap_cons_some hv]
    dsimp only
    by_cases hb : v.type = VarType.Base
    · rw [if_pos hb]
      obtain ⟨s', hs, hst, hi, hk⟩ := generate_variables_loop_spec g rest (Stream.var g s v) hrest
      refine ⟨s', hs, ?_, ?_, ?_⟩
      · rw [hst, stream_var_stream, List.filter_cons_of_pos (by simpa using hb), List.map_cons,
          concat, String.append_assoc]
      · rw [hi]; simp [Stream.var]
      · rw [hk]; simp [Stream.var]
    · rw [if_neg hb]
      obtain ⟨s', hs, hst, hi, hk⟩ := generate_variables_loop_spec g rest s hrest
      refine ⟨s', hs, ?_, hi, hk⟩
      rw [hst, List.filter_cons_of_neg (by simpa using hb)]

theorem generate_variables_spec (g : Generator) (s : CodeGen) :
    ∃ s', generate_variables g s = .ok s' ∧ s'.stream_ = s.stream_ ++ concat (var_lines g) ∧
      s'.indent_ = s.indent_ ∧ s'.skip_indent_ = s.skip_indent_ :=
  generate_variables_loop_spec g g.get_vars s (fun _ h => h)

/-! ## Cancellation in strings -/

theorem append_left_cancel {a x y : String} (h : a ++ x = a ++ y) : x = y := by
  have := congrArg String.data h
  rw [String.data_append, String.data_append] at this
  exact String.ext (List.append_cancel_left this)

/-! ## The stream operator for assignments, case by case -/

theorem stmt_code_assign_passes (g : Generator) (s : CodeGen) (stmt : AssignStmt)
    (hl : ¬ (stmt.left.type = VarType.PortIO ∧ stmt.left.generator ≠ g.addr))
    (hr : ¬ (stmt.right.type = VarType.PortIO ∧ stmt.right.generator ≠ g.addr)) :
    dispatch_node g s (.Assign stmt) = Stream.assign g s stmt := by
  have hc : ¬ ((stmt.left.type = VarType.PortIO ∧ stmt.left.generator ≠ g.addr) ∨
      (stmt.right.type = VarType.PortIO ∧ stmt.right.generator ≠ g.addr)) := by
    rintro (h | h)
    · exact hl h
    · exact hr h
  rw [dispatch_node, stmt_code_assign, if_neg hc]

theorem stream_assign_top_blocking (g : Generator) (s : CodeGen) (stmt : AssignStmt)
    (hp : stmt.parent = g.addr) (hb : stmt.assign_type = AssignmentType.Blocking) :
    Stream.assign g s stmt = .ok (Stream.endl (Stream.write (debug_verilog_ln g s stmt.addr)
      ("assign " ++ stmt.left.to_string ++ " = " ++ stmt.right.to_string ++ ";"))) := by
  rw [Stream.assign]
  dsimp only
  rw [if_pos hp, if_neg (by simp [hb])]

theorem stream_assign_top_other (g : Generator) (s : CodeGen) (stmt : AssignStmt)
    (hp : stmt.parent = g.addr) (hb : stmt.assign_type ≠ AssignmentType.Blocking) :
    Stream.assign g s stmt = .error (.runtime_error
      ("Top level assignment for " ++ stmt.left.to_string ++ " <- " ++ stmt.right.to_string
        ++ " has to be blocking")) := by
  rw [Stream.assign]
  dsimp only
  rw [if_pos hp, if_pos hb]

theorem stream_assign_block_blocking (g : Generator) (s : CodeGen) (stmt : AssignStmt)
    (hp : stmt.parent ≠ g.addr) (hb : stmt.assign_type = AssignmentType.Blocking) :
    Stream.assign g s stmt = .ok (Stream.endl (Stream.write
      (indent (debug_verilog_ln g s stmt.addr)).2
      ((indent (debug_verilog_ln g s stmt.addr)).1 ++ stmt.left.to_string ++ " = "
        ++ stmt.right.to_string ++ ";"))) := by
  rw [Stream.assign]
  dsimp only
  rw [if_neg hp, if_pos hb]

theorem stream_assign_block_nonblocking (g : Generator) (s : CodeGen) (stmt : AssignStmt)
    (hp : stmt.parent ≠ g.addr) (hb : stmt.assign_type = AssignmentType.NonBlocking) :
    Stream.assign g s stmt = .ok (Stream.endl (Stream.write
      (indent (debug_verilog_ln g s stmt.addr)).2
      ((indent (debug_verilog_ln g s stmt.addr)).1 ++ stmt.left.to_string ++ " <= "
        ++ stmt.right.to_string ++ ";"))) := by
  rw [Stream.assign]
  dsimp only
  rw [if_neg hp, if_neg (by simp [hb]), if_pos hb]

theorem stream_assign_block_undefined (g : Generator) (s : CodeGen) (stmt : AssignStmt)
    (hp : stmt.parent ≠ g.addr) (hb : stmt.assign_type = AssignmentType.Undefined) :
    Stream.assign g s stmt = .error (.runtime_error
      ("Undefined assignment for " ++ stmt.left.to_string ++ " <- "
        ++ stmt.right.to_string)) := by
  rw [Stream.assign]
  dsimp only
  rw [if_neg hp, if_neg (by simp [hb]), if_neg (by simp [hb])]

/-! ## The claims -/

/-- C2: for a Generator whose external flag is set the constructor returns at
once: it succeeds, the stream is the empty string and no `verilog_ln` has been
written, whatever ports, parameters, variables and statements it holds. -/
theorem external_generator_emits_nothing (port_dir_to_str : PortDirection → String)
    (g : Generator) (h : g.external = true) :
    ∃ s, SystemVerilogCodeGen port_dir_to_str g = .ok s ∧ s.stream_ = "" ∧
      s.verilog_ln = [] := by
  refine ⟨CodeGen.init, ?_, rfl, rfl⟩
  unfold SystemVerilogCodeGen
  simp [h]

theorem external_generator_emits_nothing_witness :
    Example.gen_external.stmts.length = 2 ∧
    ∃ s, SystemVerilogCodeGen Example.port_dir_to_str Example.gen_external = .ok s ∧
      s.stream_ = "" ∧ s.verilog_ln = [] :=
  ⟨rfl, external_generator_emits_nothing Example.port_dir_to_str Example.gen_external rfl⟩

/-- C5 (the code at the failing input): for the unsigned, non-packed 1-bit
input `clk`, `get_port_str` pushes the empty width text as a token of its own,
so the result has two spaces between `logic` and the name; it is not
`<dir> logic <name>`. -/
theorem get_port_str_one_bit_port (port_dir_to_str : PortDirection → String) :
    get_port_str port_dir_to_str Example.clk
        = port_dir_to_str PortDirection.In ++ " logic  clk" ∧
      get_port_str port_dir_to_str Example.clk
        ≠ port_dir_to_str PortDirection.In ++ " logic clk" := by
  have h : get_port_str port_dir_to_str Example.clk
      = port_dir_to_str PortDirection.In ++ " logic  clk" := by
    simp [get_port_str, Example.clk, Example.port, Example.var, get_var_width_str, join,
      String.append_assoc]
  refine ⟨h, ?_⟩
  rw [h]
  intro hc
  have := append_left_cancel hc
  exact absurd this (by decide)

/-- C6: for a Var of width `w` (a `uint32_t`), `get_var_width_str` is
`[k:0]` with `k = w - 1` in decimal when `w > 1`, and the empty string when
`w = 1` and when `w = 0`, where `w - 1` is not computed. -/
theorem get_var_width_str_spec (var : Var) (hw : var.width < 2 ^ 32) :
    (1 < var.width → get_var_width_str var = "[" ++ Nat.repr (var.width - 1) ++ ":0]") ∧
    (var.width = 1 → get_var_width_str var = "") ∧
    (var.width = 0 → get_var_width_str var = "") := by
  refine ⟨fun h => ?_, fun h => ?_, fun h => ?_⟩
  · have e : (2 ^ 32 + var.width - 1) % 2 ^ 32 = var.width - 1 := by omega
    unfold get_var_width_str
    rw [if_pos h, e]
  · unfold get_var_width_str
    rw [if_neg (by omega)]
  · unfold get_var_width_str
    rw [if_neg (by omega)]

theorem get_var_width_str_spec_witness :
    get_var_width_str Example.c = "[3:0]" ∧ get_var_width_str Example.clk.toVar = "" := by
  have h := get_var_width_str_spec Example.c (by decide)
  have h1 := get_var_width_str_spec Example.clk.toVar (by decide)
  exact ⟨h.1 (by decide), h1.2.1 rfl⟩

/-- C7: an AssignStmt whose parent is the Generator being emitted, whose type
is Blocking and whose sides are not ports of another Generator is written as
`assign <left> = <right>;` and a newline, with no indentation, whatever the
indentation level and skip flag of the state are; level and flag are left as
they were. -/
theorem top_level_assign_text (g : Generator) (s : CodeGen) (stmt : AssignStmt)
    (hp : stmt.parent = g.addr) (hb : stmt.assign_type = AssignmentType.Blocking)
    (hl : ¬ (stmt.left.type = VarType.PortIO ∧ stmt.left.generator ≠ g.addr))
    (hr : ¬ (stmt.right.type = VarType.PortIO ∧ stmt.right.generator ≠ g.addr)) :
    ∃ s', dispatch_node g s (.Assign stmt) = .ok s' ∧
      s'.stream_ = s.stream_ ++
        ("assign " ++ stmt.left.to_string ++ " = " ++ stmt.right.to_string ++ ";" ++ "\n") ∧
      s'.indent_ = s.indent_ ∧ s'.skip_indent_ = s.skip_indent_ := by
  refine ⟨_, (stmt_code_assign_passes g s stmt hl hr).trans
    (stream_assign_top_blocking g s stmt hp hb), ?_, ?_, ?_⟩
  · simp [String.append_assoc]
  · simp
  · simp

theorem top_level_assign_text_witness :
    ∃ s', dispatch_node Example.gen { CodeGen.init with indent_ := 3 } (.Assign Example.q_c)
        = .ok s' ∧
      s'.stream_ = "assign q = c;\n" := by
  obtain ⟨s', h1, h2, _⟩ := top_level_assign_text Example.gen { CodeGen.init with indent_ := 3 }
    Example.q_c rfl rfl (by decide) (by decide)
  exact ⟨s', h1, by rw [h2]; decide⟩

/-- C8 as stated fails: a non-blocking AssignStmt whose parent is the Generator
being emitted and whose left side is a port of another Generator is skipped by
`stmt_code`: the run completes without an error and without writing. -/
theorem top_level_nonblocking_not_always_error :
    ¬ ∀ (g : Generator) (s : CodeGen) (stmt : AssignStmt),
        stmt.parent = g.addr → stmt.assign_type ≠ AssignmentType.Blocking →
        ∃ e, dispatch_node g s (.Assign stmt) = .error e := by
  intro h
  obtain ⟨e, he⟩ := h Example.gen CodeGen.init Example.child_drive rfl (by decide)
  have : dispatch_node Example.gen CodeGen.init (.Assign Example.child_drive)
      = .ok CodeGen.init := by
    rw [dispatch_node, stmt_code_assign, if_pos (by decide)]
  rw [this] at he
  cases he

/-- C8 amended: an AssignStmt whose parent is the Generator being emitted,
whose type is not Blocking and neither side of which is a port of another
Generator makes code generation of that statement fail with the runtime error
"Top level assignment ... has to be blocking". -/
theorem top_level_nonblocking_error (g : Generator) (s : CodeGen) (stmt : AssignStmt)
    (hp : stmt.parent = g.addr) (hb : stmt.assign_type ≠ AssignmentType.Blocking)
    (hl : ¬ (stmt.left.type = VarType.PortIO ∧ stmt.left.generator ≠ g.addr))
    (hr : ¬ (stmt.right.type = VarType.PortIO ∧ stmt.right.generator ≠ g.addr)) :
    dispatch_node g s (.Assign stmt) = .error (.runtime_error
      ("Top level assignment for " ++ stmt.left.to_string ++ " <- " ++ stmt.right.to_string
        ++ " has to be blocking")) :=
  (stmt_code_assign_passes g s stmt hl hr).trans (stream_assign_top_other g s stmt hp hb)

theorem top_level_nonblocking_error_witness :
    dispatch_node Example.gen CodeGen.init (.Assign Example.q_c_nonblocking) =
      .error (.runtime_error "Top level assignment for q <- c has to be blocking") :=
  top_level_nonblocking_error Example.gen CodeGen.init Example.q_c_nonblocking rfl
    (by decide) (by decide) (by decide)

/-- C9: an AssignStmt that reaches the stream and whose parent is not the
Generator, emitted at indentation level `d` (no skip pending, `2 * d` within
the range of `uint32_t`): Blocking is written as `2 * d` spaces and
`<left> = <right>;`, NonBlocking as `2 * d` spaces and `<left> <= <right>;`,
each followed by a newline, and Undefined raises a runtime error. -/
theorem block_assign_text (g : Generator) (s : CodeGen) (stmt : AssignStmt)
    (hp : stmt.parent ≠ g.addr)
    (hl : ¬ (stmt.left.type = VarType.PortIO ∧ stmt.left.generator ≠ g.addr))
    (hr : ¬ (stmt.right.type = VarType.PortIO ∧ stmt.right.generator ≠ g.addr))
    (hk : s.skip_indent_ = false) (hd : 2 * s.indent_ < 2 ^ 32) :
    (stmt.assign_type = AssignmentType.Blocking →
      ∃ s', dispatch_node g s (.Assign stmt) = .ok s' ∧
        s'.stream_ = s.stream_ ++ (spaces (2 * s.indent_) ++ stmt.left.to_string ++ " = "
          ++ stmt.right.to_string ++ ";" ++ "\n")) ∧
    (stmt.assign_type = AssignmentType.NonBlocking →
      ∃ s', dispatch_node g s (.Assign stmt) = .ok s' ∧
        s'.stream_ = s.stream_ ++ (spaces (2 * s.indent_) ++ stmt.left.to_string ++ " <= "
          ++ stmt.right.to_string ++ ";" ++ "\n")) ∧
    (stmt.assign_type = AssignmentType.Undefined →
      dispatch_node g s (.Assign stmt) = .error (.runtime_error
        ("Undefined assignment for " ++ stmt.left.to_string ++ " <- "
          ++ stmt.right.to_string))) := by
  have e := stmt_code_assign_passes g s stmt hl hr
  have ht := indent_text_false s.indent_ hd
  refine ⟨fun hb => ⟨_, e.trans (stream_assign_block_blocking g s stmt hp hb), ?_⟩,
    fun hb => ⟨_, e.trans (stream_assign_block_nonblocking g s stmt hp hb), ?_⟩,
    fun hb => e.trans (stream_assign_block_undefined g s stmt hp hb)⟩
  · simp [String.append_assoc, hk, ht]
  · simp [String.append_assoc, hk, ht]

theorem block_assign_text_witness :
    ∃ s', dispatch_node Example.gen { CodeGen.init with indent_ := 2 } (.Assign Example.q_d)
        = .ok s' ∧
      s'.stream_ = "    q <= d;\n" := by
  obtain ⟨s', h1, h2⟩ := (block_assign_text Example.gen { CodeGen.init with indent_ := 2 }
    Example.q_d (by decide) (by decide) (by decide) rfl (by decide)).2.1 rfl
  exact ⟨s', h1, by rw [h2]; decide⟩

theorem port_lines_from_length (port_dir_to_str : PortDirection → String) (d size : Nat) :
    ∀ (ports : List Port) (i : Nat),
      (port_lines_from port_dir_to_str d size i ports).length = ports.length
  | [], _ => rfl
  | _ :: rest, i => by
    rw [port_lines_from, List.length_cons, List.length_cons,
      port_lines_from_length port_dir_to_str d size rest]

theorem port_lines_from_get (port_dir_to_str : PortDirection → String) (d size : Nat) :
    ∀ (ports : List Port) (i k : Nat) (p : Port), ports[k]? = some p →
      (port_lines_from port_dir_to_str d size i ports)[k]?
        = some (port_line port_dir_to_str d size (i + k) p)
  | [], _, _, _, h => by simp at h
  | q :: rest, i, 0, p, h => by
    simp only [List.getElem?_cons_zero, Option.some.injEq] at h
    subst h
    simp [port_lines_from]
  | q :: rest, i, k + 1, p, h => by
    simp only [List.getElem?_cons_succ] at h
    rw [port_lines_from, List.getElem?_cons_succ,
      port_lines_from_get port_dir_to_str d size rest (i + 1) k p h]
    congr 2
    omega

theorem port_lines_length (port_dir_to_str : PortDirection → String) (d : Nat) (g : Generator) :
    (port_lines port_dir_to_str d g).length = g.ports.length := by
  rw [port_lines, port_lines_from_length, sorted_ports_length]

theorem port_lines_get (port_dir_to_str : PortDirection → String) (d : Nat) (g : Generator)
    (k : Nat) (p : Port) (h : (sorted_ports g)[k]? = some p) :
    (port_lines port_dir_to_str d g)[k]?
      = some (port_line port_dir_to_str d g.ports.length k p) := by
  rw [port_lines, port_lines_from_get port_dir_to_str d _ _ 0 k p h, sorted_ports_length,
    Nat.zero_add]

/-- C3: for a Generator whose port names are distinct (they form a set),
`generate_ports` (entered with no skip pending) succeeds and writes one line
per declared port; the ports of the lines are the declared ports arranged in
ascending lexicographic order of their names; the line at position `k` is the
line of the port at position `k` of that arrangement; and a Generator that
declares the same ports in another order produces the same text. -/
theorem generate_ports_sorted (port_dir_to_str : PortDirection → String) (g : Generator)
    (s : CodeGen) (hk : s.skip_indent_ = false) (hn : g.get_port_names.Nodup) :
    (∃ s', generate_ports port_dir_to_str g s = .ok s' ∧
      s'.stream_ = s.stream_ ++ concat (port_lines port_dir_to_str (s.indent_ + 1) g)) ∧
    (port_lines port_dir_to_str (s.indent_ + 1) g).length = g.ports.length ∧
    (sorted_ports g).Perm g.ports ∧
    List.Sorted string_le ((sorted_ports g).map (fun p => p.name)) ∧
    (∀ (k : Nat) (p : Port), (sorted_ports g)[k]? = some p →
      (port_lines port_dir_to_str (s.indent_ + 1) g)[k]?
        = some (port_line port_dir_to_str (s.indent_ + 1) g.ports.length k p)) ∧
    (∀ (g2 : Generator), g.ports.Perm g2.ports →
      ∃ s1 s2, generate_ports port_dir_to_str g s = .ok s1 ∧
        generate_ports port_dir_to_str g2 s = .ok s2 ∧ s1.stream_ = s2.stream_) := by
  obtain ⟨s', hs, hst, _, _⟩ := generate_ports_spec port_dir_to_str g s hk
  refine ⟨⟨s', hs, hst⟩, port_lines_length .., sorted_ports_perm g hn, ?_,
    port_lines_get port_dir_to_str _ g, ?_⟩
  · rw [sorted_ports_names]
    exact sort_sorted _
  · intro g2 hp
    obtain ⟨s2, hs2, hst2, _, _⟩ := generate_ports_spec port_dir_to_str g2 s hk
    refine ⟨s', s2, hs, hs2, ?_⟩
    rw [hst, hst2, port_lines, port_lines, sorted_ports_eq_of_perm g g2 hp hn]

theorem generate_ports_sorted_witness :
    (sorted_ports Example.gen).map (fun p => p.name) = ["clk", "d", "q"] ∧
    ∃ s1 s2, generate_ports Example.port_dir_to_str Example.gen CodeGen.init = .ok s1 ∧
      generate_ports Example.port_dir_to_str Example.gen_reordered CodeGen.init = .ok s2 ∧
      s1.stream_ = s2.stream_ :=
  ⟨by decide,
    (generate_ports_sorted Example.port_dir_to_str Example.gen CodeGen.init rfl
      (by decide)).2.2.2.2.2 Example.gen_reordered
      (@List.perm_append_comm Port [Example.q, Example.clk] [Example.d])⟩

/-- C4: `generate_ports` (entered with no skip pending) succeeds for every
number `n` of ports; each of the first `n - 1` lines is the indentation, the
port text, a comma and the newline; the last line is the indentation, the
port text and the newline, without a comma; and for `n = 0` nothing is
written. -/
theorem generate_ports_commas (port_dir_to_str : PortDirection → String) (g : Generator)
    (s : CodeGen) (hk : s.skip_indent_ = false) :
    ∃ s', generate_ports port_dir_to_str g s = .ok s' ∧
      s'.stream_ = s.stream_ ++ concat (port_lines port_dir_to_str (s.indent_ + 1) g) ∧
      (port_lines port_dir_to_str (s.indent_ + 1) g).length = g.ports.length ∧
      (∀ (k : Nat) (p : Port), (sorted_ports g)[k]? = some p → k + 1 < g.ports.length →
        (port_lines port_dir_to_str (s.indent_ + 1) g)[k]? = some
          (indent_text (s.indent_ + 1) false ++ get_port_str port_dir_to_str p ++ ","
            ++ "\n")) ∧
      (∀ (k : Nat) (p : Port), (sorted_ports g)[k]? = some p → k + 1 = g.ports.length →
        (port_lines port_dir_to_str (s.indent_ + 1) g)[k]? = some
          (indent_text (s.indent_ + 1) false ++ get_port_str port_dir_to_str p ++ "\n")) ∧
      (g.ports.length = 0 → s'.stream_ = s.stream_) := by
  obtain ⟨s', hs, hst, _, _⟩ := generate_ports_spec port_dir_to_str g s hk
  refine ⟨s', hs, hst, port_lines_length .., ?_, ?_, ?_⟩
  · intro k p hp hlt
    rw [port_lines_get port_dir_to_str _ g k p hp, port_line, if_neg (by omega)]
  · intro k p hp hlt
    rw [port_lines_get port_dir_to_str _ g k p hp, port_line, if_pos (by omega),
      String.append_empty]
  · intro h0
    have : port_lines port_dir_to_str (s.indent_ + 1) g = [] :=
      List.length_eq_zero.mp (by rw [port_lines_length, h0])
    rw [hst, this, concat, String.append_empty]

theorem generate_ports_commas_witness :
    (∃ s', generate_ports Example.port_dir_to_str Example.gen CodeGen.init = .ok s' ∧
      s'.stream_ = "  input logic  clk,\n  input logic [3:0] d,\n  output logic [3:0] q\n") ∧
    (∃ s', generate_ports Example.port_dir_to_str Example.gen_no_ports CodeGen.init = .ok s' ∧
      s'.stream_ = "") := by
  obtain ⟨s', h1, h2, _⟩ :=
    generate_ports_commas Example.port_dir_to_str Example.gen CodeGen.init rfl
  obtain ⟨s0, h3, _, _, _, _, h4⟩ :=
    generate_ports_commas Example.port_dir_to_str Example.gen_no_ports CodeGen.init rfl
  exact ⟨⟨s', h1, by rw [h2]; decide⟩, ⟨s0, h3, by rw [h4 rfl]; rfl⟩⟩

theorem sensitive_list_eq (conditions : List (BlockEdgeType × Var)) :
    sensitive_list conditions = conditions.map (fun c =>
      (if c.1 = BlockEdgeType.Posedge then "posedge" else "negedge") ++ " " ++ c.2.to_string) :=
  rfl

theorem sequential_run (g : Generator) (addr : Nat) (conditions : List (BlockEdgeType × Var))
    (children : List Stmt) (s s1 : CodeGen) (texts : List String)
    (hd : 2 * s.indent_ < 2 ^ 32)
    (h1 : dispatch_nodes g (indent_inc (Stream.endl (Stream.write (Stream.write (Stream.write
      (Stream.endl (debug_verilog_ln g s addr)) "always @(")
      (join (sensitive_list conditions) ", ")) ") begin"))) children = .ok s1)
    (hst : s1.stream_ = (indent_inc (Stream.endl (Stream.write (Stream.write (Stream.write
      (Stream.endl (debug_verilog_ln g s addr)) "always @(")
      (join (sensitive_list conditions) ", ")) ") begin"))).stream_ ++ concat texts)
    (hi : s1.indent_ = s.indent_ + 1) (hk1 : s1.skip_indent_ = false) :
    dispatch_node g s (.Sequential addr conditions children)
        = .ok (write_line (indent_dec s1) "end") ∧
      (write_line (indent_dec s1) "end").stream_
        = s.stream_ ++ sequential_text conditions s.indent_ texts ∧
      (write_line (indent_dec s1) "end").indent_ = s.indent_ := by
  refine ⟨?_, ?_, ?_⟩
  · rw [dispatch_node, bind_eq_ok]
    exact ⟨s1, h1, rfl⟩
  · have ht := indent_text_false s.indent_ hd
    simp [hst, hi, hk1, ht, sequential_text, sensitive_list_eq, String.append_assoc]
  · simp [hi]

/-- C10: a Sequential block dispatched at level `d` (no skip pending, `2 * d`
within the range of `uint32_t`) writes an empty line, the header
`always @(E1 v1, ..., En vn) begin` with `posedge` for Posedge and `negedge`
otherwise, the pairs in list order joined by `, `, then the texts of its
children in order, each dispatched at level `d + 1`, then `end` after `2 * d`
spaces; it succeeds exactly when the children do.  For the block with
condition (Posedge, clk) and body `q <= d` at top level the text is
`always @(posedge clk) begin\n  q <= d;\nend` between two newlines. -/
theorem sequential_block_text :
    (∀ (g : Generator) (addr : Nat) (conditions : List (BlockEdgeType × Var))
      (children : List Stmt) (s : CodeGen),
      s.skip_indent_ = false → 2 * s.indent_ < 2 ^ 32 →
      (∀ s', dispatch_node g s (.Sequential addr conditions children) = .ok s' →
        ∃ texts, Emits g (s.indent_ + 1) children texts ∧
          s'.stream_ = s.stream_ ++ sequential_text conditions s.indent_ texts ∧
          s'.indent_ = s.indent_) ∧
      (∀ texts, Emits g (s.indent_ + 1) children texts →
        ∃ s', dispatch_node g s (.Sequential addr conditions children) = .ok s' ∧
          s'.stream_ = s.stream_ ++ sequential_text conditions s.indent_ texts ∧
          s'.indent_ = s.indent_)) ∧
    (∃ s', dispatch_node Example.gen CodeGen.init Example.seq = .ok s' ∧
      s'.stream_ = "\n" ++ "always @(posedge clk) begin\n  q <= d;\nend" ++ "\n") := by
  have general : ∀ (g : Generator) (addr : Nat) (conditions : List (BlockEdgeType × Var))
      (children : List Stmt) (s : CodeGen),
      s.skip_indent_ = false → 2 * s.indent_ < 2 ^ 32 →
      (∀ s', dispatch_node g s (.Sequential addr conditions children) = .ok s' →
        ∃ texts, Emits g (s.indent_ + 1) children texts ∧
          s'.stream_ = s.stream_ ++ sequential_text conditions s.indent_ texts ∧
          s'.indent_ = s.indent_) ∧
      (∀ texts, Emits g (s.indent_ + 1) children texts →
        ∃ s', dispatch_node g s (.Sequential addr conditions children) = .ok s' ∧
          s'.stream_ = s.stream_ ++ sequential_text conditions s.indent_ texts ∧
          s'.indent_ = s.indent_) := by
    intro g addr conditions children s hk hd
    constructor
    · intro s' h
      have h' := h
      rw [dispatch_node, bind_eq_ok] at h'
      obtain ⟨s1, h1, h2⟩ := h'
      obtain ⟨texts, he, hst, hi, hk1⟩ := emits_of_run g children _ s1 (by simpa using hk) h1
      have hr := sequential_run g addr conditions children s s1 texts hd h1 hst
        (by simpa using hi) hk1
      rw [hr.1] at h
      cases h
      exact ⟨texts, by simpa using he, hr.2.1, hr.2.2⟩
    · intro texts he
      obtain ⟨s1, h1, hst, hi, hk1⟩ := run_of_emits g (s.indent_ + 1) children texts he
        (indent_inc (Stream.endl (Stream.write (Stream.write (Stream.write
          (Stream.endl (debug_verilog_ln g s addr)) "always @(")
          (join (sensitive_list conditions) ", ")) ") begin")))
        (by simp) (by simpa using hk)
      have hr := sequential_run g addr conditions children s s1 texts hd h1 hst hi hk1
      exact ⟨_, hr.1, hr.2.1, hr.2.2⟩
  refine ⟨general, ?_⟩
  obtain ⟨s', h1, h2, _⟩ := (general Example.gen 20 [(BlockEdgeType.Posedge, Example.clk.toVar)]
    [.Assign Example.q_d] CodeGen.init rfl (by decide)).2 ["  q <= d;\n"]
    (List.Forall₂.cons rfl List.Forall₂.nil)
  exact ⟨s', h1, by rw [h2]; decide⟩

theorem sequential_block_text_witness :
    ∃ s', dispatch_node Example.gen { CodeGen.init with indent_ := 1 } Example.seq2 = .ok s' ∧
      s'.stream_ = "\nalways @(posedge clk, negedge d) begin\n  end\n" := by
  obtain ⟨s', h1, h2, _⟩ := (sequential_block_text.1 Example.gen 22
    [(BlockEdgeType.Posedge, Example.clk.toVar), (BlockEdgeType.Negedge, Example.d.toVar)] []
    { CodeGen.init with indent_ := 1 } rfl (by decide)).2 [] List.Forall₂.nil
  exact ⟨s', h1, by rw [h2]; decide⟩

theorem codegen_run (port_dir_to_str : PortDirection → String) (g : Generator)
    (hext : g.external = false) :
    ∃ s0, s0.stream_ = "module " ++ g.name ++ " (" ++ "\n"
          ++ concat (port_lines port_dir_to_str 1 g) ++ ");" ++ "\n" ++ "\n"
          ++ concat (param_lines g.params) ++ concat (var_lines g) ∧
      s0.indent_ = 0 ∧ s0.skip_indent_ = false ∧
      SystemVerilogCodeGen port_dir_to_str g =
        match dispatch_nodes g s0 g.stmts with
        | .error e => .error e
        | .ok s => .ok (Stream.endl (Stream.write s ("endmodule   // " ++ g.name))) := by
  obtain ⟨s1, h1, hs1, hi1, hk1⟩ := generate_ports_spec port_dir_to_str g
    (Stream.endl (Stream.write CodeGen.init ("module " ++ g.name ++ " ("))) rfl
  obtain ⟨s2, h2, hs2, hi2, hk2⟩ := generate_variables_spec g
    (generate_parameters g (Stream.endl (Stream.endl (Stream.write s1 ");"))))
  obtain ⟨hp1, hp2, hp3⟩ := generate_parameters_loop_spec g.params
    (Stream.endl (Stream.endl (Stream.write s1 ");")))
  refine ⟨s2, ?_, ?_, ?_, ?_⟩
  · rw [hs2, generate_parameters, hp1]
    simp [hs1, CodeGen.init, String.append_assoc]
  · rw [hi2, generate_parameters, hp2]
    simp [hi1, CodeGen.init]
  · rw [hk2, generate_parameters, hp3]
    simp [hk1]
  · unfold SystemVerilogCodeGen
    simp only [hext, Bool.false_eq_true, if_false, h1, h2]

/-- C1: for a Generator that is not external the constructor writes, in this
order, the line `module <name> (`, the port lines, the line `);` followed by
an empty line, one `parameter NAME = VALUE;` line per parameter, the
declarations of the Base variables, the texts of the statements in `get_stmt`
index order, each dispatched at level 0, and the line
`endmodule   // <name>`, whose newline ends the text; it succeeds exactly when
the statements do. -/
theorem module_text_order (port_dir_to_str : PortDirection → String) (g : Generator)
    (hext : g.external = false) :
    (∀ s, SystemVerilogCodeGen port_dir_to_str g = .ok s →
      ∃ texts, Emits g 0 g.stmts texts ∧ s.stream_ = module_text port_dir_to_str g texts) ∧
    (∀ texts, Emits g 0 g.stmts texts →
      ∃ s, SystemVerilogCodeGen port_dir_to_str g = .ok s ∧
        s.stream_ = module_text port_dir_to_str g texts) := by
  obtain ⟨s0, hs0, hi0, hk0, hrun⟩ := codegen_run port_dir_to_str g hext
  constructor
  · intro s h
    rw [hrun] at h
    cases hd : dispatch_nodes g s0 g.stmts with
    | error e => rw [hd] at h; cases h
    | ok s1 =>
      rw [hd] at h
      cases h
      obtain ⟨texts, he, hst, _, _⟩ := emits_of_run g g.stmts s0 s1 hk0 hd
      rw [hi0] at he
      refine ⟨texts, he, ?_⟩
      simp [hst, hs0, module_text, String.append_assoc]
  · intro texts he
    obtain ⟨s1, hd, hst, _, _⟩ := run_of_emits g 0 g.stmts texts he s0 hi0 hk0
    refine ⟨_, by rw [hrun, hd], ?_⟩
    simp [hst, hs0, module_text, String.append_assoc]

theorem module_text_order_witness :
    ∃ s, SystemVerilogCodeGen Example.port_dir_to_str Example.gen = .ok s ∧
      s.stream_ = "module test (\n  input logic  clk,\n  input logic [3:0] d,\n"
        ++ "  output logic [3:0] q\n);\n\nparameter P = 4;\nlogic  [3:0] c;\nassign q = c;\n"
        ++ "\nalways @(posedge clk) begin\n  q <= d;\nend\nendmodule   // test\n" := by
  obtain ⟨s, h1, h2⟩ := (module_text_order Example.port_dir_to_str Example.gen rfl).2
    ["assign q = c;\n", "\nalways @(posedge clk) begin\n  q <= d;\nend\n"]
    (List.Forall₂.cons rfl (List.Forall₂.cons rfl List.Forall₂.nil))
  exact ⟨s, h1, by rw [h2]; rfl⟩

/-! ## If statements -/

theorem indent_text_true (d : Nat) : indent_text d true = "" := rfl

theorem dispatch_node_if (g : Generator) (s : CodeGen) (addr : Nat) (predicate : Var)
    (then_body else_body : List Stmt) :
    dispatch_node g s (.If addr predicate then_body else_body) =
      (dispatch_nodes g (indent_inc (write_line (debug_verilog_ln g s addr)
          ("if (" ++ predicate.to_string ++ ") begin"))) then_body >>=
        fun s1 => else_code g (write_line (indent_dec s1) "end") else_body) := by
  rw [dispatch_node]
  cases else_body <;> rfl

theorem if_then_run (g : Generator) (s : CodeGen) (addr : Nat) (predicate : Var)
    (then_body else_body : List Stmt) (texts : List String)
    (hd : 2 * s.indent_ < 2 ^ 32) (he : Emits g (s.indent_ + 1) then_body texts) :
    ∃ s2, s2.stream_ = s.stream_ ++
          (indent_text s.indent_ s.skip_indent_ ++ if_text predicate s.indent_ texts) ∧
      s2.indent_ = s.indent_ ∧ s2.skip_indent_ = false ∧
      dispatch_node g s (.If addr predicate then_body else_body) = else_code g s2 else_body := by
  obtain ⟨s1, h1, hst, hi, hk⟩ := run_of_emits g (s.indent_ + 1) then_body texts he
    (indent_inc (write_line (debug_verilog_ln g s addr)
      ("if (" ++ predicate.to_string ++ ") begin"))) (by simp) (by simp)
  refine ⟨write_line (indent_dec s1) "end", ?_, ?_, ?_, ?_⟩
  · have ht := indent_text_false s.indent_ hd
    simp [hst, hi, hk, ht, if_text, String.append_assoc]
  · simp [hi]
  · simp
  · rw [dispatch_node_if, h1]
    rfl

theorem if_then_of_run (g : Generator) (s s' : CodeGen) (addr : Nat) (predicate : Var)
    (then_body else_body : List Stmt)
    (h : dispatch_node g s (.If addr predicate then_body else_body) = .ok s') :
    ∃ texts, Emits g (s.indent_ + 1) then_body texts := by
  rw [dispatch_node_if, bind_eq_ok] at h
  obtain ⟨s1, h1, _⟩ := h
  obtain ⟨texts, he, _⟩ := emits_of_run g then_body _ s1 (by simp) h1
  exact ⟨texts, by simpa using he⟩

theorem dispatch_node_appends (g : Generator) (stmt : Stmt) (s s' : CodeGen)
    (h : dispatch_node g s stmt = .ok s') : ∃ text, s'.stream_ = s.stream_ ++ text := by
  obtain ⟨_, _, _, text, h1, _⟩ :=
    dispatch_node_frame g stmt s s' h s s s (Step.refl (Sim.same s))
  exact ⟨text, h1⟩

theorem dispatch_nodes_appends (g : Generator) (stmts : List Stmt) (s s' : CodeGen)
    (h : dispatch_nodes g s stmts = .ok s') : ∃ text, s'.stream_ = s.stream_ ++ text := by
  obtain ⟨_, _, _, text, h1, _⟩ :=
    dispatch_nodes_frame g stmts s s' h s s s (Step.refl (Sim.same s))
  exact ⟨text, h1⟩

theorem else_code_appends (g : Generator) (else_body : List Stmt) (s s' : CodeGen)
    (h : else_code g s else_body = .ok s') :
    ∃ text, s'.stream_ = s.stream_ ++ text ∧ (else_body = [] → text = "") := by
  cases else_body with
  | nil =>
    rw [else_code, pure_eq_ok] at h
    subst h
    exact ⟨"", by simp, fun _ => rfl⟩
  | cons if_stmt rest =>
    rw [else_code] at h
    split at h
    · obtain ⟨text, ht⟩ := dispatch_node_appends g if_stmt _ s' h
      refine ⟨indent_text s.indent_ s.skip_indent_ ++ "else " ++ text, ?_, by simp⟩
      rw [ht]
      simp [String.append_assoc]
    · rw [bind_eq_ok] at h
      obtain ⟨s1, h1, h2⟩ := h
      rw [pure_eq_ok] at h2
      subst h2
      obtain ⟨text, ht⟩ := dispatch_nodes_appends g _ _ s1 h1
      refine ⟨indent_text s.indent_ s.skip_indent_ ++ "else begin" ++ "\n" ++ text
        ++ indent_text (s1.indent_ - 1) s1.skip_indent_ ++ "end" ++ "\n", ?_, by simp⟩
      simp [ht, String.append_assoc]

/-- C11: an If dispatched at level `d` (no skip pending, `2 * d` within the
range of `uint32_t`) whose else-body is exactly one If writes its `if` line,
then-body and `end`, then `2 * d` spaces and `else ` followed on the same line
by the nested `if (<pred2>) begin`, the nested then-body at level `d + 1` like
the outer then-body, and the nested `end` after `2 * d` spaces; there is no
`else begin` line.  What follows is the text of the nested else-body, empty
when that body is empty.  An If with an empty else-body writes its `if` line,
then-body and `end` and nothing else. -/
theorem else_if_chain_text :
    (∀ (g : Generator) (s : CodeGen) (addr : Nat) (predicate : Var) (then_body : List Stmt)
      (addr2 : Nat) (predicate2 : Var) (then_body2 else_body2 : List Stmt),
      s.skip_indent_ = false → 2 * s.indent_ < 2 ^ 32 →
      (∀ s', dispatch_node g s
          (.If addr predicate then_body [.If addr2 predicate2 then_body2 else_body2]) = .ok s' →
        ∃ texts texts2 rest, Emits g (s.indent_ + 1) then_body texts ∧
          Emits g (s.indent_ + 1) then_body2 texts2 ∧
          s'.stream_ = s.stream_ ++ (spaces (2 * s.indent_) ++ if_text predicate s.indent_ texts
            ++ spaces (2 * s.indent_) ++ "else " ++ if_text predicate2 s.indent_ texts2 ++ rest) ∧
          (else_body2 = [] → rest = "")) ∧
      (∀ texts texts2, Emits g (s.indent_ + 1) then_body texts →
        Emits g (s.indent_ + 1) then_body2 texts2 →
        ∃ s', dispatch_node g s
            (.If addr predicate then_body [.If addr2 predicate2 then_body2 []]) = .ok s' ∧
          s'.stream_ = s.stream_ ++ (spaces (2 * s.indent_) ++ if_text predicate s.indent_ texts
            ++ spaces (2 * s.indent_) ++ "else " ++ if_text predicate2 s.indent_ texts2))) ∧
    (∀ (g : Generator) (s : CodeGen) (addr : Nat) (predicate : Var) (then_body : List Stmt),
      s.skip_indent_ = false → 2 * s.indent_ < 2 ^ 32 →
      (∀ s', dispatch_node g s (.If addr predicate then_body []) = .ok s' →
        ∃ texts, Emits g (s.indent_ + 1) then_body texts ∧
          s'.stream_ = s.stream_ ++ (spaces (2 * s.indent_) ++ if_text predicate s.indent_ texts)) ∧
      (∀ texts, Emits g (s.indent_ + 1) then_body texts →
        ∃ s', dispatch_node g s (.If addr predicate then_body []) = .ok s' ∧
          s'.stream_ = s.stream_
            ++ (spaces (2 * s.indent_) ++ if_text predicate s.indent_ texts))) := by
  have chain : ∀ (g : Generator) (s : CodeGen) (addr : Nat) (predicate : Var)
      (then_body : List Stmt) (addr2 : Nat) (predicate2 : Var)
      (then_body2 else_body2 : List Stmt) (texts texts2 : List String),
      s.skip_indent_ = false → 2 * s.indent_ < 2 ^ 32 →
      Emits g (s.indent_ + 1) then_body texts → Emits g (s.indent_ + 1) then_body2 texts2 →
      ∃ s4, s4.stream_ = s.stream_ ++ (spaces (2 * s.indent_)
            ++ if_text predicate s.indent_ texts ++ spaces (2 * s.indent_) ++ "else "
            ++ if_text predicate2 s.indent_ texts2) ∧
        dispatch_node g s
            (.If addr predicate then_body [.If addr2 predicate2 then_body2 else_body2])
          = else_code g s4 else_body2 := by
    intro g s addr predicate then_body addr2 predicate2 then_body2 else_body2 texts texts2
      hk hd he he2
    have ht := indent_text_false s.indent_ hd
    obtain ⟨s2, hs2, hi2, hk2, hrun⟩ :=
      if_then_run g s addr predicate then_body
        [.If addr2 predicate2 then_body2 else_body2] texts hd he
    have hi3 : ({ Stream.write (Stream.write (indent s2).2 (indent s2).1) "else " with
        skip_indent_ := true } : CodeGen).indent_ = s.indent_ := by simp [hi2]
    obtain ⟨s4, hs4, _, _, hrun2⟩ :=
      if_then_run g { Stream.write (Stream.write (indent s2).2 (indent s2).1) "else " with
        skip_indent_ := true } addr2 predicate2 then_body2 else_body2 texts2
        (by rw [hi3]; exact hd) (by rw [hi3]; exact he2)
    refine ⟨s4, ?_, ?_⟩
    · rw [hs4, hi3]
      simp [hs2, hi2, hk2, hk, ht, indent_text_true, String.append_assoc]
    · rw [hrun, else_code, if_pos (by rfl)]
      exact hrun2
  refine ⟨fun g s addr predicate then_body addr2 predicate2 then_body2 else_body2 hk hd =>
    ⟨fun s' h => ?_, fun texts texts2 he he2 => ?_⟩,
    fun g s addr predicate then_body hk hd => ⟨fun s' h => ?_, fun texts he => ?_⟩⟩
  · obtain ⟨texts, he⟩ := if_then_of_run g s s' _ _ _ _ h
    obtain ⟨s2, hs2, hi2, hk2, hrun⟩ :=
      if_then_run g s addr predicate then_body
        [.If addr2 predicate2 then_body2 else_body2] texts hd he
    have h' := h
    rw [hrun, else_code, if_pos (by rfl)] at h'
    obtain ⟨texts2, he2⟩ := if_then_of_run g _ s' _ _ _ _ h'
    have he2' : Emits g (s.indent_ + 1) then_body2 texts2 := by simpa [hi2] using he2
    obtain ⟨s4, hs4, hrun4⟩ := chain g s addr predicate then_body addr2 predicate2 then_body2
      else_body2 texts texts2 hk hd he he2'
    rw [hrun4] at h
    obtain ⟨rest, hr, hnil⟩ := else_code_appends g else_body2 s4 s' h
    exact ⟨texts, texts2, rest, he, he2', by rw [hr, hs4, String.append_assoc], hnil⟩
  · obtain ⟨s4, hs4, hrun4⟩ := chain g s addr predicate then_body addr2 predicate2 then_body2
      [] texts texts2 hk hd he he2
    exact ⟨s4, by rw [hrun4]; rfl, hs4⟩
  · obtain ⟨texts, he⟩ := if_then_of_run g s s' _ _ _ _ h
    obtain ⟨s2, hs2, _, _, hrun⟩ := if_then_run g s addr predicate then_body [] texts hd he
    rw [hrun, else_code, pure_eq_ok] at h
    subst h
    exact ⟨texts, he, by rw [hs2, hk, indent_text_false s.indent_ hd]⟩
  · obtain ⟨s2, hs2, _, _, hrun⟩ := if_then_run g s addr predicate then_body [] texts hd he
    exact ⟨s2, by rw [hrun]; rfl, by rw [hs2, hk, indent_text_false s.indent_ hd]⟩

theorem else_if_chain_text_witness :
    (∃ s', dispatch_node Example.gen { CodeGen.init with indent_ := 1 } Example.if_chain
        = .ok s' ∧
      s'.stream_ = "  if (a) begin\n    q = c;\n  end\n  else if (b) begin\n    q = d;\n  end\n") ∧
    (∃ s', dispatch_node Example.gen { CodeGen.init with indent_ := 1 } Example.if_plain
        = .ok s' ∧
      s'.stream_ = "  if (a) begin\n    q = c;\n  end\n") := by
  obtain ⟨s1, h1, h2⟩ := (else_if_chain_text.1 Example.gen { CodeGen.init with indent_ := 1 }
    30 Example.a [.Assign Example.q_c_block] 31 Example.b [.Assign Example.q_d_block] []
    rfl (by decide)).2 ["    q = c;\n"] ["    q = d;\n"]
    (List.Forall₂.cons rfl List.Forall₂.nil) (List.Forall₂.cons rfl List.Forall₂.nil)
  obtain ⟨s2, h3, h4⟩ := (else_if_chain_text.2 Example.gen { CodeGen.init with indent_ := 1 }
    32 Example.a [.Assign Example.q_c_block] rfl (by decide)).2 ["    q = c;\n"]
    (List.Forall₂.cons rfl List.Forall₂.nil)
  exact ⟨⟨s1, h1, by rw [h2]; decide⟩, ⟨s2, h3, by rw [h4]; decide⟩⟩

/-! ## Switch statements -/

theorem switch_cases_cons (g : Generator) (s : CodeGen) (first : Option Var)
    (second : List Stmt) (rest : List (Option Var × List Stmt)) (hne : second ≠ []) :
    switch_cases g s ((first, second) :: rest) =
      (dispatch_nodes g (indent_inc (Stream.endl (Stream.write (Stream.write (Stream.write
          (Stream.write (indent s).2 (indent s).1) (case_label first)) ": ") "begin"))) second >>=
        fun s1 => switch_cases g (write_line (indent_dec s1) "end") rest) := by
  have hc : ¬ (second.isEmpty = true) := by
    cases second with
    | nil => exact absurd rfl hne
    | cons _ _ => simp
  cases first <;> rw [switch_cases, if_neg hc] <;> rfl

theorem switch_cases_empty_some (g : Generator) (s : CodeGen) (value : Var)
    (rest : List (Option Var × List Stmt)) :
    switch_cases g s ((some value, []) :: rest) = .error (.runtime_error
      ("Switch statement condition " ++ value.to_string ++ " is empty!")) := by
  rw [switch_cases, if_pos (by rfl)]

theorem switch_cases_empty_none (g : Generator) (s : CodeGen)
    (rest : List (Option Var × List Stmt)) :
    switch_cases g s ((none, []) :: rest) = .error .null_dereference := by
  rw [switch_cases, if_pos (by rfl)]

theorem dispatch_node_switch (g : Generator) (s : CodeGen) (addr : Nat) (target : Var)
    (body : List (Option Var × List Stmt)) :
    dispatch_node g s (.Switch addr target body) =
      (switch_cases g (indent_inc (Stream.endl (Stream.write (Stream.write (Stream.write
          (Stream.write (indent s).2 (indent s).1) "case (") target.to_string) ")"))) body >>=
        fun s1 => pure (write_line (indent_dec s1) "endcase")) := by
  rw [dispatch_node]

theorem switch_cases_nonempty (g : Generator) :
    ∀ (body : List (Option Var × List Stmt)) (s s' : CodeGen),
      switch_cases g s body = .ok s' → ∀ c ∈ body, c.2 ≠ []
  | [], _, _, _ => fun _ hc => absurd hc (List.not_mem_nil _)
  | (first, []) :: rest, s, s', h => by
    cases first with
    | none => rw [switch_cases_empty_none] at h; cases h
    | some v => rw [switch_cases_empty_some] at h; cases h
  | (first, stmt :: more) :: rest, s, s', h => by
    rw [switch_cases_cons g s first (stmt :: more) rest (by simp), bind_eq_ok] at h
    obtain ⟨s1, _, h2⟩ := h
    intro c hc
    rcases List.mem_cons.mp hc with rfl | hc
    · simp
    · exact switch_cases_nonempty g rest _ s' h2 c hc

theorem case_run (g : Generator) (s : CodeGen) (first : Option Var) (second : List Stmt)
    (rest : List (Option Var × List Stmt)) (texts : List String) (hne : second ≠ [])
    (hk : s.skip_indent_ = false) (hd : 2 * s.indent_ < 2 ^ 32)
    (he : Emits g (s.indent_ + 1) second texts) :
    ∃ s2, s2.stream_ = s.stream_ ++ case_text s.indent_ first texts ∧
      s2.indent_ = s.indent_ ∧ s2.skip_indent_ = false ∧
      switch_cases g s ((first, second) :: rest) = switch_cases g s2 rest := by
  obtain ⟨s1, h1, hst, hi, hk1⟩ := run_of_emits g (s.indent_ + 1) second texts he
    (indent_inc (Stream.endl (Stream.write (Stream.write (Stream.write
      (Stream.write (indent s).2 (indent s).1) (case_label first)) ": ") "begin")))
    (by simp) (by simp)
  refine ⟨write_line (indent_dec s1) "end", ?_, ?_, ?_, ?_⟩
  · have ht := indent_text_false s.indent_ hd
    simp [hst, hi, hk1, hk, ht, case_text, String.append_assoc]
  · simp [hi]
  · simp
  · rw [switch_cases_cons g s first second rest hne, h1]
    rfl

theorem case_emits_of_run (g : Generator) :
    ∀ (body : List (Option Var × List Stmt)) (s s' : CodeGen),
      s.skip_indent_ = false → 2 * s.indent_ < 2 ^ 32 → switch_cases g s body = .ok s' →
      ∃ case_texts, CaseEmits g s.indent_ body case_texts ∧
        s'.stream_ = s.stream_ ++ concat case_texts ∧ s'.indent_ = s.indent_ ∧
        s'.skip_indent_ = false
  | [], s, s', hk, _, h => by
    rw [switch_cases, pure_eq_ok] at h
    subst h
    exact ⟨[], List.Forall₂.nil, by simp [concat], rfl, hk⟩
  | (first, second) :: rest, s, s', hk, hd, h => by
    have hne : second ≠ [] :=
      switch_cases_nonempty g _ s s' h (first, second) (List.mem_cons_self _ _)
    have h' := h
    rw [switch_cases_cons g s first second rest hne, bind_eq_ok] at h'
    obtain ⟨s1, h1, _⟩ := h'
    obtain ⟨texts, he, _⟩ := emits_of_run g second _ s1 (by simp) h1
    have he' : Emits g (s.indent_ + 1) second texts := by simpa using he
    obtain ⟨s2, hs2, hi2, hk2, hrun⟩ := case_run g s first second rest texts hne hk hd he'
    rw [hrun] at h
    obtain ⟨case_texts, hce, hst, hi, hk'⟩ :=
      case_emits_of_run g rest s2 s' hk2 (by rw [hi2]; exact hd) h
    rw [hi2] at hce
    exact ⟨case_text s.indent_ first texts :: case_texts,
      List.Forall₂.cons ⟨texts, he', rfl⟩ hce,
      by rw [hst, hs2, concat, String.append_assoc], hi.trans hi2, hk'⟩

theorem run_of_case_emits (g : Generator) (d : Nat) (hd : 2 * d < 2 ^ 32) :
    ∀ (body : List (Option Var × List Stmt)) (case_texts : List String),
      CaseEmits g d body case_texts → (∀ c ∈ body, c.2 ≠ []) →
      ∀ (s : CodeGen), s.indent_ = d → s.skip_indent_ = false →
      ∃ s', switch_cases g s body = .ok s' ∧ s'.stream_ = s.stream_ ++ concat case_texts ∧
        s'.indent_ = d ∧ s'.skip_indent_ = false
  | [], _, .nil, _, s, hi, hk => ⟨s, by rw [switch_cases]; rfl, by simp [concat], hi, hk⟩
  | (first, second) :: rest, text :: case_texts, .cons hc hcs, hne, s, hi, hk => by
    obtain ⟨texts, he, htext⟩ := hc
    subst hi
    obtain ⟨s2, hs2, hi2, hk2, hrun⟩ := case_run g s first second rest texts
      (hne (first, second) (List.mem_cons_self _ _)) hk hd he
    obtain ⟨s', h', hst, hi', hk'⟩ := run_of_case_emits g s.indent_ hd rest case_texts hcs
      (fun c hc => hne c (List.mem_cons_of_mem _ hc)) s2 hi2 hk2
    exact ⟨s', by rw [hrun]; exact h', by rw [hst, hs2, concat, htext, String.append_assoc],
      hi', hk'⟩

theorem switch_run (g : Generator) (s s1 : CodeGen) (addr : Nat) (target : Var)
    (body : List (Option Var × List Stmt)) (case_texts : List String)
    (hk : s.skip_indent_ = false) (hd : 2 * s.indent_ < 2 ^ 32)
    (h1 : switch_cases g (indent_inc (Stream.endl (Stream.write (Stream.write (Stream.write
      (Stream.write (indent s).2 (indent s).1) "case (") target.to_string) ")"))) body = .ok s1)
    (hst : s1.stream_ = (indent_inc (Stream.endl (Stream.write (Stream.write (Stream.write
      (Stream.write (indent s).2 (indent s).1) "case (") target.to_string) ")"))).stream_
      ++ concat case_texts)
    (hi : s1.indent_ = s.indent_ + 1) (hk1 : s1.skip_indent_ = false) :
    dispatch_node g s (.Switch addr target body) = .ok (write_line (indent_dec s1) "endcase") ∧
      (write_line (indent_dec s1) "endcase").stream_
        = s.stream_ ++ switch_text target s.indent_ case_texts ∧
      (write_line (indent_dec s1) "endcase").indent_ = s.indent_ := by
  refine ⟨?_, ?_, ?_⟩
  · rw [dispatch_node_switch, h1]
    rfl
  · have ht := indent_text_false s.indent_ hd
    simp [hst, hi, hk1, hk, ht, switch_text, String.append_assoc]
  · simp [hi]

/-- C12: a Switch dispatched at level `d` (no skip pending, `2 * (d + 1)`
within the range of `uint32_t`) all of whose case bodies are non-empty writes
`case (<target>)` after `2 * d` spaces, then for each case in body order the
line `<value>: begin` (`default: begin` for the case without a value) at level
`d + 1`, the statements of the case at level `d + 2` and `end` at level
`d + 1`, and finally `endcase` after `2 * d` spaces; it succeeds exactly when
the statements of the cases do. -/
theorem switch_statement_text (g : Generator) (s : CodeGen) (addr : Nat) (target : Var)
    (body : List (Option Var × List Stmt)) (hk : s.skip_indent_ = false)
    (hd : 2 * (s.indent_ + 1) < 2 ^ 32) (hne : ∀ c ∈ body, c.2 ≠ []) :
    (∀ s', dispatch_node g s (.Switch addr target body) = .ok s' →
      ∃ case_texts, CaseEmits g (s.indent_ + 1) body case_texts ∧
        s'.stream_ = s.stream_ ++ switch_text target s.indent_ case_texts ∧
        s'.indent_ = s.indent_) ∧
    (∀ case_texts, CaseEmits g (s.indent_ + 1) body case_texts →
      ∃ s', dispatch_node g s (.Switch addr target body) = .ok s' ∧
        s'.stream_ = s.stream_ ++ switch_text target s.indent_ case_texts ∧
        s'.indent_ = s.indent_) := by
  have hd0 : 2 * s.indent_ < 2 ^ 32 := by omega
  constructor
  · intro s' h
    have h' := h
    rw [dispatch_node_switch, bind_eq_ok] at h'
    obtain ⟨s1, h1, _⟩ := h'
    obtain ⟨case_texts, hce, hst, hi, hk1⟩ := case_emits_of_run g body _ s1 (by simp)
      (by simpa using hd) h1
    have hr := switch_run g s s1 addr target body case_texts hk hd0 h1 hst (by simpa using hi) hk1
    rw [hr.1] at h
    cases h
    exact ⟨case_texts, by simpa using hce, hr.2.1, hr.2.2⟩
  · intro case_texts hce
    obtain ⟨s1, h1, hst, hi, hk1⟩ := run_of_case_emits g (s.indent_ + 1) hd body case_texts hce
      hne (indent_inc (Stream.endl (Stream.write (Stream.write (Stream.write
        (Stream.write (indent s).2 (indent s).1) "case (") target.to_string) ")")))
      (by simp) (by simp)
    have hr := switch_run g s s1 addr target body case_texts hk hd0 h1 hst hi hk1
    exact ⟨_, hr.1, hr.2.1, hr.2.2⟩

theorem switch_statement_text_witness :
    ∃ s', dispatch_node Example.gen CodeGen.init Example.switch = .ok s' ∧
      s'.stream_ = "case (a)\n  1'h0: begin\n    q = c;\n  end\n  default: begin\n"
        ++ "    q = d;\n  end\nendcase\n" := by
  obtain ⟨s', h1, h2, _⟩ := (switch_statement_text Example.gen CodeGen.init 33 Example.a
    [(some Example.zero, [.Assign Example.q_c_block]), (none, [.Assign Example.q_d_block])]
    rfl (by decide) (by simp)).2
    ["  1'h0: begin\n    q = c;\n  end\n", "  default: begin\n    q = d;\n  end\n"]
    (List.Forall₂.cons ⟨["    q = c;\n"], List.Forall₂.cons rfl List.Forall₂.nil, by decide⟩
      (List.Forall₂.cons ⟨["    q = d;\n"], List.Forall₂.cons rfl List.Forall₂.nil, by decide⟩
        List.Forall₂.nil))
  exact ⟨s', h1, by rw [h2]; decide⟩

/-- C13 (the code at the failing input): a Switch never completes when one of
its cases has an empty body, and an empty case labelled by a value raises the
runtime error "Switch statement condition ... is empty!"; but for an empty
default case the message is built from the null label, so the run ends in the
dereference of a null pointer and not in a raised error. -/
theorem switch_empty_case_error :
    (∀ (g : Generator) (s : CodeGen) (addr : Nat) (target : Var)
      (body : List (Option Var × List Stmt)),
      (∃ c ∈ body, c.2 = []) → ∀ s', dispatch_node g s (.Switch addr target body) ≠ .ok s') ∧
    (∀ (g : Generator) (s : CodeGen) (addr : Nat) (target value : Var)
      (rest : List (Option Var × List Stmt)),
      dispatch_node g s (.Switch addr target ((some value, []) :: rest)) = .error
        (.runtime_error ("Switch statement condition " ++ value.to_string ++ " is empty!"))) ∧
    (∀ (g : Generator) (s : CodeGen) (addr : Nat) (target : Var)
      (rest : List (Option Var × List Stmt)),
      dispatch_node g s (.Switch addr target ((none, []) :: rest))
        = .error .null_dereference) ∧
    dispatch_node Example.gen CodeGen.init Example.switch_empty_default
      = .error .null_dereference := by
  refine ⟨?_, ?_, ?_, ?_⟩
  · intro g s addr target body ⟨c, hc, hnil⟩ s' h
    rw [dispatch_node_switch, bind_eq_ok] at h
    obtain ⟨s1, h1, _⟩ := h
    exact switch_cases_nonempty g body _ s1 h1 c hc hnil
  · intro g s addr target value rest
    rw [dispatch_node_switch, switch_cases_empty_some]
    rfl
  · intro g s addr target rest
    rw [dispatch_node_switch, switch_cases_empty_none]
    rfl
  · rw [Example.switch_empty_default, dispatch_node_switch, switch_cases_empty_none]
    rfl

theorem switch_empty_case_error_witness :
    (∀ s', dispatch_node Example.gen CodeGen.init Example.switch_empty_case ≠ .ok s') ∧
    dispatch_node Example.gen CodeGen.init Example.switch_empty_case = .error
      (.runtime_error "Switch statement condition 1'h0 is empty!") :=
  ⟨switch_empty_case_error.1 Example.gen CodeGen.init 35 Example.a [(some Example.zero, [])]
    ⟨(some Example.zero, []), List.mem_cons_self _ _, rfl⟩,
    switch_empty_case_error.2.1 Example.gen CodeGen.init 35 Example.a Example.zero []⟩

/-! ## Module instantiation -/

theorem module_params_loop_stream (size : Nat) (hsize : size < 2 ^ 32) :
    ∀ (params : List (String × Param)) (count : Nat) (s : CodeGen),
      s.skip_indent_ = false → 2 * s.indent_ < 2 ^ 32 → count + params.length = size →
      (module_params_loop size count params s).stream_ =
        s.stream_ ++ concat (param_entries_from s.indent_ size count params)
  | [], _, s, _, _, _ => by simp [module_params_loop, param_entries_from, concat]
  | (name, param) :: rest, count, s, hk, hd, hc => by
    simp only [List.length_cons] at hc
    have hlt : count + 1 < 2 ^ 32 := by omega
    have hmod : (count + 1) % 2 ^ 32 = count + 1 := Nat.mod_eq_of_lt hlt
    have ht := indent_text_false s.indent_ hd
    have hc' : count + 1 + rest.length = size := by omega
    unfold module_params_loop
    dsimp only
    rw [hmod]
    by_cases he : count + 1 = size
    · rw [if_pos he, module_params_loop_stream size hsize rest (count + 1) _ (by simp)
        (by simpa using hd) hc']
      simp [param_entries_from, param_entry, concat, he, hk, ht, String.append_assoc]
    · rw [if_neg he, module_params_loop_stream size hsize rest (count + 1) _ (by simp)
        (by simpa using hd) hc']
      simp [param_entries_from, param_entry, concat, he, hk, ht, String.append_assoc]

theorem module_ports_loop_stream (g : Generator) (port_debug : List (Nat × Nat)) (size : Nat)
    (hsize : size < 2 ^ 32) :
    ∀ (mapping : List (Var × Var)) (count : Nat) (s : CodeGen),
      s.skip_indent_ = false → 2 * s.indent_ < 2 ^ 32 → count + mapping.length = size →
      (module_ports_loop g port_debug size count mapping s).stream_ =
        s.stream_ ++ concat (connection_lines_from s.indent_ size count mapping)
  | [], _, s, _, _, _ => by simp [module_ports_loop, connection_lines_from, concat]
  | (internal, external) :: rest, count, s, hk, hd, hc => by
    simp only [List.length_cons] at hc
    have hlt : count + 1 < 2 ^ 32 := by omega
    have hmod : (count + 1) % 2 ^ 32 = count + 1 := Nat.mod_eq_of_lt hlt
    have hsz : (2 ^ 64 + size - 1) % 2 ^ 64 = size - 1 := by omega
    have ht := indent_text_false s.indent_ hd
    have hc' : count + 1 + rest.length = size := by omega
    have hcond : (count < size - 1) ↔ (count + 1 < size) := by omega
    unfold module_ports_loop
    dsimp only
    rw [hmod, hsz]
    have hstate : ∀ (x : CodeGen), x.stream_ = s.stream_ → x.indent_ = s.indent_ →
        x.skip_indent_ = false →
        (module_ports_loop g port_debug size (count + 1) rest
          (Stream.endl (Stream.write (Stream.write (indent x).2 (indent x).1)
            ("." ++ internal.to_string ++ "(" ++ external.to_string ++
              if count < size - 1 then ")," else ")")))).stream_ =
        s.stream_ ++ concat (connection_lines_from s.indent_ size count
          ((internal, external) :: rest)) := by
      intro x hx hxi hxk
      rw [module_ports_loop_stream g port_debug size hsize rest (count + 1) _ (by simp)
        (by simpa [hxi] using hd) hc']
      by_cases hlast : count + 1 < size
      · simp [connection_lines_from, connection_line, concat, hlast, hcond.mpr hlast, hx, hxi,
          hxk, ht, String.append_assoc]
      · simp [connection_lines_from, connection_line, concat, hlast, mt hcond.mp hlast, hx,
          hxi, hxk, ht, String.append_assoc]
    split
    · exact hstate _ (by simp) (by simp) (by simpa using hk)
    · exact hstate _ rfl rfl hk

theorem stmt_code_module_stream (g : Generator) (s : CodeGen) (addr : Nat) (target : Target)
    (port_mapping : List (Var × Var)) (port_debug : List (Nat × Nat))
    (hk : s.skip_indent_ = false) (hd : 2 * (s.indent_ + 1) < 2 ^ 32)
    (hm : target.params.length < 2 ^ 32) (hn : port_mapping.length < 2 ^ 32) :
    (stmt_code_module g s addr target port_mapping port_debug).stream_ =
      s.stream_ ++ instantiation_text target port_mapping s.indent_ := by
  have hd0 : 2 * s.indent_ < 2 ^ 32 := by omega
  have ht := indent_text_false s.indent_ hd0
  unfold stmt_code_module
  dsimp only
  by_cases hp : target.params.isEmpty = true
  · simp only [hp, Bool.not_true, Bool.false_eq_true, if_false]
    rw [dec_stream, endl_stream, endl_stream, write_stream,
      module_ports_loop_stream g port_debug _ hn port_mapping 0 _ (by simp)
        (by simpa using hd) (by simp)]
    simp [instantiation_text, param_block, hp, hk, ht, String.append_assoc]
  · simp only [hp, Bool.not_false, if_true]
    rw [dec_stream, endl_stream, endl_stream, write_stream,
      module_ports_loop_stream g port_debug _ hn port_mapping 0 _
        (by simp [module_params_loop_skip])
        (by simpa [module_params_loop_indent] using hd) (by simp)]
    simp only [inc_stream, endl_stream, write_stream, dec_stream, inc_indent, endl_indent,
      write_indent, dec_indent, module_params_loop_indent]
    rw [module_params_loop_stream _ hm target.params 0 _ (by simp) (by simpa using hd)
      (by simp)]
    simp [instantiation_text, param_block, hp, hk, ht, String.append_assoc]

theorem connection_lines_from_length (d n : Nat) :
    ∀ (mapping : List (Var × Var)) (k : Nat),
      (connection_lines_from d n k mapping).length = mapping.length
  | [], _ => rfl
  | _ :: rest, k => by
    rw [connection_lines_from, List.length_cons, List.length_cons,
      connection_lines_from_length d n rest]

theorem connection_lines_from_get (d n : Nat) :
    ∀ (mapping : List (Var × Var)) (k j : Nat) (c : Var × Var), mapping[j]? = some c →
      (connection_lines_from d n k mapping)[j]? = some (connection_line d n (k + j) c)
  | [], _, _, _, h => by simp at h
  | _ :: rest, k, 0, c, h => by
    simp only [List.getElem?_cons_zero, Option.some.injEq] at h
    subst h
    simp [connection_lines_from]
  | _ :: rest, k, j + 1, c, h => by
    simp only [List.getElem?_cons_succ] at h
    rw [connection_lines_from, List.getElem?_cons_succ,
      connection_lines_from_get d n rest (k + 1) j c h]
    congr 2
    omega

theorem param_entries_from_length (d m : Nat) :
    ∀ (params : List (String × Param)) (i : Nat),
      (param_entries_from d m i params).length = params.length
  | [], _ => rfl
  | _ :: rest, i => by
    rw [param_entries_from, List.length_cons, List.length_cons,
      param_entries_from_length d m rest]

theorem param_entries_from_get (d m : Nat) :
    ∀ (params : List (String × Param)) (i j : Nat) (np : String × Param),
      params[j]? = some np →
      (param_entries_from d m i params)[j]? = some (param_entry d m (i + j + 1) np)
  | [], _, _, _, h => by simp at h
  | _ :: rest, i, 0, np, h => by
    simp only [List.getElem?_cons_zero, Option.some.injEq] at h
    subst h
    simp [param_entries_from]
  | _ :: rest, i, j + 1, np, h => by
    simp only [List.getElem?_cons_succ] at h
    rw [param_entries_from, List.getElem?_cons_succ,
      param_entries_from_get d m rest (i + 1) j np h]
    congr 2
    omega

/-- C14: a module instantiation dispatched at level `d` (no skip pending,
`2 * (d + 1)` and the numbers of parameters and connections within the range
of `uint32_t`) writes the target name, the parameter block, the instance name
and ` (`, then one line `.<internal>(<external>` per connection in
port_mapping order at level `d + 1`, ended by `),` for all but the last and by
`)` without a comma for the last, then the closing `);` and an empty line.
The parameter entries `.P(v)` are followed by `,` and a newline, except the
last, which is followed by the closing `)`. -/
theorem instantiation_commas (g : Generator) (s : CodeGen) (addr : Nat) (target : Target)
    (port_mapping : List (Var × Var)) (port_debug : List (Nat × Nat))
    (hk : s.skip_indent_ = false) (hd : 2 * (s.indent_ + 1) < 2 ^ 32)
    (hm : target.params.length < 2 ^ 32) (hn : port_mapping.length < 2 ^ 32) :
    ∃ s', dispatch_node g s (.ModuleInstantiation addr target port_mapping port_debug)
        = .ok s' ∧
      s'.stream_ = s.stream_ ++ (spaces (2 * s.indent_) ++ target.name
        ++ param_block s.indent_ target.params ++ " " ++ target.instance_name ++ " (" ++ "\n"
        ++ concat (connection_lines_from (s.indent_ + 1) port_mapping.length 0 port_mapping)
        ++ ");" ++ "\n" ++ "\n") ∧
      (connection_lines_from (s.indent_ + 1) port_mapping.length 0 port_mapping).length
        = port_mapping.length ∧
      (∀ (k : Nat) (c : Var × Var), port_mapping[k]? = some c →
        k + 1 < port_mapping.length →
        (connection_lines_from (s.indent_ + 1) port_mapping.length 0 port_mapping)[k]? = some
          (spaces (2 * (s.indent_ + 1)) ++ "." ++ c.1.to_string ++ "(" ++ c.2.to_string ++ "),"
            ++ "\n")) ∧
      (∀ (k : Nat) (c : Var × Var), port_mapping[k]? = some c →
        k + 1 = port_mapping.length →
        (connection_lines_from (s.indent_ + 1) port_mapping.length 0 port_mapping)[k]? = some
          (spaces (2 * (s.indent_ + 1)) ++ "." ++ c.1.to_string ++ "(" ++ c.2.to_string ++ ")"
            ++ "\n")) ∧
      (target.params ≠ [] →
        param_block s.indent_ target.params = " #(" ++ "\n" ++
          concat (param_entries_from (s.indent_ + 1) target.params.length 0 target.params) ∧
        (∀ (i : Nat) (np : String × Param), target.params[i]? = some np →
          i + 1 < target.params.length →
          (param_entries_from (s.indent_ + 1) target.params.length 0 target.params)[i]? = some
            (spaces (2 * (s.indent_ + 1)) ++ "." ++ np.1 ++ "(" ++ np.2.value_str ++ ")" ++ ","
              ++ "\n")) ∧
        (∀ (i : Nat) (np : String × Param), target.params[i]? = some np →
          i + 1 = target.params.length →
          (param_entries_from (s.indent_ + 1) target.params.length 0 target.params)[i]? = some
            (spaces (2 * (s.indent_ + 1)) ++ "." ++ np.1 ++ "(" ++ np.2.value_str ++ ")"
              ++ ")"))) := by
  refine ⟨stmt_code_module g s addr target port_mapping port_debug, by rw [dispatch_node]; rfl,
    ?_, connection_lines_from_length .., ?_, ?_, ?_⟩
  · rw [stmt_code_module_stream g s addr target port_mapping port_debug hk hd hm hn]
    rfl
  · intro k c hc hlt
    rw [connection_lines_from_get _ _ _ 0 k c hc, connection_line, Nat.zero_add, if_pos hlt]
  · intro k c hc hlast
    rw [connection_lines_from_get _ _ _ 0 k c hc, connection_line, Nat.zero_add,
      if_neg (by omega)]
  · intro hne
    refine ⟨?_, ?_, ?_⟩
    · have : target.params.isEmpty = false := by
        cases hp : target.params with
        | nil => exact absurd hp hne
        | cons _ _ => rfl
      rw [param_block, this]
      rfl
    · intro i np hnp hlt
      rw [param_entries_from_get _ _ _ 0 i np hnp, param_entry, Nat.zero_add,
        if_neg (by omega)]
      simp [String.append_assoc]
    · intro i np hnp hlast
      rw [param_entries_from_get _ _ _ 0 i np hnp, param_entry, Nat.zero_add, if_pos hlast]

theorem instantiation_commas_witness :
    ∃ s', dispatch_node Example.gen CodeGen.init Example.inst = .ok s' ∧
      s'.stream_ = "child #(\n  .W(1),\n  .V(2)) inst0 (\n  .child.in(c),\n  .out(q)\n);\n\n" := by
  obtain ⟨s', h1, h2, _⟩ := instantiation_commas Example.gen CodeGen.init 36 Example.child
    Example.connections [] rfl (by decide) (by decide) (by decide)
  exact ⟨s', h1, by rw [h2]; decide⟩

theorem loop_appends {f : CodeGen → CodeGen}
    (hf : ∀ (s s1 t t1 : CodeGen), Step s s1 t t1 → Step s (f s1) t (f t1)) (x : CodeGen) :
    ∃ text, (f x).stream_ = x.stream_ ++ text := by
  obtain ⟨_, text, h, _⟩ := hf x x x x (Step.refl (Sim.same x))
  exact ⟨text, h⟩

/-- C15: a module instantiation dispatched at level `d` (no skip pending,
`2 * d` within the range of `uint32_t`) opens the parameter block exactly when
the target has a parameter: with parameters the text begins with `2 * d`
spaces, the target name, ` #(` and a newline; with no parameter it begins with
`2 * d` spaces, the target name, a space, the instance name, ` (` and a
newline. -/
theorem instantiation_parameter_block (g : Generator) (s : CodeGen) (addr : Nat)
    (target : Target) (port_mapping : List (Var × Var)) (port_debug : List (Nat × Nat))
    (hk : s.skip_indent_ = false) (hd : 2 * s.indent_ < 2 ^ 32) :
    ∃ s', dispatch_node g s (.ModuleInstantiation addr target port_mapping port_debug)
        = .ok s' ∧
      (target.params = [] → ∃ tail, s'.stream_ = s.stream_ ++ (spaces (2 * s.indent_)
        ++ target.name ++ " " ++ target.instance_name ++ " (" ++ "\n" ++ tail)) ∧
      (target.params ≠ [] → ∃ tail, s'.stream_ = s.stream_ ++ (spaces (2 * s.indent_)
        ++ target.name ++ " #(" ++ "\n" ++ tail)) := by
  have ht := indent_text_false s.indent_ hd
  have named : ∀ (x : CodeGen) (pre : String), x.stream_ = s.stream_ ++ pre →
      ∀ (f : CodeGen → CodeGen), (∀ y, ∃ text, (f y).stream_ = y.stream_ ++ text) →
      ∀ (word : String), ∃ tail, (f (Stream.endl (Stream.write x word))).stream_ =
        s.stream_ ++ (pre ++ word ++ "\n" ++ tail) := by
    intro x pre hx f hf word
    obtain ⟨text, htext⟩ := hf (Stream.endl (Stream.write x word))
    exact ⟨text, by rw [htext]; simp [hx, String.append_assoc]⟩
  refine ⟨stmt_code_module g s addr target port_mapping port_debug, by rw [dispatch_node]; rfl,
    ?_, ?_⟩
  · intro hp
    obtain ⟨tail, htail⟩ := named
      (Stream.write (Stream.write (Stream.write (Stream.write
        (indent (set_verilog_ln s addr)).2 (indent (set_verilog_ln s addr)).1) target.name) " ")
        target.instance_name)
      (spaces (2 * s.indent_) ++ target.name ++ " " ++ target.instance_name)
      (by simp [hk, ht, String.append_assoc])
      (fun y => indent_dec (Stream.endl (Stream.endl (Stream.write
        (module_ports_loop g port_debug port_mapping.length 0 port_mapping (indent_inc y)) ");"))))
      (fun y => by
        obtain ⟨text, htext⟩ := loop_appends
          (module_ports_loop_step g port_debug port_mapping.length port_mapping 0) (indent_inc y)
        exact ⟨text ++ ");" ++ "\n" ++ "\n", by simp [htext, String.append_assoc]⟩)
      " ("
    refine ⟨tail, ?_⟩
    unfold stmt_code_module
    dsimp only
    simp only [hp, List.isEmpty_nil, Bool.not_true, Bool.false_eq_true, if_false]
    exact htail
  · intro hp
    have hne : target.params.isEmpty = false := by
      cases hq : target.params with
      | nil => exact absurd hq hp
      | cons _ _ => rfl
    obtain ⟨tail, htail⟩ := named
      (Stream.write (Stream.write (indent (set_verilog_ln s addr)).2
        (indent (set_verilog_ln s addr)).1) target.name)
      (spaces (2 * s.indent_) ++ target.name)
      (by simp [hk, ht, String.append_assoc])
      (fun y => indent_dec (Stream.endl (Stream.endl (Stream.write
        (module_ports_loop g port_debug port_mapping.length 0 port_mapping (indent_inc
          (Stream.endl (Stream.write (Stream.write (Stream.write
            (indent_dec (module_params_loop target.params.length 0 target.params (indent_inc y)))
            " ") target.instance_name) " (")))) ");"))))
      (fun y => by
        obtain ⟨text1, htext1⟩ := loop_appends
          (module_params_loop_step target.params.length target.params 0) (indent_inc y)
        obtain ⟨text2, htext2⟩ := loop_appends
          (module_ports_loop_step g port_debug port_mapping.length port_mapping 0) (indent_inc
            (Stream.endl (Stream.write (Stream.write (Stream.write
              (indent_dec (module_params_loop target.params.length 0 target.params
                (indent_inc y))) " ") target.instance_name) " (")))
        exact ⟨text1 ++ " " ++ target.instance_name ++ " (" ++ "\n" ++ text2 ++ ");" ++ "\n"
          ++ "\n", by simp [htext1, htext2, String.append_assoc]⟩)
      " #("
    refine ⟨tail, ?_⟩
    unfold stmt_code_module
    dsimp only
    simp only [hne, Bool.not_false, if_true]
    exact htail

theorem instantiation_parameter_block_witness :
    (∃ s' tail, dispatch_node Example.gen CodeGen.init Example.inst_plain = .ok s' ∧
      s'.stream_ = "child inst0 (\n" ++ tail) ∧
    (∃ s' tail, dispatch_node Example.gen CodeGen.init Example.inst = .ok s' ∧
      s'.stream_ = "child #(\n" ++ tail) := by
  obtain ⟨s1, h1, h2, _⟩ := instantiation_parameter_block Example.gen CodeGen.init 37
    Example.child_plain Example.connections [] rfl (by decide)
  obtain ⟨s2, h3, _, h4⟩ := instantiation_parameter_block Example.gen CodeGen.init 36
    Example.child Example.connections [] rfl (by decide)
  obtain ⟨tail1, ht1⟩ := h2 rfl
  obtain ⟨tail2, ht2⟩ := h4 (List.cons_ne_nil _ _)
  exact ⟨⟨s1, tail1, h1, by rw [ht1]; rfl⟩, ⟨s2, tail2, h3, by rw [ht2]; rfl⟩⟩

/-! ## The writes to `verilog_ln` -/

@[simp] theorem write_ln (s : CodeGen) (x : String) :
    (Stream.write s x).verilog_ln = s.verilog_ln := rfl
@[simp] theorem endl_ln (s : CodeGen) : (Stream.endl s).verilog_ln = s.verilog_ln := rfl
@[simp] theorem inc_ln (s : CodeGen) : (indent_inc s).verilog_ln = s.verilog_ln := rfl
@[simp] theorem dec_ln (s : CodeGen) : (indent_dec s).verilog_ln = s.verilog_ln := rfl
@[simp] theorem set_ln_ln (s : CodeGen) (a : Nat) :
    (set_verilog_ln s a).verilog_ln = s.verilog_ln ++ [(a, s.line_no_)] := rfl
@[simp] theorem indent_snd_ln (s : CodeGen) : (indent s).2.verilog_ln = s.verilog_ln := by
  unfold indent; split <;> rfl
@[simp] theorem write_line_ln (s : CodeGen) (x : String) :
    (write_line s x).verilog_ln = s.verilog_ln := by
  simp [write_line]

theorem debug_ln_off (g : Generator) (s : CodeGen) (a : Nat) (h : g.debug = false) :
    debug_verilog_ln g s a = s := by
  simp [debug_verilog_ln, h]

theorem debug_ln_on (g : Generator) (s : CodeGen) (a : Nat) (h : g.debug = true) :
    debug_verilog_ln g s a = set_verilog_ln s a := by
  simp [debug_verilog_ln, h]

theorem debug_ln_log (g : Generator) (s : CodeGen) (a : Nat) :
    ∃ l, (debug_verilog_ln g s a).verilog_ln = s.verilog_ln ++ l ∧ (g.debug = false → l = []) := by
  cases h : g.debug with
  | false => exact ⟨[], by rw [debug_ln_off g s a h]; simp, fun _ => rfl⟩
  | true => exact ⟨[(a, s.line_no_)], by rw [debug_ln_on g s a h]; rfl, fun hc => by cases hc⟩

/-- The log `l1` was appended between `s` and `s1`; it is empty when `quiet`. -/
def Logged (quiet : Prop) (s s1 : CodeGen) : Prop :=
  ∃ l, s1.verilog_ln = s.verilog_ln ++ l ∧ (quiet → l = [])

theorem Logged.unchanged (quiet : Prop) (s : CodeGen) : Logged quiet s s :=
  ⟨[], by simp, fun _ => rfl⟩

theorem Logged.chain {quiet : Prop} {s s1 s2 : CodeGen} (h1 : Logged quiet s s1)
    (h2 : Logged quiet s1 s2) : Logged quiet s s2 := by
  obtain ⟨a, ha, hqa⟩ := h1
  obtain ⟨b, hb, hqb⟩ := h2
  exact ⟨a ++ b, by rw [hb, ha, List.append_assoc], fun q => by rw [hqa q, hqb q]; rfl⟩

theorem Logged.keep {quiet : Prop} {s s1 s2 : CodeGen} (h1 : Logged quiet s s1)
    (h : s2.verilog_ln = s1.verilog_ln) : Logged quiet s s2 := by
  obtain ⟨a, ha, hqa⟩ := h1
  exact ⟨a, by rw [h, ha], hqa⟩

theorem Logged.weaken {p q : Prop} {s s1 : CodeGen} (h : Logged p s s1) (hqp : q → p) :
    Logged q s s1 := by
  obtain ⟨a, ha, hpa⟩ := h
  exact ⟨a, ha, fun hq => hpa (hqp hq)⟩

theorem debug_logged (g : Generator) (s : CodeGen) (a : Nat) :
    Logged (g.debug = false) s (debug_verilog_ln g s a) :=
  debug_ln_log g s a

theorem module_params_loop_ln (size : Nat) :
    ∀ (params : List (String × Param)) (count : Nat) (s : CodeGen),
      (module_params_loop size count params s).verilog_ln = s.verilog_ln
  | [], _, _ => rfl
  | (name, param) :: rest, count, s => by
    unfold module_params_loop
    dsimp only
    split <;> rw [module_params_loop_ln size rest] <;> simp

theorem module_ports_loop_logged (g : Generator) (port_debug : List (Nat × Nat)) (size : Nat) :
    ∀ (mapping : List (Var × Var)) (count : Nat) (s : CodeGen),
      Logged (g.debug = false) s (module_ports_loop g port_debug size count mapping s)
  | [], _, s => Logged.unchanged _ s
  | (internal, external) :: rest, count, s => by
    unfold module_ports_loop
    dsimp only
    refine Logged.chain ?_ (module_ports_loop_logged g port_debug size rest _ _)
    simp only [Logged, endl_ln, write_ln, indent_snd_ln]
    split
    · rename_i hdebug _
      exact ⟨_, rfl, fun hq => by rw [hq] at hdebug; cases hdebug⟩
    · exact ⟨[], by simp, fun _ => rfl⟩

theorem stmt_code_module_ln (g : Generator) (s : CodeGen) (addr : Nat) (target : Target)
    (port_mapping : List (Var × Var)) (port_debug : List (Nat × Nat)) :
    ∃ l, (stmt_code_module g s addr target port_mapping port_debug).verilog_ln
        = s.verilog_ln ++ (addr, s.line_no_) :: l ∧ (g.debug = false → l = []) := by
  have key : ∀ (x : CodeGen), x.verilog_ln = s.verilog_ln ++ [(addr, s.line_no_)] →
      ∃ l, (module_ports_loop g port_debug port_mapping.length 0 port_mapping x).verilog_ln
        = s.verilog_ln ++ (addr, s.line_no_) :: l ∧ (g.debug = false → l = []) := by
    intro x hx
    obtain ⟨l, hl, hq⟩ := module_ports_loop_logged g port_debug port_mapping.length
      port_mapping 0 x
    exact ⟨l, by rw [hl, hx]; simp, hq⟩
  unfold stmt_code_module
  dsimp only
  simp only [dec_ln, endl_ln, write_ln]
  apply key
  split <;> simp [module_params_loop_ln]

theorem stmt_code_assign_logged (g : Generator) (s s' : CodeGen) (stmt : AssignStmt)
    (h : stmt_code_assign g s stmt = .ok s') : Logged (g.debug = false) s s' := by
  unfold stmt_code_assign at h
  split at h
  · cases h
    exact Logged.unchanged _ s
  · unfold Stream.assign at h
    dsimp only at h
    have hd := debug_logged g s stmt.addr
    split at h
    · split at h
      · cases h
      · cases h
        exact hd.keep (by simp)
    · split at h
      · cases h
        exact hd.keep (by simp)
      · split at h
        · cases h
          exact hd.keep (by simp)
        · cases h

mutual

theorem dispatch_node_logged (g : Generator) :
    ∀ (stmt : Stmt) (s s' : CodeGen), dispatch_node g s stmt = .ok s' →
      Logged (g.debug = false ∧ stmt.no_instantiation = true) s s'
  | .NonStmt kind, s, s', h => by simp [dispatch_node] at h
  | .Other _, s, s', h => by simp [dispatch_node] at h
  | .Assign stmt, s, s', h => by
    rw [dispatch_node] at h
    exact (stmt_code_assign_logged g s s' stmt h).weaken (fun q => q.1)
  | .ModuleInstantiation addr target port_mapping port_debug, s, s', h => by
    rw [dispatch_node, pure_eq_ok] at h
    subst h
    obtain ⟨l, hl, _⟩ := stmt_code_module_ln g s addr target port_mapping port_debug
    exact ⟨_, hl, fun q => by simp [Stmt.no_instantiation] at q⟩
  | .Sequential addr conditions children, s, s', h => by
    rw [dispatch_node, bind_eq_ok] at h
    obtain ⟨s1, h1, h2⟩ := h
    rw [pure_eq_ok] at h2
    subst h2
    have ih := dispatch_nodes_logged g children _ _ h1
    have pre : Logged (g.debug = false ∧ no_instantiation_list children = true) s
        (indent_inc (Stream.endl (Stream.write (Stream.write (Stream.write
          (Stream.endl (debug_verilog_ln g s addr)) "always @(")
          (join (sensitive_list conditions) ", ")) ") begin"))) :=
      ((debug_logged g s addr).weaken (fun q => q.1)).keep (by simp)
    exact ((pre.chain ih).keep (by simp)).weaken
      (fun q => ⟨q.1, by simpa [Stmt.no_instantiation] using q.2⟩)
  | .Combinational addr children, s, s', h => by
    rw [dispatch_node, bind_eq_ok] at h
    obtain ⟨s1, h1, h2⟩ := h
    rw [pure_eq_ok] at h2
    subst h2
    have ih := dispatch_nodes_logged g children _ _ h1
    have pre : Logged (g.debug = false ∧ no_instantiation_list children = true) s
        (indent_inc (Stream.endl (Stream.write (debug_verilog_ln g s addr)
          "always_comb begin"))) :=
      ((debug_logged g s addr).weaken (fun q => q.1)).keep (by simp)
    exact ((pre.chain ih).keep (by simp)).weaken
      (fun q => ⟨q.1, by simpa [Stmt.no_instantiation] using q.2⟩)
  | .Switch _ target body, s, s', h => by
    rw [dispatch_node, bind_eq_ok] at h
    obtain ⟨s1, h1, h2⟩ := h
    rw [pure_eq_ok] at h2
    subst h2
    have ih := switch_cases_logged g body _ _ h1
    have pre : Logged (g.debug = false ∧ no_instantiation_cases body = true) s
        (indent_inc (Stream.endl (Stream.write (Stream.write (Stream.write
          (Stream.write (indent s).2 (indent s).1) "case (") target.to_string) ")"))) :=
      (Logged.unchanged _ s).keep (by simp)
    exact ((pre.chain ih).keep (by simp)).weaken
      (fun q => ⟨q.1, by simpa [Stmt.no_instantiation] using q.2⟩)
  | .If addr predicate then_body else_body, s, s', h => by
    rw [dispatch_node, bind_eq_ok] at h
    obtain ⟨s1, h1, h2⟩ := h
    have ih := dispatch_nodes_logged g then_body _ _ h1
    have pre : Logged (g.debug = false ∧ no_instantiation_list then_body = true) s
        (indent_inc (write_line (debug_verilog_ln g s addr)
          ("if (" ++ predicate.to_string ++ ") begin"))) :=
      ((debug_logged g s addr).weaken (fun q => q.1)).keep (by simp)
    have st2 : Logged (g.debug = false ∧ no_instantiation_list then_body = true) s
        (write_line (indent_dec s1) "end") := (pre.chain ih).keep (by simp)
    match else_body, h2 with
    | [], h2 =>
      simp only [pure_eq_ok] at h2
      subst h2
      exact st2.weaken (fun q => ⟨q.1, by
        have := q.2
        simp only [Stmt.no_instantiation, Bool.and_eq_true] at this
        exact this.1⟩)
    | if_stmt :: rest, h2 =>
      simp only at h2
      by_cases hc : (rest.isEmpty && if_stmt.is_if) = true
      · rw [if_pos hc] at h2
        have ih2 := dispatch_node_logged g if_stmt _ _ h2
        have mid : Logged (g.debug = false ∧ no_instantiation_list then_body = true) s
            ({ Stream.write (Stream.write (indent (write_line (indent_dec s1) "end")).2
              (indent (write_line (indent_dec s1) "end")).1) "else " with
              skip_indent_ := true } : CodeGen) := st2.keep (by simp)
        refine Logged.chain (mid.weaken (fun q => ⟨q.1, ?_⟩)) (ih2.weaken (fun q => ⟨q.1, ?_⟩))
        · have := q.2
          simp only [Stmt.no_instantiation, Bool.and_eq_true] at this
          exact this.1
        · have := q.2
          simp only [Stmt.no_instantiation, no_instantiation_list, Bool.and_eq_true] at this
          exact this.2.1
      · rw [if_neg hc] at h2
        rw [bind_eq_ok] at h2
        obtain ⟨s2, h3, h4⟩ := h2
        rw [pure_eq_ok] at h4
        subst h4
        have ih2 := dispatch_nodes_logged g (if_stmt :: rest) _ _ h3
        have mid : Logged (g.debug = false ∧ no_instantiation_list then_body = true) s
            (indent_inc (write_line (write_line (indent_dec s1) "end") "else begin")) :=
          st2.keep (by simp)
        refine (Logged.chain (mid.weaken (fun q => ⟨q.1, ?_⟩))
          (ih2.weaken (fun q => ⟨q.1, ?_⟩))).keep (by simp)
        · have := q.2
          simp only [Stmt.no_instantiation, Bool.and_eq_true] at this
          exact this.1
        · have := q.2
          simp only [Stmt.no_instantiation, Bool.and_eq_true] at this
          exact this.2

theorem dispatch_nodes_logged (g : Generator) :
    ∀ (stmts : List Stmt) (s s' : CodeGen), dispatch_nodes g s stmts = .ok s' →
      Logged (g.debug = false ∧ no_instantiation_list stmts = true) s s'
  | [], s, s', h => by
    rw [dispatch_nodes, pure_eq_ok] at h
    subst h
    exact Logged.unchanged _ s
  | stmt :: rest, s, s', h => by
    rw [dispatch_nodes, bind_eq_ok] at h
    obtain ⟨s1, h1, h2⟩ := h
    have ih1 := dispatch_node_logged g stmt _ _ h1
    have ih2 := dispatch_nodes_logged g rest _ _ h2
    refine Logged.chain (ih1.weaken (fun q => ⟨q.1, ?_⟩)) (ih2.weaken (fun q => ⟨q.1, ?_⟩))
    · have := q.2
      simp only [no_instantiation_list, Bool.and_eq_true] at this
      exact this.1
    · have := q.2
      simp only [no_instantiation_list, Bool.and_eq_true] at this
      exact this.2

theorem switch_cases_logged (g : Generator) :
    ∀ (body : List (Option Var × List Stmt)) (s s' : CodeGen),
      switch_cases g s body = .ok s' →
      Logged (g.debug = false ∧ no_instantiation_cases body = true) s s'
  | [], s, s', h => by
    rw [switch_cases, pure_eq_ok] at h
    subst h
    exact Logged.unchanged _ s
  | (first, second) :: rest, s, s', h => by
    have hne : second ≠ [] :=
      switch_cases_nonempty g _ s s' h (first, second) (List.mem_cons_self _ _)
    rw [switch_cases_cons g s first second rest hne, bind_eq_ok] at h
    obtain ⟨s1, h1, h2⟩ := h
    have ih1 := dispatch_nodes_logged g second _ _ h1
    have ih2 := switch_cases_logged g rest _ _ h2
    have pre : Logged (g.debug = false ∧ no_instantiation_list second = true) s
        (indent_inc (Stream.endl (Stream.write (Stream.write (Stream.write
          (Stream.write (indent s).2 (indent s).1) (case_label first)) ": ") "begin"))) :=
      (Logged.unchanged _ s).keep (by simp)
    have mid : Logged (g.debug = false ∧ no_instantiation_list second = true) s
        (write_line (indent_dec s1) "end") := (pre.chain ih1).keep (by simp)
    refine Logged.chain (mid.weaken (fun q => ⟨q.1, ?_⟩)) (ih2.weaken (fun q => ⟨q.1, ?_⟩))
    · have := q.2
      simp only [no_instantiation_cases, Bool.and_eq_true] at this
      exact this.1
    · have := q.2
      simp only [no_instantiation_cases, Bool.and_eq_true] at this
      exact this.2

end

/-! ## The writes to `verilog_ln` of the module's ports and variables -/

theorem stream_port_logged (port_dir_to_str : PortDirection → String) (g : Generator)
    (s : CodeGen) (port : Port × String) :
    Logged (g.debug = false) s (Stream.port port_dir_to_str g s port) := by
  unfold Stream.port
  exact (debug_logged g s port.1.addr).keep (by simp)

theorem stream_var_logged (g : Generator) (s : CodeGen) (var : Var) :
    Logged (g.debug = false) s (Stream.var g s var) := by
  unfold Stream.var
  exact (debug_logged g s var.addr).keep (by simp)

theorem generate_ports_loop_logged (port_dir_to_str : PortDirection → String) (g : Generator)
    (size : Nat) :
    ∀ (names : List String) (i : Nat) (s s' : CodeGen),
      generate_ports_loop port_dir_to_str g size i names s = .ok s' →
      Logged (g.debug = false) s s'
  | [], _, s, s', h => by
    rw [generate_ports_loop] at h
    cases h
    exact Logged.unchanged _ s
  | n :: rest, i, s, s', h => by
    rw [generate_ports_loop] at h
    split at h
    · cases h
    · exact (stream_port_logged port_dir_to_str g s _).chain
        (generate_ports_loop_logged port_dir_to_str g size rest _ _ _ h)

theorem generate_ports_logged (port_dir_to_str : PortDirection → String) (g : Generator)
    (s s' : CodeGen) (h : generate_ports port_dir_to_str g s = .ok s') :
    Logged (g.debug = false) s s' := by
  unfold generate_ports at h
  dsimp only at h
  split at h
  · cases h
  · rename_i s1 h1
    cases h
    have := generate_ports_loop_logged port_dir_to_str g _ _ _ _ _ h1
    exact (((Logged.unchanged (g.debug = false) s).keep (inc_ln s)).chain this).keep (by simp)

theorem generate_variables_loop_logged (g : Generator) :
    ∀ (names : List String) (s s' : CodeGen), generate_variables_loop g names s = .ok s' →
      Logged (g.debug = false) s s'
  | [], s, s', h => by
    rw [generate_variables_loop] at h
    cases h
    exact Logged.unchanged _ s
  | n :: rest, s, s', h => by
    rw [generate_variables_loop] at h
    split at h
    · cases h
    · split at h
      · exact (stream_var_logged g s _).chain (generate_variables_loop_logged g rest _ _ h)
      · exact generate_variables_loop_logged g rest _ _ h

theorem generate_parameters_loop_ln :
    ∀ (params : List (String × Param)) (s : CodeGen),
      (generate_parameters_loop params s).verilog_ln = s.verilog_ln
  | [], _ => rfl
  | (name, param) :: rest, s => by
    rw [generate_parameters_loop, generate_parameters_loop_ln rest]
    simp

theorem constructor_logged (port_dir_to_str : PortDirection → String) (g : Generator)
    (s : CodeGen) (h : SystemVerilogCodeGen port_dir_to_str g = .ok s) :
    Logged (g.debug = false ∧ no_instantiation_list g.stmts = true) CodeGen.init s := by
  unfold SystemVerilogCodeGen at h
  dsimp only at h
  split at h
  · cases h
    exact Logged.unchanged _ _
  · split at h
    · cases h
    · rename_i s1 h1
      split at h
      · cases h
      · rename_i s2 h2
        split at h
        · cases h
        · rename_i s3 h3
          cases h
          have p1 := (generate_ports_logged port_dir_to_str g _ _ h1).weaken
            (fun (q : g.debug = false ∧ no_instantiation_list g.stmts = true) => q.1)
          have p2 := (generate_variables_loop_logged g _ _ _ h2).weaken
            (fun (q : g.debug = false ∧ no_instantiation_list g.stmts = true) => q.1)
          have p3 := dispatch_nodes_logged g _ _ _ h3
          have q1 : Logged (g.debug = false ∧ no_instantiation_list g.stmts = true) CodeGen.init
              (generate_parameters g (Stream.endl (Stream.endl (Stream.write s1 ");")))) :=
            (((Logged.unchanged _ CodeGen.init).keep (by simp)).chain p1).keep
              (by simp [generate_parameters, generate_parameters_loop_ln])
          exact ((q1.chain p2).chain p3).keep (by simp)

theorem else_code_logged (g : Generator) (s s' : CodeGen) (else_body : List Stmt)
    (h : else_code g s else_body = .ok s') : Logged False s s' := by
  match else_body, h with
  | [], h =>
    rw [else_code, pure_eq_ok] at h
    subst h
    exact Logged.unchanged _ s
  | if_stmt :: rest, h =>
    rw [else_code] at h
    split at h
    · exact ((Logged.unchanged False s).keep (by simp)).chain
        ((dispatch_node_logged g if_stmt _ _ h).weaken False.elim)
    · rw [bind_eq_ok] at h
      obtain ⟨s1, h1, h2⟩ := h
      rw [pure_eq_ok] at h2
      subst h2
      exact ((((Logged.unchanged False s).keep (by simp)).chain
        ((dispatch_nodes_logged g _ _ _ h1).weaken False.elim))).keep (by simp)

theorem stamped_then {quiet : Prop} {s s1 s2 : CodeGen} {e : Nat × Nat}
    (h1 : s1.verilog_ln = s.verilog_ln ++ [e]) (h2 : Logged quiet s1 s2) :
    ∃ l, s2.verilog_ln = s.verilog_ln ++ e :: l := by
  obtain ⟨l, hl, _⟩ := h2
  exact ⟨l, by rw [hl, h1]; simp⟩

/-- C16: with the debug flag off no statement kind but ModuleInstantiation
writes `verilog_ln` (a tree without instantiation, and a whole module without
one, leave every `verilog_ln` as it was), while
`stmt_code(ModuleInstantiationStmt*)` sets the statement's `verilog_ln` to the
current line also with the flag off. -/
theorem instantiation_stamps_without_debug :
    (∀ (g : Generator) (stmt : Stmt) (s s' : CodeGen), g.debug = false →
      stmt.no_instantiation = true → dispatch_node g s stmt = .ok s' →
      s'.verilog_ln = s.verilog_ln) ∧
    (∀ (port_dir_to_str : PortDirection → String) (g : Generator) (s : CodeGen),
      g.debug = false → no_instantiation_list g.stmts = true →
      SystemVerilogCodeGen port_dir_to_str g = .ok s → s.verilog_ln = []) ∧
    (∀ (g : Generator) (s : CodeGen) (addr : Nat) (target : Target)
      (port_mapping : List (Var × Var)) (port_debug : List (Nat × Nat)), g.debug = false →
      ∃ s', dispatch_node g s (.ModuleInstantiation addr target port_mapping port_debug) = .ok s' ∧
        s'.verilog_ln = s.verilog_ln ++ [(addr, s.line_no_)]) ∧
    (Example.gen.debug = false ∧
      (dispatch_node Example.gen CodeGen.init Example.inst).map (fun s => s.verilog_ln)
        = .ok [(36, 1)]) := by
  refine ⟨?_, ?_, ?_, rfl, ?_⟩
  · intro g stmt s s' hd hn h
    obtain ⟨l, hl, hq⟩ := dispatch_node_logged g stmt s s' h
    rw [hl, hq ⟨hd, hn⟩, List.append_nil]
  · intro port_dir_to_str g s hd hn h
    obtain ⟨l, hl, hq⟩ := constructor_logged port_dir_to_str g s h
    rw [hl, hq ⟨hd, hn⟩]
    rfl
  · intro g s addr target port_mapping port_debug hd
    refine ⟨_, by rw [dispatch_node]; rfl, ?_⟩
    obtain ⟨l, hl, hq⟩ := stmt_code_module_ln g s addr target port_mapping port_debug
    rw [hl, hq hd]
  · rfl

theorem instantiation_stamps_without_debug_witness :
    (dispatch_node Example.gen CodeGen.init (.Assign Example.q_c)).map (fun s => s.verilog_ln)
      = .ok [] ∧
    (dispatch_node Example.gen CodeGen.init Example.seq).map (fun s => s.verilog_ln) = .ok [] ∧
    (dispatch_node Example.gen CodeGen.init Example.if_chain).map (fun s => s.verilog_ln)
      = .ok [] ∧
    (dispatch_node Example.gen CodeGen.init Example.switch).map (fun s => s.verilog_ln)
      = .ok [] ∧
    (SystemVerilogCodeGen Example.port_dir_to_str Example.gen).map (fun s => s.verilog_ln)
      = .ok [] ∧
    (dispatch_node Example.gen CodeGen.init Example.inst_plain).map (fun s => s.verilog_ln)
      = .ok [(37, 1)] := by
  have h := instantiation_stamps_without_debug
  refine ⟨?_, ?_, ?_, ?_, ?_, ?_⟩
  · obtain ⟨s', hs⟩ : ∃ s', dispatch_node Example.gen CodeGen.init (.Assign Example.q_c)
        = .ok s' := ⟨_, rfl⟩
    rw [hs]
    exact congrArg Except.ok (h.1 Example.gen (.Assign Example.q_c) CodeGen.init s' rfl rfl hs)
  · obtain ⟨s', hs⟩ : ∃ s', dispatch_node Example.gen CodeGen.init Example.seq = .ok s' :=
      ⟨_, rfl⟩
    rw [hs]
    exact congrArg Except.ok (h.1 Example.gen Example.seq CodeGen.init s' rfl rfl hs)
  · obtain ⟨s', hs⟩ : ∃ s', dispatch_node Example.gen CodeGen.init Example.if_chain = .ok s' :=
      ⟨_, rfl⟩
    rw [hs]
    exact congrArg Except.ok (h.1 Example.gen Example.if_chain CodeGen.init s' rfl rfl hs)
  · obtain ⟨s', hs⟩ : ∃ s', dispatch_node Example.gen CodeGen.init Example.switch = .ok s' :=
      ⟨_, rfl⟩
    rw [hs]
    exact congrArg Except.ok (h.1 Example.gen Example.switch CodeGen.init s' rfl rfl hs)
  · obtain ⟨s', hs⟩ : ∃ s', SystemVerilogCodeGen Example.port_dir_to_str Example.gen = .ok s' :=
      ⟨_, rfl⟩
    rw [hs]
    exact congrArg Except.ok (h.2.1 Example.port_dir_to_str Example.gen s' rfl rfl hs)
  · obtain ⟨s', hs, hl⟩ := h.2.2.1 Example.gen CodeGen.init 37 Example.child_plain
      Example.connections [] rfl
    show (dispatch_node Example.gen CodeGen.init
      (.ModuleInstantiation 37 Example.child_plain Example.connections [])).map _ = _
    rw [hs]
    exact congrArg Except.ok hl

/-- C17: in debug mode an Assign that reaches the stream, a Sequential block,
a Combinational block, an If and a ModuleInstantiation get `verilog_ln` set to
the line number the stream has when their emission starts, but
`stmt_code(SwitchStmt*)` never writes the `verilog_ln` of the Switch: the only
writes during its emission are those of the statements in its cases. -/
theorem switch_not_stamped :
    (∀ (g : Generator) (s s' : CodeGen) (stmt : AssignStmt), g.debug = true →
      ¬ (stmt.left.type = VarType.PortIO ∧ stmt.left.generator ≠ g.addr) →
      ¬ (stmt.right.type = VarType.PortIO ∧ stmt.right.generator ≠ g.addr) →
      dispatch_node g s (.Assign stmt) = .ok s' →
      s'.verilog_ln = s.verilog_ln ++ [(stmt.addr, s.line_no_)]) ∧
    (∀ (g : Generator) (s s' : CodeGen) (addr : Nat) (conditions : List (BlockEdgeType × Var))
      (children : List Stmt), g.debug = true →
      dispatch_node g s (.Sequential addr conditions children) = .ok s' →
      ∃ l, s'.verilog_ln = s.verilog_ln ++ (addr, s.line_no_) :: l) ∧
    (∀ (g : Generator) (s s' : CodeGen) (addr : Nat) (children : List Stmt), g.debug = true →
      dispatch_node g s (.Combinational addr children) = .ok s' →
      ∃ l, s'.verilog_ln = s.verilog_ln ++ (addr, s.line_no_) :: l) ∧
    (∀ (g : Generator) (s s' : CodeGen) (addr : Nat) (predicate : Var)
      (then_body else_body : List Stmt), g.debug = true →
      dispatch_node g s (.If addr predicate then_body else_body) = .ok s' →
      ∃ l, s'.verilog_ln = s.verilog_ln ++ (addr, s.line_no_) :: l) ∧
    (∀ (g : Generator) (s s' : CodeGen) (addr : Nat) (target : Target)
      (port_mapping : List (Var × Var)) (port_debug : List (Nat × Nat)), g.debug = true →
      dispatch_node g s (.ModuleInstantiation addr target port_mapping port_debug) = .ok s' →
      ∃ l, s'.verilog_ln = s.verilog_ln ++ (addr, s.line_no_) :: l) ∧
    (∀ (g : Generator) (s s' : CodeGen) (addr : Nat) (target : Var)
      (body : List (Option Var × List Stmt)),
      dispatch_node g s (.Switch addr target body) = .ok s' →
      ∃ s0 s1, s0.verilog_ln = s.verilog_ln ∧ switch_cases g s0 body = .ok s1 ∧
        s'.verilog_ln = s1.verilog_ln) ∧
    (Example.gen_debug.debug = true ∧
      (dispatch_node Example.gen_debug CodeGen.init Example.switch).map (fun s => s.verilog_ln)
        = .ok [(26, 3), (27, 6)]) := by
  refine ⟨?_, ?_, ?_, ?_, ?_, ?_, rfl, rfl⟩
  · intro g s s' stmt hd hl hr h
    rw [stmt_code_assign_passes g s stmt hl hr] at h
    unfold Stream.assign at h
    dsimp only at h
    rw [debug_ln_on g s stmt.addr hd] at h
    split at h
    · split at h
      · cases h
      · cases h
        simp
    · split at h
      · cases h
        simp
      · split at h
        · cases h
          simp
        · cases h
  · intro g s s' addr conditions children hd h
    rw [dispatch_node, bind_eq_ok] at h
    obtain ⟨s1, h1, h2⟩ := h
    rw [pure_eq_ok] at h2
    subst h2
    rw [debug_ln_on g s addr hd] at h1
    exact stamped_then (by simp) ((dispatch_nodes_logged g children _ _ h1).keep (by simp))
  · intro g s s' addr children hd h
    rw [dispatch_node, bind_eq_ok] at h
    obtain ⟨s1, h1, h2⟩ := h
    rw [pure_eq_ok] at h2
    subst h2
    rw [debug_ln_on g s addr hd] at h1
    exact stamped_then (by simp) ((dispatch_nodes_logged g children _ _ h1).keep (by simp))
  · intro g s s' addr predicate then_body else_body hd h
    rw [dispatch_node_if, bind_eq_ok] at h
    obtain ⟨s1, h1, h2⟩ := h
    rw [debug_ln_on g s addr hd] at h1
    have st1 := (@Logged.keep _ _ _ (write_line (indent_dec s1) "end")
      (dispatch_nodes_logged g then_body _ _ h1) (by simp)).weaken
      (fun (q : False) => q.elim)
    exact stamped_then (by simp) (st1.chain (else_code_logged g _ _ else_body h2))
  · intro g s s' addr target port_mapping port_debug _ h
    rw [dispatch_node, pure_eq_ok] at h
    subst h
    obtain ⟨l, hl, _⟩ := stmt_code_module_ln g s addr target port_mapping port_debug
    exact ⟨l, hl⟩
  · intro g s s' addr target body h
    rw [dispatch_node_switch, bind_eq_ok] at h
    obtain ⟨s1, h1, h2⟩ := h
    rw [pure_eq_ok] at h2
    subst h2
    exact ⟨_, s1, by simp, h1, by simp⟩

theorem switch_not_stamped_witness :
    (dispatch_node Example.gen_debug CodeGen.init (.Assign Example.q_c)).map
        (fun s => s.verilog_ln) = .ok [(23, 1)] ∧
    (∃ s' l, dispatch_node Example.gen_debug CodeGen.init Example.seq = .ok s' ∧
      s'.verilog_ln = (20, 1) :: l) ∧
    (∃ s' l, dispatch_node Example.gen_debug CodeGen.init Example.if_chain = .ok s' ∧
      s'.verilog_ln = (30, 1) :: l) ∧
    (∃ s' l, dispatch_node Example.gen_debug CodeGen.init Example.inst = .ok s' ∧
      s'.verilog_ln = (36, 1) :: l) := by
  have h := switch_not_stamped
  refine ⟨?_, ?_, ?_, ?_⟩
  · obtain ⟨s', hs⟩ : ∃ s', dispatch_node Example.gen_debug CodeGen.init
        (.Assign Example.q_c) = .ok s' := ⟨_, rfl⟩
    rw [hs]
    exact congrArg Except.ok (h.1 Example.gen_debug CodeGen.init s' Example.q_c rfl
      (by decide) (by decide) hs)
  · obtain ⟨s', hs⟩ : ∃ s', dispatch_node Example.gen_debug CodeGen.init Example.seq
        = .ok s' := ⟨_, rfl⟩
    obtain ⟨l, hl⟩ := h.2.1 Example.gen_debug CodeGen.init s' 20 _ _ rfl hs
    exact ⟨s', l, hs, hl⟩
  · obtain ⟨s', hs⟩ : ∃ s', dispatch_node Example.gen_debug CodeGen.init Example.if_chain
        = .ok s' := ⟨_, rfl⟩
    obtain ⟨l, hl⟩ := h.2.2.2.1 Example.gen_debug CodeGen.init s' 30 _ _ _ rfl hs
    exact ⟨s', l, hs, hl⟩
  · obtain ⟨s', hs⟩ : ∃ s', dispatch_node Example.gen_debug CodeGen.init Example.inst
        = .ok s' := ⟨_, rfl⟩
    obtain ⟨l, hl⟩ := h.2.2.2.2.1 Example.gen_debug CodeGen.init s' 36 _ _ _ rfl hs
    exact ⟨s', l, hs, hl⟩

/-! ## Declarations of variables -/

theorem get_var_of_nodup :
    ∀ (vars : List Var), (vars.map (fun v => v.name)).Nodup → ∀ v ∈ vars,
      vars.find? (fun u => decide (u.name = v.name)) = some v
  | [], _, v, hv => absurd hv (List.not_mem_nil _)
  | u :: rest, hn, v, hv => by
    rw [List.map_cons, List.nodup_cons] at hn
    rcases List.mem_cons.mp hv with rfl | hm
    · simp
    · have hne : u.name ≠ v.name := by
        intro he
        exact hn.1 (he ▸ List.mem_map_of_mem (fun v => v.name) hm)
      rw [List.find?_cons_of_neg _ (by simpa using hne)]
      exact get_var_of_nodup rest hn.2 v hm

theorem filterMap_get_var (g : Generator) (hn : g.get_vars.Nodup) :
    ∀ (l : List Var), (∀ v ∈ l, v ∈ g.vars) →
      (l.map (fun v => v.name)).filterMap g.get_var = l
  | [], _ => rfl
  | v :: rest, h => by
    have hv : g.get_var v.name = some v :=
      get_var_of_nodup g.vars hn v (h v (List.mem_cons_self _ _))
    rw [List.map_cons, List.filterMap_cons_some hv,
      filterMap_get_var g hn rest (fun u hu => h u (List.mem_cons_of_mem _ hu))]

theorem visited_vars_eq (g : Generator) (hn : g.get_vars.Nodup) : visited_vars g = g.vars :=
  filterMap_get_var g hn g.vars (fun _ h => h)

theorem filter_name_of_nodup :
    ∀ (vars : List Var), (vars.map (fun v => v.name)).Nodup → ∀ v ∈ vars,
      vars.filter (fun u => decide (u.name = v.name)) = [v]
  | [], _, v, hv => absurd hv (List.not_mem_nil _)
  | u :: rest, hn, v, hv => by
    rw [List.map_cons, List.nodup_cons] at hn
    rcases List.mem_cons.mp hv with rfl | hm
    · rw [List.filter_cons_of_pos (by simp)]
      congr 1
      rw [List.filter_eq_nil_iff]
      intro w hw hc
      exact hn.1 ((of_decide_eq_true hc) ▸ List.mem_map_of_mem (fun v => v.name) hw)
    · have hne : u.name ≠ v.name := by
        intro he
        exact hn.1 (he ▸ List.mem_map_of_mem (fun v => v.name) hm)
      rw [List.filter_cons_of_neg (by simpa using hne)]
      exact filter_name_of_nodup rest hn.2 v hm

/-- C18: `generate_variables` succeeds and writes the declaration lines of the
variables of kind Base, in the order of the variable map, and nothing else: a
variable of the map has exactly one line when its kind is Base and none when
it is of any other kind (the names of the map are its keys, hence distinct). -/
theorem generate_variables_base_only (g : Generator) (s : CodeGen) (hn : g.get_vars.Nodup) :
    ∃ s', generate_variables g s = .ok s' ∧
      s'.stream_ = s.stream_ ++
        concat ((g.vars.filter (fun v => decide (v.type = VarType.Base))).map var_line) ∧
      ∀ v ∈ g.vars,
        (((g.vars.filter (fun v => decide (v.type = VarType.Base))).filter
          (fun u => decide (u.name = v.name))).length = if v.type = VarType.Base then 1 else 0) := by
  obtain ⟨s', h1, h2, _⟩ := generate_variables_spec g s
  refine ⟨s', h1, ?_, ?_⟩
  · rw [h2, var_lines, visited_vars_eq g hn]
  · intro v hv
    rw [List.filter_comm, filter_name_of_nodup g.vars hn v hv]
    by_cases hb : v.type = VarType.Base
    · rw [if_pos hb, List.filter_cons_of_pos (by simpa using hb)]
      rfl
    · rw [if_neg hb, List.filter_cons_of_neg (by simpa using hb)]
      rfl

theorem generate_variables_base_only_witness :
    ∃ s', generate_variables Example.gen_kinds CodeGen.init = .ok s' ∧
      s'.stream_ = "logic signed [7:0] m;\nlogic   n;\n" := by
  obtain ⟨s', h1, h2, _⟩ := generate_variables_base_only Example.gen_kinds CodeGen.init
    (by decide)
  exact ⟨s', h1, h2.trans (by decide)⟩

/-- C19 (counterexample): the declaration of the unsigned 1-bit variable `n`
is `logic   n;` with three spaces, not `logic n;`. -/
theorem one_bit_var_declaration_spaces :
    Example.n.is_signed = false ∧ Example.n.width = 1 ∧
    (Stream.var Example.gen CodeGen.init Example.n).stream_ = "logic   n;\n" ∧
    (Stream.var Example.gen CodeGen.init Example.n).stream_ ≠ "logic n;\n" := by
  refine ⟨rfl, rfl, by decide, by decide⟩

/-- C19 (amended): the declaration line of a variable is `logic `, then
`signed` when the variable is signed, a space, the width `[w-1:0]` when
`w > 1`, a space, the name and `;`: both separating spaces are written whether
or not the token before them is present. -/
theorem var_declaration_text (g : Generator) (s : CodeGen) (var : Var)
    (hw : var.width < 2 ^ 32) :
    (var.is_signed = true → 1 < var.width → (Stream.var g s var).stream_ = s.stream_ ++
      ("logic signed " ++ ("[" ++ Nat.repr (var.width - 1) ++ ":0]") ++ " " ++ var.name ++ ";"
        ++ "\n")) ∧
    (var.is_signed = false → 1 < var.width → (Stream.var g s var).stream_ = s.stream_ ++
      ("logic  " ++ ("[" ++ Nat.repr (var.width - 1) ++ ":0]") ++ " " ++ var.name ++ ";"
        ++ "\n")) ∧
    (var.is_signed = true → var.width ≤ 1 → (Stream.var g s var).stream_ = s.stream_ ++
      ("logic signed  " ++ var.name ++ ";" ++ "\n")) ∧
    (var.is_signed = false → var.width ≤ 1 → (Stream.var g s var).stream_ = s.stream_ ++
      ("logic   " ++ var.name ++ ";" ++ "\n")) := by
  refine ⟨fun hs h => ?_, fun hs h => ?_, fun hs h => ?_, fun hs h => ?_⟩
  · have e : (2 ^ 32 + var.width - 1) % 2 ^ 32 = var.width - 1 := by omega
    rw [stream_var_stream, var_line, get_var_width_str, if_pos h, e, hs]
    rfl
  · have e : (2 ^ 32 + var.width - 1) % 2 ^ 32 = var.width - 1 := by omega
    rw [stream_var_stream, var_line, get_var_width_str, if_pos h, e, hs]
    rfl
  · rw [stream_var_stream, var_line, get_var_width_str,
      if_neg (show ¬ var.width > 1 by omega), hs]
    rfl
  · rw [stream_var_stream, var_line, get_var_width_str,
      if_neg (show ¬ var.width > 1 by omega), hs]
    rfl

theorem var_declaration_text_witness :
    (Stream.var Example.gen CodeGen.init Example.m).stream_ = "logic signed [7:0] m;\n" ∧
    (Stream.var Example.gen CodeGen.init Example.c).stream_ = "logic  [3:0] c;\n" ∧
    (Stream.var Example.gen CodeGen.init Example.n).stream_ = "logic   n;\n" :=
  ⟨(var_declaration_text Example.gen CodeGen.init Example.m (by decide)).1 rfl (by decide),
   (var_declaration_text Example.gen CodeGen.init Example.c (by decide)).2.1 rfl (by decide),
   (var_declaration_text Example.gen CodeGen.init Example.n (by decide)).2.2.2 rfl (by decide)⟩

/-! ## Construction of assignments -/

/-- C20 (counterexample): the widths of `a` and of the signed constant are
equal and their signedness differs, yet the assignment is constructed. -/
theorem assign_signed_constant_succeeds :
    Example.var1.width = Example.signed_const.width ∧
    Example.var1.is_signed ≠ Example.signed_const.is_signed ∧
    ∃ st, Var.assign [] 70 Example.var1 Example.signed_const AssignmentType.Undefined
      = (.ok st, [st]) :=
  ⟨rfl, by decide, ⟨_, rfl⟩⟩

/-- C20 (amended): `x.assign(y)` fails with WidthMismatch and creates no
AssignStmt when the widths of `x` and `y` differ; when the widths are equal,
the signedness differs and `y` is not a constant, it fails with
SignednessMismatch and creates no AssignStmt. -/
theorem assign_mismatch_fails (stmts : List AssignStmt) (addr : Nat) (x y : Var)
    (type : AssignmentType) :
    (x.width ≠ y.width →
      Var.assign stmts addr x y type = (.error .WidthMismatch, stmts)) ∧
    (x.width = y.width → x.is_signed ≠ y.is_signed → y.type ≠ VarType.ConstValue →
      Var.assign stmts addr x y type = (.error .SignednessMismatch, stmts)) := by
  refine ⟨fun hw => ?_, fun hw hs hc => ?_⟩
  · rw [Var.assign, if_pos hw]
  · have hcomp : compatible_signedness x y = false := by
      simp [compatible_signedness, hs, hc]
    rw [Var.assign, if_neg (by simpa using hw), hcomp]
    rfl

theorem assign_mismatch_fails_witness :
    Var.assign [] 70 Example.var1 Example.var3 AssignmentType.Undefined
      = (.error .WidthMismatch, []) ∧
    Var.assign [] 70 Example.var1 Example.var2 AssignmentType.Undefined
      = (.error .SignednessMismatch, []) :=
  ⟨(assign_mismatch_fails [] 70 Example.var1 Example.var3 AssignmentType.Undefined).1
      (by decide),
   (assign_mismatch_fails [] 70 Example.var1 Example.var2 AssignmentType.Undefined).2 rfl
      (by decide) (by decide)⟩

/-! ## Assignments that involve a port of another Generator -/

/-- C25: an AssignStmt one side of which is a port of a Generator other than
the one being emitted is skipped: the call succeeds and leaves the state as it
was (no text, no line, no write to `verilog_ln`), whatever the assignment
type, the parent and the debug flag; every other AssignStmt is passed to the
stream operator. -/
theorem foreign_port_assign_skipped (g : Generator) (s : CodeGen) (stmt : AssignStmt) :
    (((stmt.left.type = VarType.PortIO ∧ stmt.left.generator ≠ g.addr) ∨
        (stmt.right.type = VarType.PortIO ∧ stmt.right.generator ≠ g.addr)) →
      stmt_code_assign g s stmt = .ok s ∧ dispatch_node g s (.Assign stmt) = .ok s) ∧
    (¬ ((stmt.left.type = VarType.PortIO ∧ stmt.left.generator ≠ g.addr) ∨
        (stmt.right.type = VarType.PortIO ∧ stmt.right.generator ≠ g.addr)) →
      stmt_code_assign g s stmt = Stream.assign g s stmt ∧
        dispatch_node g s (.Assign stmt) = Stream.assign g s stmt) := by
  refine ⟨fun h => ?_, fun h => ?_⟩
  · have e : stmt_code_assign g s stmt = .ok s := by
      rw [stmt_code_assign, if_pos h]
    exact ⟨e, by rw [dispatch_node, e]⟩
  · have e : stmt_code_assign g s stmt = Stream.assign g s stmt := by
      rw [stmt_code_assign, if_neg h]
    exact ⟨e, by rw [dispatch_node, e]⟩

theorem foreign_port_assign_skipped_witness :
    dispatch_node Example.gen_debug CodeGen.init (.Assign Example.child_drive)
        = .ok CodeGen.init ∧
    dispatch_node Example.gen_debug CodeGen.init (.Assign Example.q_c)
        = Stream.assign Example.gen_debug CodeGen.init Example.q_c :=
  ⟨((foreign_port_assign_skipped Example.gen_debug CodeGen.init Example.child_drive).1
      (Or.inl (by decide))).2,
   ((foreign_port_assign_skipped Example.gen_debug CodeGen.init Example.q_c).2
      (by decide)).2⟩

/-! ## Balance of the indentation state, as a property of `dispatch_node` -/

/-- C23: a statement dispatched with no skip pending leaves the indentation
level as it was and no skip pending; an If dispatched with the skip flag set
(the `else if` of a chain) gets the empty text from its first `indent()` call,
which clears the flag, and it too ends at the level it started from with no
skip pending. -/
theorem indentation_balanced (g : Generator) (stmt : Stmt) (s s' : CodeGen)
    (h : dispatch_node g s stmt = .ok s') :
    (s.skip_indent_ = false → s'.indent_ = s.indent_ ∧ s'.skip_indent_ = false) ∧
    (∀ (addr : Nat) (predicate : Var) (then_body else_body : List Stmt),
      stmt = .If addr predicate then_body else_body → s.skip_indent_ = true →
      (indent (debug_verilog_ln g s addr)).1 = "" ∧
        (indent (debug_verilog_ln g s addr)).2.skip_indent_ = false ∧
        (indent (debug_verilog_ln g s addr)).2.indent_ = s.indent_ ∧
        s'.indent_ = s.indent_ ∧ s'.skip_indent_ = false) := by
  have hb := dispatch_node_balanced g stmt s s' h
  refine ⟨fun hk => ⟨hb.1, hb.2 (Or.inl hk)⟩, fun addr predicate then_body else_body hs hk => ?_⟩
  refine ⟨?_, ?_, ?_, hb.1, hb.2 (Or.inr (by rw [hs]; rfl))⟩
  · simp [indent, hk]
  · simp [indent, hk]
  · simp [indent, hk]

theorem indentation_balanced_witness :
    (∃ s', dispatch_node Example.gen { CodeGen.init with indent_ := 2 } Example.if_chain
        = .ok s' ∧ s'.indent_ = 2 ∧ s'.skip_indent_ = false) ∧
    (∃ s', dispatch_node Example.gen { CodeGen.init with indent_ := 2, skip_indent_ := true }
        Example.if_plain = .ok s' ∧ s'.indent_ = 2 ∧ s'.skip_indent_ = false) := by
  obtain ⟨s', hs⟩ : ∃ s', dispatch_node Example.gen { CodeGen.init with indent_ := 2 }
      Example.if_chain = .ok s' := ⟨_, rfl⟩
  obtain ⟨t', ht⟩ : ∃ t', dispatch_node Example.gen
      { CodeGen.init with indent_ := 2, skip_indent_ := true } Example.if_plain = .ok t' :=
    ⟨_, rfl⟩
  have h2 := (indentation_balanced Example.gen Example.if_plain _ t' ht).2 32 Example.a
    [.Assign Example.q_c_block] [] rfl rfl
  exact ⟨⟨s', hs, (indentation_balanced Example.gen Example.if_chain _ s' hs).1 rfl⟩,
    ⟨t', ht, h2.2.2.2⟩⟩

/-! ## Idempotence of assignment -/

theorem any_append_single (stmts : List AssignStmt) (st : AssignStmt) (p : AssignStmt → Bool) :
    (stmts ++ [st]).any p = (stmts.any p || p st) := by
  simp [List.any_append]

theorem mixed_self (t : AssignmentType) : mixed t t = false := by
  cases t <;> rfl

/-- C21: for width- and sign-compatible Vars `x` and `y` (and no AssignStmt of
the pair with the other explicit type), `x.assign(y)` returns an AssignStmt,
a second call returns the same AssignStmt and leaves the AssignStmts that
exist, hence the sinks and sources of every Var, as after the first call;
after a call with an explicit type a call for the same pair with the other
explicit type fails and creates nothing. -/
theorem assign_idempotent (stmts : List AssignStmt) (addr addr2 : Nat) (x y : Var)
    (type : AssignmentType) (hw : x.width = y.width) (hs : compatible_signedness x y = true)
    (hm : stmts.any (fun st => same_pair st x y && mixed st.assign_type type) = false) :
    ∃ st stmts1, Var.assign stmts addr x y type = (.ok st, stmts1) ∧
      Var.assign stmts1 addr2 x y type = (.ok st, stmts1) ∧
      (∀ v : Var, Var.sinks (Var.assign stmts1 addr2 x y type).2 v = Var.sinks stmts1 v ∧
        Var.sources (Var.assign stmts1 addr2 x y type).2 v = Var.sources stmts1 v) ∧
      (∀ type2 : AssignmentType, mixed type type2 = true →
        Var.assign stmts1 addr2 x y type2 = (.error .MixedAssignment, stmts1)) := by
  have hw2 : ¬ x.width ≠ y.width := by simpa using hw
  have hs2 : (!compatible_signedness x y) = false := by simp [hs]
  cases hf : stmts.find? (fun st => same_pair st x y && st.assign_type == type) with
  | some st =>
    have h1 : Var.assign stmts addr x y type = (.ok st, stmts) := by
      simp only [Var.assign, if_neg hw2, hs2, hm, hf]
      rfl
    have h2 : Var.assign stmts addr2 x y type = (.ok st, stmts) := by
      simp only [Var.assign, if_neg hw2, hs2, hm, hf]
      rfl
    refine ⟨st, stmts, h1, h2, fun v => by rw [h2]; exact ⟨rfl, rfl⟩, fun type2 hx => ?_⟩
    have hp := List.find?_some hf
    have hmem := List.mem_of_find?_eq_some hf
    simp only [Bool.and_eq_true, beq_iff_eq] at hp
    have hany : stmts.any (fun st => same_pair st x y && mixed st.assign_type type2) = true := by
      rw [List.any_eq_true]
      exact ⟨st, hmem, by rw [hp.1, hp.2, hx]; rfl⟩
    simp only [Var.assign, if_neg hw2, hs2, hany]
    rfl
  | none =>
    have hpair : same_pair
        (AssignStmt.mk addr x y type 0) x y = true := by
      simp [same_pair]
    have h1 : Var.assign stmts addr x y type = (.ok
        (AssignStmt.mk addr x y type 0),
        stmts ++ [(AssignStmt.mk addr x y type 0)]) := by
      simp only [Var.assign, if_neg hw2, hs2, hm, hf]
      rfl
    have hm2 : (stmts ++ [(AssignStmt.mk addr x y type 0)]).any
        (fun st => same_pair st x y && mixed st.assign_type type) = false := by
      rw [any_append_single, hm, hpair, mixed_self]
      rfl
    have hf2 : (stmts ++ [(AssignStmt.mk addr x y type 0)]).find?
        (fun st => same_pair st x y && st.assign_type == type) = some
        (AssignStmt.mk addr x y type 0) := by
      rw [List.find?_append, hf]
      simp [hpair]
    have h2 : Var.assign (stmts ++ [(AssignStmt.mk addr x y type 0)]) addr2 x y type = (.ok
        (AssignStmt.mk addr x y type 0),
        stmts ++ [(AssignStmt.mk addr x y type 0)]) := by
      simp only [Var.assign, if_neg hw2, hs2, hm2, hf2]
      rfl
    refine ⟨_, _, h1, h2, fun v => by rw [h2]; exact ⟨rfl, rfl⟩, fun type2 hx => ?_⟩
    have hany : (stmts ++ [(AssignStmt.mk addr x y type 0)]).any
        (fun st => same_pair st x y && mixed st.assign_type type2) = true := by
      rw [any_append_single, hpair, hx]
      simp
    simp only [Var.assign, if_neg hw2, hs2, hany]
    rfl

theorem assign_idempotent_witness :
    ∃ st stmts1,
      Var.assign [] 70 Example.var3 Example.var4 AssignmentType.Blocking = (.ok st, stmts1) ∧
      Var.assign stmts1 71 Example.var3 Example.var4 AssignmentType.Blocking
        = (.ok st, stmts1) ∧
      Var.assign stmts1 71 Example.var3 Example.var4 AssignmentType.NonBlocking
        = (.error .MixedAssignment, stmts1) := by
  obtain ⟨st, stmts1, h1, h2, _, h4⟩ := assign_idempotent [] 70 71 Example.var3 Example.var4
    AssignmentType.Blocking rfl rfl rfl
  exact ⟨st, stmts1, h1, h2, h4 AssignmentType.NonBlocking rfl⟩

/-! ## Interning of expressions -/

/-- C22: constructing `a op b` twice in one Generator yields the same Expr and
creates nothing the second time, and the name of the Expr is the canonical
text `(<a> <op> <b>)`, `(<op> <a>)` for a unary operator; the texts of the
expression test are `(in + out)`, `((a - b) >>> b)` and `(- a)`. -/
theorem expr_interning (exprs : List Expr) (addr addr2 : Nat) (op : ExprOp) (a : Var)
    (b : Option Var) :
    Var.expr (Var.expr exprs addr op a b).2 addr2 op a b
      = ((Var.expr exprs addr op a b).1, (Var.expr exprs addr op a b).2) ∧
    (Var.expr exprs addr op a b).1.name = expr_name op a b ∧
    (∀ right : Var, b = some right → (Var.expr exprs addr op a b).1.name
      = "(" ++ a.to_string ++ " " ++ ExprOpStr op ++ " " ++ right.to_string ++ ")") ∧
    (b = none → (Var.expr exprs addr op a b).1.name
      = "(" ++ ExprOpStr op ++ " " ++ a.to_string ++ ")") ∧
    (Var.expr [] 80 ExprOp.Add Example.p_in.toVar (some Example.p_out.toVar)).1.name
      = "(in + out)" ∧
    (Var.expr [] 82 ExprOp.SignedShiftRight
      (Var.expr [] 81 ExprOp.Minus Example.a (some Example.b)).1.toVar (some Example.b)).1.name
      = "((a - b) >>> b)" ∧
    (Var.expr [] 83 ExprOp.UMinus Example.a none).1.name = "(- a)" := by
  have hname : (Var.expr exprs addr op a b).1.name = expr_name op a b := by
    unfold Var.expr
    dsimp only
    cases hf : exprs.find? (fun e => e.name == expr_name op a b) with
    | some e =>
      have hp := List.find?_some hf
      simpa using hp
    | none => rfl
  refine ⟨?_, hname, ?_, ?_, by decide, by decide, by decide⟩
  · unfold Var.expr
    dsimp only
    cases hf : exprs.find? (fun e => e.name == expr_name op a b) with
    | some e =>
      simp only [hf]
    | none =>
      simp only [List.find?_append, hf]
      simp
  · intro right hb
    rw [hname, hb]
    rfl
  · intro hb
    rw [hname, hb]
    rfl

/-! ## Lines: splitting a text that was written line by line -/

theorem unlines_append : ∀ (a b : List String), unlines (a ++ b) = unlines a ++ unlines b
  | [], b => by simp [unlines]
  | l :: a, b => by
    rw [List.cons_append, unlines, unlines, unlines_append a b]
    simp [String.append_assoc]

theorem unlines_single (l : String) : unlines [l] = l ++ "\n" := by
  simp [unlines]

theorem lines_of_chars_line :
    ∀ (l rest : List Char), '\n' ∉ l → lines_of_chars (l ++ '\n' :: rest) = l :: lines_of_chars rest
  | [], rest, _ => by simp [lines_of_chars]
  | c :: l, rest, h => by
    have hc : c ≠ '\n' := fun e => h (e ▸ List.mem_cons_self _ _)
    have hl : '\n' ∉ l := fun e => h (List.mem_cons_of_mem _ e)
    rw [List.cons_append, lines_of_chars, if_neg hc, lines_of_chars_line l rest hl]

theorem single_line_iff (t : String) : single_line t = true ↔ '\n' ∉ t.data := by
  simp [single_line]

theorem unlines_data (l : String) (ls : List String) :
    (unlines (l :: ls)).data = l.data ++ '\n' :: (unlines ls).data := by
  rw [unlines, String.data_append, String.data_append]
  simp

theorem lines_unlines : ∀ (ls : List String), (∀ l ∈ ls, single_line l = true) →
    lines (unlines ls) = ls
  | [], _ => rfl
  | l :: ls, h => by
    have hl := (single_line_iff l).1 (h l (List.mem_cons_self _ _))
    have ih := lines_unlines ls (fun x hx => h x (List.mem_cons_of_mem _ hx))
    unfold lines at ih ⊢
    rw [unlines_data, lines_of_chars_line _ _ hl, List.map_cons, ih]

theorem single_line_append (a b : String) :
    single_line (a ++ b) = (single_line a && single_line b) := by
  simp [single_line, String.data_append, List.contains_eq_any_beq, List.any_append, Bool.not_or]

theorem single_line_spaces (n : Nat) : single_line (spaces n) = true := by
  rw [single_line_iff]
  intro h
  have := List.eq_of_mem_replicate h
  exact absurd this (by decide)

theorem single_line_indent_text (d : Nat) (k : Bool) : single_line (indent_text d k) = true := by
  unfold indent_text
  split
  · rfl
  · exact single_line_spaces _

/-! ## Lines: what kind of line a text is -/

theorem last_char_append (a b : String) (c : Char) (h : last_char b = some c) :
    last_char (a ++ b) = some c := by
  unfold last_char at h ⊢
  rw [String.data_append]
  cases hb : b.data with
  | nil => rw [hb] at h; cases h
  | cons x xs =>
    rw [hb] at h
    rw [List.getLast?_append_of_ne_nil _ (List.cons_ne_nil x xs)]
    exact h

theorem strip_spaces (n : Nat) (t : String) (h : ∀ c ∈ t.data.head?, c ≠ ' ') :
    strip (spaces n ++ t) = t.data := by
  unfold strip spaces
  rw [String.data_append]
  induction n with
  | zero =>
    simp only [List.replicate_zero, List.nil_append]
    cases ht : t.data with
    | nil => rfl
    | cons x xs =>
      have hx : x ≠ ' ' := h x (by rw [ht]; rfl)
      rw [List.dropWhile_cons_of_neg (by simpa using hx)]
  | succ n ih =>
    rw [List.replicate_succ, List.cons_append, List.dropWhile_cons_of_pos (by simp)]
    exact ih

theorem strip_decompose (l : String) :
    ∃ n, l.data = List.replicate n ' ' ++ strip l := by
  unfold strip
  refine ⟨(l.data.takeWhile (fun c => c == ' ')).length, ?_⟩
  have h1 : l.data.takeWhile (fun c => c == ' ')
      = List.replicate (l.data.takeWhile (fun c => c == ' ')).length ' ' := by
    rw [List.eq_replicate_iff]
    refine ⟨rfl, fun b hb => ?_⟩
    have := List.mem_takeWhile_imp hb
    simpa using this
  conv_lhs => rw [← List.takeWhile_append_dropWhile (fun c => c == ' ') l.data]
  rw [← h1]

theorem last_of_begin (l : String) (h : ends_in_begin l = true) : last_char l = some 'n' := by
  unfold ends_in_begin at h
  rw [List.isSuffixOf_iff_suffix] at h
  obtain ⟨t, ht⟩ := h
  unfold last_char
  rw [← ht, List.getLast?_append_of_ne_nil _ (by decide)]
  rfl

theorem last_of_strip (l : String) (r : List Char) (c : Char) (h : strip l = r)
    (hr : r.getLast? = some c) : last_char l = some c := by
  obtain ⟨n, hn⟩ := strip_decompose l
  unfold last_char
  rw [hn, h]
  cases hx : r with
  | nil => rw [hx] at hr; cases hr
  | cons x xs =>
    rw [List.getLast?_append_of_ne_nil _ (List.cons_ne_nil x xs), ← hx]
    exact hr

theorem last_of_end (l : String) (h : is_end_line l = true) : last_char l = some 'd' := by
  unfold is_end_line at h
  exact last_of_strip l "end".data 'd' (by simpa using h) rfl

theorem last_of_endcase (l : String) (h : is_endcase_line l = true) :
    last_char l = some 'e' := by
  unfold is_endcase_line at h
  exact last_of_strip l "endcase".data 'e' (by simpa using h) rfl

theorem last_of_case (l : String) (h : is_case_line l = true) : last_char l = some ')' := by
  unfold is_case_line at h
  simp only [Bool.and_eq_true, beq_iff_eq] at h
  exact h.2

theorem not_begin_of_last (l : String) (c : Char) (h : last_char l = some c) (hc : c ≠ 'n') :
    ends_in_begin l = false := by
  cases hb : ends_in_begin l with
  | false => rfl
  | true =>
    have := last_of_begin l hb
    rw [h] at this
    exact absurd (Option.some.inj this) hc

theorem not_end_of_last (l : String) (c : Char) (h : last_char l = some c) (hc : c ≠ 'd') :
    is_end_line l = false := by
  cases hb : is_end_line l with
  | false => rfl
  | true =>
    have := last_of_end l hb
    rw [h] at this
    exact absurd (Option.some.inj this) hc

theorem not_endcase_of_last (l : String) (c : Char) (h : last_char l = some c) (hc : c ≠ 'e') :
    is_endcase_line l = false := by
  cases hb : is_endcase_line l with
  | false => rfl
  | true =>
    have := last_of_endcase l hb
    rw [h] at this
    exact absurd (Option.some.inj this) hc

theorem not_case_of_last (l : String) (c : Char) (h : last_char l = some c) (hc : c ≠ ')') :
    is_case_line l = false := by
  cases hb : is_case_line l with
  | false => rfl
  | true =>
    have := last_of_case l hb
    rw [h] at this
    exact absurd (Option.some.inj this) hc

theorem neutral_of_last (l : String) (c : Char) (h : last_char l = some c)
    (hc : c ≠ 'n' ∧ c ≠ 'd' ∧ c ≠ ')' ∧ c ≠ 'e') : Neutral l :=
  ⟨not_begin_of_last l c h hc.1, not_end_of_last l c h hc.2.1,
    not_case_of_last l c h hc.2.2.1, not_endcase_of_last l c h hc.2.2.2⟩

theorem neutral_empty : Neutral "" := by
  refine ⟨by decide, by decide, by decide, by decide⟩

/-- A line that ends in the text `tail`, itself ending in `begin`. -/
theorem begin_line (a tail : String) (h : ends_in_begin tail = true) :
    ends_in_begin (a ++ tail) = true ∧ is_end_line (a ++ tail) = false ∧
      is_case_line (a ++ tail) = false ∧ is_endcase_line (a ++ tail) = false := by
  have hl : last_char (a ++ tail) = some 'n' := last_char_append a tail 'n' (last_of_begin tail h)
  refine ⟨?_, not_end_of_last _ _ hl (by decide), not_case_of_last _ _ hl (by decide),
    not_endcase_of_last _ _ hl (by decide)⟩
  unfold ends_in_begin at h ⊢
  rw [List.isSuffixOf_iff_suffix] at h ⊢
  rw [String.data_append]
  exact h.trans (List.suffix_append _ _)

theorem end_line (n : Nat) :
    ends_in_begin (spaces n ++ "end") = false ∧ is_end_line (spaces n ++ "end") = true ∧
      is_case_line (spaces n ++ "end") = false ∧ is_endcase_line (spaces n ++ "end") = false := by
  have hl : last_char (spaces n ++ "end") = some 'd' := last_char_append _ _ 'd' rfl
  refine ⟨not_begin_of_last _ _ hl (by decide), ?_, not_case_of_last _ _ hl (by decide),
    not_endcase_of_last _ _ hl (by decide)⟩
  unfold is_end_line
  rw [strip_spaces n "end" (by decide)]
  rfl

theorem endcase_line (n : Nat) :
    ends_in_begin (spaces n ++ "endcase") = false ∧ is_end_line (spaces n ++ "endcase") = false ∧
      is_case_line (spaces n ++ "endcase") = false ∧
      is_endcase_line (spaces n ++ "endcase") = true := by
  have hl : last_char (spaces n ++ "endcase") = some 'e' := last_char_append _ _ 'e' rfl
  refine ⟨not_begin_of_last _ _ hl (by decide), not_end_of_last _ _ hl (by decide),
    not_case_of_last _ _ hl (by decide), ?_⟩
  unfold is_endcase_line
  rw [strip_spaces n "endcase" (by decide)]
  rfl

theorem case_line (n : Nat) (t : String) :
    ends_in_begin (spaces n ++ ("case (" ++ t ++ ")")) = false ∧
      is_end_line (spaces n ++ ("case (" ++ t ++ ")")) = false ∧
      is_case_line (spaces n ++ ("case (" ++ t ++ ")")) = true ∧
      is_endcase_line (spaces n ++ ("case (" ++ t ++ ")")) = false := by
  have hl : last_char (spaces n ++ ("case (" ++ t ++ ")")) = some ')' :=
    last_char_append _ _ ')' (last_char_append _ _ ')' rfl)
  refine ⟨not_begin_of_last _ _ hl (by decide), not_end_of_last _ _ hl (by decide), ?_,
    not_endcase_of_last _ _ hl (by decide)⟩
  unfold is_case_line
  rw [strip_spaces n _ (by simp [String.data_append])]
  have hp : "case (".data.isPrefixOf ("case (" ++ t ++ ")").data = true := by
    rw [List.isPrefixOf_iff_prefix, String.data_append, String.data_append, List.append_assoc]
    exact List.prefix_append _ _
  have hl2 : (spaces n ++ ("case (" ++ t ++ ")")).data.getLast? = some ')' := hl
  rw [hp, hl2]
  rfl

/-- A line that starts, after its leading spaces, with a dot. -/
theorem dot_line (n : Nat) (t : String) (c : Char)
    (h : last_char (spaces n ++ ("." ++ t)) = some c) (hc : c ≠ 'n' ∧ c ≠ 'd' ∧ c ≠ 'e') :
    Neutral (spaces n ++ ("." ++ t)) := by
  refine ⟨not_begin_of_last _ _ h hc.1, not_end_of_last _ _ h hc.2.1, ?_,
    not_endcase_of_last _ _ h hc.2.2⟩
  unfold is_case_line
  rw [strip_spaces n _ (by simp [String.data_append])]
  have hp : "case (".data.isPrefixOf ("." ++ t).data = false := by
    rw [String.data_append]
    rfl
  rw [hp]
  rfl

/-! ## Lines: counting -/

theorem Balanced.nil : Balanced [] := ⟨rfl, rfl⟩

theorem Balanced.append {a b : List String} (ha : Balanced a) (hb : Balanced b) :
    Balanced (a ++ b) := by
  unfold Balanced at *
  simp only [List.countP_append]
  omega

theorem Balanced.neutral {l : String} {ls : List String} (hl : Neutral l) (h : Balanced ls) :
    Balanced (l :: ls) := by
  unfold Balanced at *
  obtain ⟨h1, h2, h3, h4⟩ := hl
  simp only [List.countP_cons, h1, h2, h3, h4]
  simpa using h

theorem Balanced.all_neutral : ∀ (ls : List String), (∀ l ∈ ls, Neutral l) → Balanced ls
  | [], _ => Balanced.nil
  | l :: ls, h => Balanced.neutral (h l (List.mem_cons_self _ _))
      (Balanced.all_neutral ls (fun x hx => h x (List.mem_cons_of_mem _ hx)))

theorem Balanced.block {hdr e : String} {inner : List String} (hh : IsBegin hdr) (he : IsEnd e)
    (hi : Balanced inner) : Balanced ([hdr] ++ inner ++ [e]) := by
  unfold Balanced at *
  obtain ⟨h1, h2, h3, h4⟩ := hh
  obtain ⟨e1, e2, e3, e4⟩ := he
  simp only [List.cons_append, List.nil_append, List.countP_cons, List.countP_append, List.countP_nil, h1, h2, h3, h4, e1, e2, e3, e4]
  simp
  omega

theorem Balanced.case_block {hdr e : String} {inner : List String} (hh : IsCase hdr)
    (he : IsEndcase e) (hi : Balanced inner) : Balanced ([hdr] ++ inner ++ [e]) := by
  unfold Balanced at *
  obtain ⟨h1, h2, h3, h4⟩ := hh
  obtain ⟨e1, e2, e3, e4⟩ := he
  simp only [List.cons_append, List.nil_append, List.countP_cons, List.countP_append, List.countP_nil, h1, h2, h3, h4, e1, e2, e3, e4]
  simp
  omega

theorem Pending.closed {e : String} {inner rest : List String} (hi : Balanced inner)
    (he : IsEnd e) (hr : Balanced rest) : Pending (inner ++ e :: rest) := by
  unfold Balanced at *
  unfold Pending
  obtain ⟨e1, e2, e3, e4⟩ := he
  simp only [List.countP_cons, List.countP_append, List.countP_nil, e1, e2, e3, e4]
  simp
  omega

theorem Pending.continued {e hdr : String} {inner rest : List String} (hi : Balanced inner)
    (he : IsEnd e) (hh : IsBegin hdr) (hr : Pending rest) :
    Pending (inner ++ e :: hdr :: rest) := by
  unfold Balanced at *
  unfold Pending at *
  obtain ⟨e1, e2, e3, e4⟩ := he
  obtain ⟨h1, h2, h3, h4⟩ := hh
  simp only [List.countP_cons, List.countP_append, List.countP_nil, e1, e2, e3, e4, h1, h2, h3, h4]
  simp
  omega

theorem Balanced.of_pending {hdr : String} {rest : List String} (hh : IsBegin hdr)
    (hr : Pending rest) : Balanced (hdr :: rest) := by
  unfold Balanced
  unfold Pending at hr
  obtain ⟨h1, h2, h3, h4⟩ := hh
  simp only [List.countP_cons, h1, h2, h3, h4]
  simp
  omega

theorem Written.none (s : CodeGen) : Written s s [] :=
  ⟨by simp [unlines], fun _ h => absurd h (List.not_mem_nil _)⟩

theorem Written.then_lines {s s1 s2 : CodeGen} {a b : List String} (h1 : Written s s1 a)
    (h2 : Written s1 s2 b) : Written s s2 (a ++ b) := by
  refine ⟨?_, fun l hl => ?_⟩
  · rw [h2.1, h1.1, unlines_append, String.append_assoc]
  · rcases List.mem_append.mp hl with h | h
    · exact h1.2 l h
    · exact h2.2 l h

/-! ## Lines: assignments -/

theorem stmt_code_assign_lines (g : Generator) (s s' : CodeGen) (stmt : AssignStmt)
    (hn : single_line stmt.left.to_string = true ∧ single_line stmt.right.to_string = true)
    (h : stmt_code_assign g s stmt = .ok s') :
    ∃ ls, Written s s' ls ∧ ∀ l ∈ ls, Neutral l := by
  obtain ⟨hl, hr⟩ := hn
  unfold stmt_code_assign at h
  split at h
  · cases h
    exact ⟨[], Written.none s, fun _ hx => absurd hx (List.not_mem_nil _)⟩
  · unfold Stream.assign at h
    dsimp only at h
    split at h
    · split at h
      · cases h
      · cases h
        refine ⟨["assign " ++ stmt.left.to_string ++ " = " ++ stmt.right.to_string ++ ";"],
          ⟨by simp [unlines, String.append_assoc], fun l hx => ?_⟩, fun l hx => ?_⟩
        · rw [List.mem_singleton] at hx
          subst hx
          simp only [single_line_append, hl, hr]
          decide
        · rw [List.mem_singleton] at hx
          subst hx
          exact neutral_of_last _ ';' (last_char_append _ _ _ rfl) (by decide)
    · split at h
      · cases h
        refine ⟨[indent_text s.indent_ s.skip_indent_ ++ stmt.left.to_string ++ " = "
            ++ stmt.right.to_string ++ ";"],
          ⟨by simp [unlines, String.append_assoc], fun l hx => ?_⟩, fun l hx => ?_⟩
        · rw [List.mem_singleton] at hx
          subst hx
          simp only [single_line_append, hl, hr, single_line_indent_text]
          decide
        · rw [List.mem_singleton] at hx
          subst hx
          exact neutral_of_last _ ';' (last_char_append _ _ _ rfl) (by decide)
      · split at h
        · cases h
          refine ⟨[indent_text s.indent_ s.skip_indent_ ++ stmt.left.to_string ++ " <= "
              ++ stmt.right.to_string ++ ";"],
            ⟨by simp [unlines, String.append_assoc], fun l hx => ?_⟩, fun l hx => ?_⟩
          · rw [List.mem_singleton] at hx
            subst hx
            simp only [single_line_append, hl, hr, single_line_indent_text]
            decide
          · rw [List.mem_singleton] at hx
            subst hx
            exact neutral_of_last _ ';' (last_char_append _ _ _ rfl) (by decide)
        · cases h

/-! ## Lines: module instantiation -/

theorem dot_line_neutral (n : Nat) (body : String) (c : Char)
    (hb : body.data.head? = some '.') (h : last_char body = some c)
    (hc : c ≠ 'n' ∧ c ≠ 'd' ∧ c ≠ 'e') : Neutral (spaces n ++ body) := by
  have hl := last_char_append (spaces n) body c h
  refine ⟨not_begin_of_last _ _ hl hc.1, not_end_of_last _ _ hl hc.2.1, ?_,
    not_endcase_of_last _ _ hl hc.2.2⟩
  unfold is_case_line
  rw [strip_spaces n body (by rw [hb]; intro c hx; cases hx; decide)]
  cases hd : body.data with
  | nil => rfl
  | cons x xs =>
    rw [hd] at hb
    cases hb
    rfl

theorem indent_text_eq_spaces (d : Nat) :
    indent_text d false = spaces ((d * indent_size) % 2 ^ 32) := rfl

theorem module_params_loop_lines (size : Nat) :
    ∀ (params : List (String × Param)) (count : Nat) (x : CodeGen) (base : String)
      (ls : List String) (p : String), x.skip_indent_ = false →
      params.all (fun np => single_line np.1 && single_line np.2.value_str) = true →
      x.stream_ = base ++ unlines ls ++ p →
      (∀ l ∈ ls, single_line l = true ∧ Neutral l) → single_line p = true →
      ∃ ls1 p1, (module_params_loop size count params x).stream_ = base ++ unlines ls1 ++ p1 ∧
        (∀ l ∈ ls1, single_line l = true ∧ Neutral l) ∧ single_line p1 = true
  | [], _, x, base, ls, p, _, _, hx, hls, hp => ⟨ls, p, hx, hls, hp⟩
  | (name, param) :: rest, count, x, base, ls, p, hk, hn, hx, hls, hp => by
    rw [List.all_cons, Bool.and_eq_true, Bool.and_eq_true] at hn
    obtain ⟨⟨hn1, hn2⟩, hrest⟩ := hn
    unfold module_params_loop
    dsimp only
    split
    · apply module_params_loop_lines size rest _ _ base ls
        (p ++ indent_text x.indent_ false ++ ("." ++ name ++ "(" ++ param.value_str ++ ")" ++ ")"))
        (by simp) hrest ?_ hls ?_
      · simp [hx, hk, String.append_assoc]
      · simp only [single_line_append, hp, hn1, hn2, single_line_indent_text]
        decide
    · apply module_params_loop_lines size rest _ _ base
        (ls ++ [p ++ indent_text x.indent_ false ++
          ("." ++ name ++ "(" ++ param.value_str ++ ")" ++ ",")]) ""
        (by simp) hrest ?_ ?_ rfl
      · simp [hx, hk, unlines_append, unlines, String.append_assoc]
      · intro l hl
        rcases List.mem_append.mp hl with h | h
        · exact hls l h
        · rw [List.mem_singleton] at h
          subst h
          refine ⟨?_, neutral_of_last _ ','
            (last_char_append _ _ _ (last_char_append _ _ _ rfl)) (by decide)⟩
          simp only [single_line_append, hp, hn1, hn2, single_line_indent_text]
          decide

theorem module_ports_loop_lines (g : Generator) (port_debug : List (Nat × Nat)) (size : Nat) :
    ∀ (mapping : List (Var × Var)) (count : Nat) (x : CodeGen), x.skip_indent_ = false →
      mapping.all (fun c => single_line c.1.to_string && single_line c.2.to_string) = true →
      ∃ ls, Written x (module_ports_loop g port_debug size count mapping x) ls ∧
        ∀ l ∈ ls, Neutral l
  | [], _, x, _, _ => ⟨[], Written.none x, fun _ h => absurd h (List.not_mem_nil _)⟩
  | (internal, external) :: rest, count, x, hk, hn => by
    rw [List.all_cons, Bool.and_eq_true, Bool.and_eq_true] at hn
    obtain ⟨⟨hn1, hn2⟩, hrest⟩ := hn
    unfold module_ports_loop
    dsimp only
    have hx : ∀ (y : CodeGen), y.stream_ = x.stream_ → y.indent_ = x.indent_ →
        y.skip_indent_ = false → ∀ (end_ : String), (end_ = ")," ∨ end_ = ")") →
        ∃ ls, Written x (module_ports_loop g port_debug size ((count + 1) % 2 ^ 32) rest
          (Stream.endl (Stream.write (Stream.write (indent y).2 (indent y).1)
            ("." ++ internal.to_string ++ "(" ++ external.to_string ++ end_)))) ls ∧
          ∀ l ∈ ls, Neutral l := by
      intro y hy1 hy2 hy3 end_ he
      obtain ⟨ls, hw, hneu⟩ := module_ports_loop_lines g port_debug size rest
        ((count + 1) % 2 ^ 32)
        (Stream.endl (Stream.write (Stream.write (indent y).2 (indent y).1)
          ("." ++ internal.to_string ++ "(" ++ external.to_string ++ end_))) (by simp) hrest
      have hend : single_line end_ = true ∧
          ∃ c, last_char end_ = some c ∧ c ≠ 'n' ∧ c ≠ 'd' ∧ c ≠ 'e' := by
        rcases he with rfl | rfl
        · exact ⟨rfl, ',', rfl, by decide⟩
        · exact ⟨rfl, ')', rfl, by decide⟩
      obtain ⟨hsl, c, hlast, hc⟩ := hend
      have hfirst : Written x (Stream.endl (Stream.write (Stream.write (indent y).2 (indent y).1)
          ("." ++ internal.to_string ++ "(" ++ external.to_string ++ end_)))
          [spaces ((x.indent_ * indent_size) % 2 ^ 32) ++
            ("." ++ internal.to_string ++ "(" ++ external.to_string ++ end_)] := by
        refine ⟨?_, fun l hl => ?_⟩
        · simp [hy1, hy2, hy3, indent_text_eq_spaces, unlines, String.append_assoc]
        · rw [List.mem_singleton] at hl
          subst hl
          simp only [single_line_append, hn1, hn2, hsl, single_line_spaces]
          decide
      refine ⟨_, hfirst.then_lines hw, fun l hl => ?_⟩
      rcases List.mem_append.mp hl with h | h
      · rw [List.mem_singleton] at h
        subst h
        exact dot_line_neutral _ _ c (by simp [String.data_append])
          (last_char_append _ _ _ hlast) hc
      · exact hneu l h
    have hend : ∀ b : Prop, [Decidable b] → ((if b then ")," else ")") = ")," ∨
        (if b then ")," else ")") = ")") := by
      intro b _
      by_cases hb : b
      · exact Or.inl (if_pos hb)
      · exact Or.inr (if_neg hb)
    split
    · exact hx (set_verilog_ln x _) rfl rfl hk _ (hend (count < (2 ^ 64 + size - 1) % 2 ^ 64))
    · exact hx x rfl rfl hk _ (hend (count < (2 ^ 64 + size - 1) % 2 ^ 64))

theorem stmt_code_module_lines (g : Generator) (s : CodeGen) (addr : Nat) (target : Target)
    (port_mapping : List (Var × Var)) (port_debug : List (Nat × Nat))
    (hk : s.skip_indent_ = false)
    (hn : (Stmt.ModuleInstantiation addr target port_mapping port_debug).single_line = true) :
    ∃ ls, Written s (stmt_code_module g s addr target port_mapping port_debug) ls ∧
      ∀ l ∈ ls, Neutral l := by
  simp only [Stmt.single_line, Bool.and_eq_true] at hn
  obtain ⟨⟨⟨hname, hinst⟩, hparams⟩, hports⟩ := hn
  -- the state in which the instance name is written
  have head : ∃ (x : CodeGen) (ls : List String) (p : String),
      stmt_code_module g s addr target port_mapping port_debug =
        indent_dec (Stream.endl (Stream.endl (Stream.write
          (module_ports_loop g port_debug port_mapping.length 0 port_mapping
            (indent_inc (Stream.endl (Stream.write (Stream.write (Stream.write x " ")
              target.instance_name) " (")))) ");"))) ∧
      x.skip_indent_ = false ∧ x.stream_ = s.stream_ ++ unlines ls ++ p ∧
      (∀ l ∈ ls, single_line l = true ∧ Neutral l) ∧ single_line p = true := by
    by_cases hp : (!target.params.isEmpty) = true
    · obtain ⟨ls1, p1, h1, h2, h3⟩ := module_params_loop_lines target.params.length
        target.params 0
        (indent_inc (Stream.endl (Stream.write (Stream.write
          (Stream.write (indent (set_verilog_ln s addr)).2 (indent (set_verilog_ln s addr)).1)
          target.name) " #(")))
        s.stream_ [indent_text s.indent_ false ++ target.name ++ " #("] ""
        (by simp) hparams (by simp [hk, unlines, String.append_assoc])
        (by
          intro l hl
          rw [List.mem_singleton] at hl
          subst hl
          refine ⟨?_, neutral_of_last _ '(' (last_char_append _ _ _ rfl) (by decide)⟩
          simp only [single_line_append, hname, single_line_indent_text]
          decide) rfl
      refine ⟨indent_dec (module_params_loop target.params.length 0 target.params
        (indent_inc (Stream.endl (Stream.write (Stream.write
          (Stream.write (indent (set_verilog_ln s addr)).2 (indent (set_verilog_ln s addr)).1)
          target.name) " #(")))), ls1, p1, ?_, ?_, ?_, h2, h3⟩
      · unfold stmt_code_module
        dsimp only
        rw [if_pos hp]
      · simp
        exact module_params_loop_skip _ _ _ _ (by simp)
      · simpa using h1
    · refine ⟨Stream.write
        (Stream.write (indent (set_verilog_ln s addr)).2 (indent (set_verilog_ln s addr)).1)
        target.name, [], indent_text s.indent_ false ++ target.name, ?_, ?_, ?_, ?_, ?_⟩
      · unfold stmt_code_module
        dsimp only
        rw [if_neg hp]
      · simp
      · simp [hk, unlines, String.append_assoc]
      · intro l hl
        exact absurd hl (List.not_mem_nil _)
      · simp only [single_line_append, hname, single_line_indent_text]
        decide
  obtain ⟨x, ls, p, hcode, hxk, hxs, hls, hp⟩ := head
  obtain ⟨pls, hw, hneu⟩ := module_ports_loop_lines g port_debug port_mapping.length
    port_mapping 0
    (indent_inc (Stream.endl (Stream.write (Stream.write (Stream.write x " ")
      target.instance_name) " ("))) (by simpa using hxk) hports
  rw [hcode]
  refine ⟨ls ++ [p ++ " " ++ target.instance_name ++ " ("] ++ pls ++ [");", ""], ⟨?_, ?_⟩, ?_⟩
  · simp [hw.1, hxs, unlines_append, unlines, String.append_assoc]
  · intro l hl
    simp only [List.mem_append, List.mem_singleton, List.mem_cons, List.not_mem_nil,
      or_false] at hl
    rcases hl with ((h | h) | h) | h
    · exact (hls l h).1
    · subst h
      simp only [single_line_append, hp, hinst]
      decide
    · exact hw.2 l h
    · rcases h with rfl | rfl <;> rfl
  · intro l hl
    simp only [List.mem_append, List.mem_singleton, List.mem_cons, List.not_mem_nil,
      or_false] at hl
    rcases hl with ((h | h) | h) | h
    · exact (hls l h).2
    · subst h
      exact neutral_of_last _ '(' (last_char_append _ _ _ rfl) (by decide)
    · exact hneu l h
    · rcases h with rfl | rfl
      · exact neutral_of_last _ ';' rfl (by decide)
      · exact neutral_empty

/-! ## Lines: the statement tree -/

theorem single_line_join : ∀ (xs : List String) (sep : String),
    (∀ x ∈ xs, single_line x = true) → single_line sep = true →
    single_line (join xs sep) = true
  | [], _, _, _ => rfl
  | [x], _, h, _ => h x (List.mem_singleton_self x)
  | x :: y :: rest, sep, h, hs => by
    rw [join, single_line_append, single_line_append, h x (List.mem_cons_self _ _), hs,
      single_line_join (y :: rest) sep (fun z hz => h z (List.mem_cons_of_mem _ hz)) hs]
    rfl

theorem single_line_sensitive_list (conditions : List (BlockEdgeType × Var))
    (h : conditions.all (fun c => single_line c.2.to_string) = true) :
    single_line (join (sensitive_list conditions) ", ") = true := by
  refine single_line_join (sensitive_list conditions) ", " (fun x hx => ?_) rfl
  unfold sensitive_list at hx
  rw [List.mem_map] at hx
  obtain ⟨c, hc, rfl⟩ := hx
  rw [List.all_eq_true] at h
  have hv := h c hc
  simp only [single_line_append, hv]
  split <;> rfl

theorem write_end (x : CodeGen) (hk : x.skip_indent_ = false) :
    ∃ e, Written x (write_line (indent_dec x) "end") [e] ∧ IsEnd e := by
  refine ⟨spaces (((x.indent_ - 1) * indent_size) % 2 ^ 32) ++ "end", ⟨?_, fun l hl => ?_⟩,
    end_line _⟩
  · simp [hk, indent_text_eq_spaces, unlines, String.append_assoc]
  · rw [List.mem_singleton] at hl
    subst hl
    simp only [single_line_append, single_line_spaces]
    rfl

theorem write_endcase (x : CodeGen) (hk : x.skip_indent_ = false) :
    ∃ e, Written x (write_line (indent_dec x) "endcase") [e] ∧ IsEndcase e := by
  refine ⟨spaces (((x.indent_ - 1) * indent_size) % 2 ^ 32) ++ "endcase",
    ⟨?_, fun l hl => ?_⟩, endcase_line _⟩
  · simp [hk, indent_text_eq_spaces, unlines, String.append_assoc]
  · rw [List.mem_singleton] at hl
    subst hl
    simp only [single_line_append, single_line_spaces]
    rfl

theorem written_line (s s1 : CodeGen) (l : String) (h1 : s1.stream_ = s.stream_ ++ l ++ "\n")
    (h2 : single_line l = true) : Written s s1 [l] := by
  refine ⟨by rw [h1, unlines_single, String.append_assoc], fun x hx => ?_⟩
  rw [List.mem_singleton] at hx
  subst hx
  exact h2

mutual

theorem dispatch_node_lines (g : Generator) :
    ∀ (stmt : Stmt) (s s' : CodeGen), stmt.single_line = true →
      dispatch_node g s stmt = .ok s' →
      (s.skip_indent_ = false → ∃ ls, Written s s' ls ∧ Balanced ls) ∧
      (∀ (addr : Nat) (predicate : Var) (then_body else_body : List Stmt),
        stmt = .If addr predicate then_body else_body →
        ∃ rest, Written (indent_inc (write_line (debug_verilog_ln g s addr)
            ("if (" ++ predicate.to_string ++ ") begin"))) s' rest ∧ Pending rest)
  | .NonStmt kind, s, s', _, h => by simp [dispatch_node] at h
  | .Other _, s, s', _, h => by simp [dispatch_node] at h
  | .Assign stmt, s, s', hn, h => by
    refine ⟨fun _ => ?_, fun _ _ _ _ hc => by cases hc⟩
    rw [dispatch_node] at h
    simp only [Stmt.single_line, Bool.and_eq_true] at hn
    obtain ⟨ls, hw, hneu⟩ := stmt_code_assign_lines g s s' stmt hn h
    exact ⟨ls, hw, Balanced.all_neutral ls hneu⟩
  | .ModuleInstantiation addr target port_mapping port_debug, s, s', hn, h => by
    refine ⟨fun hk => ?_, fun _ _ _ _ hc => by cases hc⟩
    rw [dispatch_node, pure_eq_ok] at h
    subst h
    obtain ⟨ls, hw, hneu⟩ := stmt_code_module_lines g s addr target port_mapping port_debug hk hn
    exact ⟨ls, hw, Balanced.all_neutral ls hneu⟩
  | .Sequential addr conditions children, s, s', hn, h => by
    refine ⟨fun hk => ?_, fun _ _ _ _ hc => by cases hc⟩
    rw [dispatch_node, bind_eq_ok] at h
    obtain ⟨s1, h1, h2⟩ := h
    rw [pure_eq_ok] at h2
    subst h2
    simp only [Stmt.single_line, Bool.and_eq_true] at hn
    obtain ⟨cls, hc, hb⟩ := dispatch_nodes_lines g children _ s1 hn.2 h1 (by simp [hk])
    have hk1 := (dispatch_nodes_balanced g children _ s1 h1).2 (by simp [hk])
    obtain ⟨e, he, hE⟩ := write_end s1 hk1
    have hj := single_line_sensitive_list conditions hn.1
    have hpre : Written s (indent_inc (Stream.endl (Stream.write (Stream.write (Stream.write
        (Stream.endl (debug_verilog_ln g s addr)) "always @(")
        (join (sensitive_list conditions) ", ")) ") begin")))
        ([""] ++ ["always @(" ++ join (sensitive_list conditions) ", " ++ ") begin"]) :=
      (written_line s (Stream.endl (debug_verilog_ln g s addr)) "" (by simp) rfl).then_lines
        (written_line _ _ _ (by simp [-String.reduceAppend, String.append_assoc])
          (by simp only [single_line_append, hj]; rfl))
    refine ⟨_, (hpre.then_lines hc).then_lines he, ?_⟩
    have hblock := Balanced.block (begin_line ("always @(" ++ join (sensitive_list conditions) ", ")
      ") begin" (by decide)) hE hb
    have := Balanced.neutral neutral_empty hblock
    simpa using this
  | .Combinational addr children, s, s', hn, h => by
    refine ⟨fun hk => ?_, fun _ _ _ _ hc => by cases hc⟩
    rw [dispatch_node, bind_eq_ok] at h
    obtain ⟨s1, h1, h2⟩ := h
    rw [pure_eq_ok] at h2
    subst h2
    simp only [Stmt.single_line] at hn
    obtain ⟨cls, hc, hb⟩ := dispatch_nodes_lines g children _ s1 hn h1 (by simp [hk])
    have hk1 := (dispatch_nodes_balanced g children _ s1 h1).2 (by simp [hk])
    obtain ⟨e, he, hE⟩ := write_end s1 hk1
    have hpre : Written s (indent_inc (Stream.endl (Stream.write (debug_verilog_ln g s addr)
        "always_comb begin"))) ["always_comb begin"] :=
      written_line _ _ _ (by simp) rfl
    refine ⟨_, (hpre.then_lines hc).then_lines he, ?_⟩
    exact Balanced.block (begin_line "always_comb " "begin" (by decide)) hE hb
  | .Switch _ target body, s, s', hn, h => by
    refine ⟨fun hk => ?_, fun _ _ _ _ hc => by cases hc⟩
    rw [dispatch_node_switch, bind_eq_ok] at h
    obtain ⟨s1, h1, h2⟩ := h
    rw [pure_eq_ok] at h2
    subst h2
    simp only [Stmt.single_line, Bool.and_eq_true] at hn
    obtain ⟨cls, hc, hb⟩ := switch_cases_lines g body _ s1 hn.2 h1 (by simp)
    have hk1 := (switch_cases_balanced g body _ s1 h1).2 (by simp)
    obtain ⟨e, he, hE⟩ := write_endcase s1 hk1
    have hpre : Written s (indent_inc (Stream.endl (Stream.write (Stream.write (Stream.write
        (Stream.write (indent s).2 (indent s).1) "case (") target.to_string) ")")))
        [spaces ((s.indent_ * indent_size) % 2 ^ 32) ++ ("case (" ++ target.to_string ++ ")")] :=
      written_line _ _ _ (by simp [-String.reduceAppend, hk, indent_text_eq_spaces, String.append_assoc])
        (by simp only [single_line_append, single_line_spaces, hn.1]; rfl)
    refine ⟨_, (hpre.then_lines hc).then_lines he, ?_⟩
    exact Balanced.case_block (case_line _ _) hE hb
  | .If addr predicate then_body else_body, s, s', hn, h => by
    simp only [Stmt.single_line, Bool.and_eq_true] at hn
    obtain ⟨⟨hnp, hnt⟩, hne⟩ := hn
    have partB : ∃ rest, Written (indent_inc (write_line (debug_verilog_ln g s addr)
        ("if (" ++ predicate.to_string ++ ") begin"))) s' rest ∧ Pending rest := by
      rw [dispatch_node_if, bind_eq_ok] at h
      obtain ⟨s1, h1, h2⟩ := h
      obtain ⟨tls, hc, hb⟩ := dispatch_nodes_lines g then_body _ s1 hnt h1 (by simp)
      have hk1 := (dispatch_nodes_balanced g then_body _ s1 h1).2 (by simp)
      obtain ⟨e, he, hE⟩ := write_end s1 hk1
      match else_body, hne, h2 with
      | [], _, h2 =>
        rw [else_code, pure_eq_ok] at h2
        subst h2
        exact ⟨_, hc.then_lines he, Pending.closed hb hE Balanced.nil⟩
      | if_stmt :: rest, hne, h2 =>
        rw [else_code] at h2
        simp only [single_line_list, Bool.and_eq_true] at hne
        by_cases hcond : (rest.isEmpty && if_stmt.is_if) = true
        · rw [if_pos hcond] at h2
          rw [Bool.and_eq_true] at hcond
          cases hif : if_stmt with
          | If addr2 predicate2 then_body2 else_body2 =>
            have hn2 := hne.1
            obtain ⟨rest2, hw2, hp2⟩ := (dispatch_node_lines g if_stmt _ s' hne.1 h2).2
              addr2 predicate2 then_body2 else_body2 hif
            rw [hif] at hn2
            simp only [Stmt.single_line, Bool.and_eq_true] at hn2
            have hhdr : Written (write_line (indent_dec s1) "end")
                (indent_inc (write_line (debug_verilog_ln g
                  ({ Stream.write (Stream.write (indent (write_line (indent_dec s1) "end")).2
                    (indent (write_line (indent_dec s1) "end")).1) "else " with
                    skip_indent_ := true } : CodeGen) addr2)
                  ("if (" ++ predicate2.to_string ++ ") begin")))
                [indent_text (s1.indent_ - 1) false ++ "else " ++ "if (" ++
                  predicate2.to_string ++ ") begin"] :=
              written_line _ _ _
                (by simp [-String.reduceAppend, indent_text_true, String.append_assoc])
                (by simp only [single_line_append, single_line_indent_text, hn2.1.1]; rfl)
            refine ⟨_, (hc.then_lines he).then_lines (hhdr.then_lines hw2), ?_⟩
            have := Pending.continued hb hE
              (begin_line (indent_text (s1.indent_ - 1) false ++ "else " ++ "if (" ++
                predicate2.to_string) ") begin" (by decide)) hp2
            simpa using this
          | _ => rw [hif] at hcond; simp [Stmt.is_if] at hcond
        · rw [if_neg hcond, bind_eq_ok] at h2
          obtain ⟨s2, h3, h4⟩ := h2
          rw [pure_eq_ok] at h4
          subst h4
          obtain ⟨els, hce, hbe⟩ := dispatch_nodes_lines g (if_stmt :: rest) _ s2
            (by simp only [single_line_list, Bool.and_eq_true]; exact hne) h3 (by simp)
          have hk2 := (dispatch_nodes_balanced g (if_stmt :: rest) _ s2 h3).2 (by simp)
          obtain ⟨e2, he2, hE2⟩ := write_end s2 hk2
          have hhdr : Written (write_line (indent_dec s1) "end")
              (indent_inc (write_line (write_line (indent_dec s1) "end") "else begin"))
              [indent_text (s1.indent_ - 1) false ++ "else begin"] :=
            written_line _ _ _ (by simp [-String.reduceAppend, String.append_assoc])
              (by simp only [single_line_append, single_line_indent_text]; rfl)
          refine ⟨_, (hc.then_lines he).then_lines ((hhdr.then_lines hce).then_lines he2), ?_⟩
          have := Pending.closed hb hE (Balanced.block
            (begin_line (indent_text (s1.indent_ - 1) false) "else begin" (by decide)) hE2 hbe)
          simpa using this
    refine ⟨fun hk => ?_, fun a p t e hc => ?_⟩
    · obtain ⟨rest, hw, hp⟩ := partB
      have hhdr : Written s (indent_inc (write_line (debug_verilog_ln g s addr)
          ("if (" ++ predicate.to_string ++ ") begin")))
          [indent_text s.indent_ false ++ "if (" ++ predicate.to_string ++ ") begin"] :=
        written_line _ _ _ (by simp [-String.reduceAppend, hk, String.append_assoc])
          (by simp only [single_line_append, single_line_indent_text, hnp]; rfl)
      refine ⟨_, hhdr.then_lines hw, ?_⟩
      exact Balanced.of_pending
        (begin_line (indent_text s.indent_ false ++ "if (" ++ predicate.to_string) ") begin"
          (by decide)) hp
    · cases hc
      exact partB

theorem dispatch_nodes_lines (g : Generator) :
    ∀ (stmts : List Stmt) (s s' : CodeGen), single_line_list stmts = true →
      dispatch_nodes g s stmts = .ok s' → s.skip_indent_ = false →
      ∃ ls, Written s s' ls ∧ Balanced ls
  | [], s, s', _, h, _ => by
    rw [dispatch_nodes, pure_eq_ok] at h
    subst h
    exact ⟨[], Written.none s, Balanced.nil⟩
  | stmt :: rest, s, s', hn, h, hk => by
    rw [dispatch_nodes, bind_eq_ok] at h
    obtain ⟨s1, h1, h2⟩ := h
    simp only [single_line_list, Bool.and_eq_true] at hn
    obtain ⟨ls1, hw1, hb1⟩ := (dispatch_node_lines g stmt s s1 hn.1 h1).1 hk
    have hk1 := (dispatch_node_balanced g stmt s s1 h1).2 (Or.inl hk)
    obtain ⟨ls2, hw2, hb2⟩ := dispatch_nodes_lines g rest s1 s' hn.2 h2 hk1
    exact ⟨_, hw1.then_lines hw2, hb1.append hb2⟩

theorem switch_cases_lines (g : Generator) :
    ∀ (body : List (Option Var × List Stmt)) (s s' : CodeGen), single_line_cases body = true →
      switch_cases g s body = .ok s' → s.skip_indent_ = false →
      ∃ ls, Written s s' ls ∧ Balanced ls
  | [], s, s', _, h, _ => by
    rw [switch_cases, pure_eq_ok] at h
    subst h
    exact ⟨[], Written.none s, Balanced.nil⟩
  | (first, second) :: rest, s, s', hn, h, hk => by
    have hne : second ≠ [] :=
      switch_cases_nonempty g _ s s' h (first, second) (List.mem_cons_self _ _)
    rw [switch_cases_cons g s first second rest hne, bind_eq_ok] at h
    obtain ⟨s1, h1, h2⟩ := h
    simp only [single_line_cases, Bool.and_eq_true] at hn
    obtain ⟨⟨hlabel, hsecond⟩, hrest⟩ := hn
    obtain ⟨cls, hc, hb⟩ := dispatch_nodes_lines g second _ s1 hsecond h1 (by simp)
    have hk1 := (dispatch_nodes_balanced g second _ s1 h1).2 (by simp)
    obtain ⟨e, he, hE⟩ := write_end s1 hk1
    obtain ⟨rls, hr, hbr⟩ := switch_cases_lines g rest _ s' hrest h2 (by simp)
    have hpre : Written s (indent_inc (Stream.endl (Stream.write (Stream.write (Stream.write
        (Stream.write (indent s).2 (indent s).1) (case_label first)) ": ") "begin")))
        [indent_text s.indent_ false ++ case_label first ++ ": " ++ "begin"] :=
      written_line _ _ _ (by simp [-String.reduceAppend, hk, String.append_assoc])
        (by simp only [single_line_append, single_line_indent_text, hlabel]; rfl)
    refine ⟨_, ((hpre.then_lines hc).then_lines he).then_lines hr, ?_⟩
    exact (Balanced.block (begin_line (indent_text s.indent_ false ++ case_label first ++ ": ")
      "begin" (by decide)) hE hb).append hbr

end


/-- C24: the text that `dispatch_node` writes for a statement tree (dispatched
with no skip pending, no text of the tree containing a newline character) on
which it completes has as many lines ending in `begin` as lines of leading
spaces followed by `end`, and as many head lines `case (...)` as `endcase`
lines. -/
theorem blocks_well_bracketed (g : Generator) (stmt : Stmt) (s s' : CodeGen)
    (hk : s.skip_indent_ = false) (hn : stmt.single_line = true)
    (h : dispatch_node g s stmt = .ok s') :
    ∃ text, s'.stream_ = s.stream_ ++ text ∧
      (lines text).countP ends_in_begin = (lines text).countP is_end_line ∧
      (lines text).countP is_case_line = (lines text).countP is_endcase_line := by
  obtain ⟨ls, hw, hb⟩ := (dispatch_node_lines g stmt s s' hn h).1 hk
  refine ⟨unlines ls, hw.1, ?_⟩
  rw [lines_unlines ls hw.2]
  exact hb

theorem blocks_well_bracketed_witness :
    (∃ s' text, dispatch_node Example.gen CodeGen.init Example.if_chain = .ok s' ∧
      s'.stream_ = CodeGen.init.stream_ ++ text ∧
      (lines text).countP ends_in_begin = (lines text).countP is_end_line ∧
      (lines text).countP is_case_line = (lines text).countP is_endcase_line) ∧
    lines "case (a)\n  1'h0: begin\n    q = c;\n  end\n  default: begin\n    q = d;\n  end\nendcase\n"
      = ["case (a)", "  1'h0: begin", "    q = c;", "  end", "  default: begin", "    q = d;",
        "  end", "endcase"] ∧
    ["case (a)", "  1'h0: begin", "    q = c;", "  end", "  default: begin", "    q = d;",
        "  end", "endcase"].map (fun l => (ends_in_begin l, is_end_line l, is_case_line l,
          is_endcase_line l))
      = [(false, false, true, false), (true, false, false, false), (false, false, false, false),
        (false, true, false, false), (true, false, false, false), (false, false, false, false),
        (false, true, false, false), (false, false, false, true)] := by
  refine ⟨?_, by decide, by decide⟩
  obtain ⟨s', hs⟩ : ∃ s', dispatch_node Example.gen CodeGen.init Example.if_chain = .ok s' :=
    ⟨_, rfl⟩
  obtain ⟨text, h1, h2, h3⟩ := blocks_well_bracketed Example.gen Example.if_chain CodeGen.init
    s' rfl rfl hs
  exact ⟨s', text, hs, h1, h2, h3⟩

end Kratos
